import Mathlib

/-!
Jeux game server: a shallow embedding and its verified properties.

The C sources embedded here are `game.c`, `player.c`, `invitation.c`,
`client.c` and parts of `server.c`.  Pointers are indices into the lists of a
`World`; a `none`
result of an operation that returns `Option` stands for undefined behaviour
of the C code (dereferencing NULL or indexing outside an array), while an
integer return value of `-1` is the C function's own failure code.
Locks and reference counts are left out: every operation is embedded as the
sequential run of its body.
-/

namespace Jeux

/-! ## game.c -/

/-- Modelled from the spec: the `GAME_ROLE` enumeration of the absent header
`game.h`, with the wire values of section 4.1 (0 = NULL, 1 = FIRST,
2 = SECOND).  A C enumeration is an integer, and `client.c` stores roles in
plain `int` variables, so a role is an `Int`. -/
abbrev GAME_ROLE := Int

/-- Modelled from the spec: `NULL_ROLE`, wire value 0. -/
abbrev NULL_ROLE : GAME_ROLE := 0

/-- Modelled from the spec: `FIRST_PLAYER_ROLE`, wire value 1. -/
abbrev FIRST_PLAYER_ROLE : GAME_ROLE := 1

/-- Modelled from the spec: `SECOND_PLAYER_ROLE`, wire value 2. -/
abbrev SECOND_PLAYER_ROLE : GAME_ROLE := 2

/-- The `char **board` of a game: three rows of three cells. -/
abbrev Board := Fin 3 → Fin 3 → Char

/-- The `struct game` of game.c (without its lock and reference count). -/
structure GAME where
  board : Board
  player_role : GAME_ROLE
  game_winner : GAME_ROLE
  over : Int

instance : DecidableEq GAME := fun a b =>
  decidable_of_iff
    (a.board = b.board ∧ a.player_role = b.player_role ∧
      a.game_winner = b.game_winner ∧ a.over = b.over)
    (by cases a; cases b; simp)

/-- The `struct game_move` of game.c. -/
structure GAME_MOVE where
  pos : Int
  row : Int
  col : Int
  player_role : GAME_ROLE
  deriving DecidableEq, Repr

/-- The assignment `board[row][col] = x`. -/
def setCell (b : Board) (row col : Fin 3) (x : Char) : Board :=
  fun i j => if i = row ∧ j = col then x else b i j

/-- An `int` used as an index into an array of three: `none` when it is
outside the array. -/
def cellIdx (i : Int) : Option (Fin 3) :=
  if h : 0 ≤ i ∧ i < 3 then some ⟨i.toNat, by omega⟩ else none

/-- The function `game_create`. -/
def game_create : GAME :=
  { board := fun _ _ => ' '
    player_role := FIRST_PLAYER_ROLE
    game_winner := NULL_ROLE
    over := 0 }

/-- The inner loop of the draw check of `win_check` for one row: the first
empty cell clears `draw` and leaves the loop. -/
def draw_row (b : Board) (row : Fin 3) (draw : Int) : Int :=
  if b row 0 = ' ' then 0
  else if b row 1 = ' ' then 0
  else if b row 2 = ' ' then 0
  else draw

/-- The value of the local variable `win` of `win_check` when it reaches the
final `if (win == 2)`. -/
def win_value (b : Board) (x : Char) : Int :=
  let win0 : Int :=
    if b 0 2 = x ∧ b 0 2 = b 1 1 ∧ b 1 1 = b 2 0 then 1
    else if b 0 0 = x ∧ b 0 0 = b 1 1 ∧ b 1 1 = b 2 2 then 1
    else 0
  let win1 : Int := (List.finRange 3).foldl
    (fun win row => if b row 0 = x ∧ b row 0 = b row 1 ∧ b row 1 = b row 2 then 1 else win) win0
  let win2 : Int := (List.finRange 3).foldl
    (fun win col => if b 0 col = x ∧ b 0 col = b 1 col ∧ b 1 col = b 2 col then 1 else win) win1
  if win2 = 0 then
    let draw : Int := (List.finRange 3).foldl (fun draw row => draw_row b row draw) 1
    if draw ≠ 0 then 2 else win2
  else win2

/-- The function `win_check`. -/
def win_check (game : GAME) (x : Char) (winner : GAME_ROLE) : GAME :=
  let win := win_value game.board x
  if win = 2 then { game with game_winner := NULL_ROLE, over := 1 }
  else if win = 1 then { game with game_winner := winner, over := 1 }
  else game

/-- The function `game_apply_move`: the returned integer is the C return
value; `none` is the out-of-bounds read of `board[move->row][move->col]`. -/
def game_apply_move (game : GAME) (move : GAME_MOVE) : Option (Int × GAME) := do
  let row ← cellIdx move.row
  let col ← cellIdx move.col
  if game.board row col ≠ ' ' then
    return (-1, game)
  if move.player_role = FIRST_PLAYER_ROLE then
    return (0, win_check
      { game with board := setCell game.board row col 'X', player_role := SECOND_PLAYER_ROLE }
      'X' FIRST_PLAYER_ROLE)
  else if move.player_role = SECOND_PLAYER_ROLE then
    return (0, win_check
      { game with board := setCell game.board row col 'O', player_role := FIRST_PLAYER_ROLE }
      'O' SECOND_PLAYER_ROLE)
  else
    return (-1, game)

/-- The function `game_is_over`. -/
def game_is_over (game : GAME) : Int := game.over

/-- The function `game_get_winner`. -/
def game_get_winner (game : GAME) : GAME_ROLE := game.game_winner

/-- The function `game_resign` on a non-NULL game (the NULL case is the
`none` branch of `inv_close`). -/
def game_resign (game : GAME) (role : GAME_ROLE) : Int × GAME :=
  if game_is_over game ≠ 0 then (-1, game)
  else
    (0, { game with
            game_winner := if role = FIRST_PLAYER_ROLE then SECOND_PLAYER_ROLE
                           else FIRST_PLAYER_ROLE
            over := 1 })

/-- The function `game_unparse_state`. -/
def game_unparse_state (game : GAME) : String :=
  let b := game.board
  let line (r : Fin 3) : String :=
    String.mk [b r 0, '|', b r 1, '|', b r 2, '\n']
  "Game Board:\n" ++ line 0 ++ "-----\n" ++ line 1 ++ "-----\n" ++ line 2 ++
    "player " ++ String.mk [if game.player_role = FIRST_PLAYER_ROLE then 'X' else 'O'] ++
    " turn\n"

/-- The C library predicate `isspace` in the C locale. -/
def isspaceC (c : Char) : Bool :=
  c = ' ' || c = '\t' || c = '\n' || c = '\x0b' || c = '\x0c' || c = '\r'

/-- The C library call `strtoul(str, &endptr, 10)` for a 64-bit
`unsigned long`: leading white space is skipped, one sign is accepted, the
longest run of decimal digits is converted (0 when there is none), a value
that does not fit is `ULONG_MAX`, and a minus sign negates modulo 2^64. -/
def strtoul (str : String) : Nat :=
  let cs := str.toList.dropWhile isspaceC
  let signed : Bool × List Char :=
    match cs with
    | '-' :: t => (true, t)
    | '+' :: t => (false, t)
    | _ => (false, cs)
  let ds := signed.2.takeWhile Char.isDigit
  let v := ds.foldl (fun acc d => acc * 10 + (d.toNat - 48)) 0
  if 2 ^ 64 ≤ v then 2 ^ 64 - 1
  else if signed.1 then (2 ^ 64 - v) % 2 ^ 64
  else v

/-- Conversion of an `unsigned long` to `int`: the low 32 bits, read as a
two's complement number. -/
def toInt32 (n : Nat) : Int :=
  if n % 2 ^ 32 < 2 ^ 31 then ((n % 2 ^ 32 : Nat) : Int)
  else ((n % 2 ^ 32 : Nat) : Int) - 2 ^ 32

/-- The function `game_parse_move`; `none` is the C function's NULL result.
`position - 1` is computed in `unsigned long`, so modulo 2^64. -/
def game_parse_move (game : GAME) (role : GAME_ROLE) (str : String) : Option GAME_MOVE :=
  if game.player_role = role then
    let position := strtoul str
    some
      { row := toInt32 ((position + 2 ^ 64 - 1) % 2 ^ 64 / 3)
        col := toInt32 ((position + 2 ^ 64 - 1) % 2 ^ 64 % 3)
        pos := toInt32 position
        player_role := role }
  else none

/-- The text that `fprintf(stream, "%d", n)` writes. -/
def fmt_d (n : Int) : String :=
  if n < 0 then "-" ++ toString n.natAbs else toString n.natAbs

/-- The function `game_unparse_move`. -/
def game_unparse_move (move : GAME_MOVE) : String :=
  fmt_d move.pos ++ (if move.player_role ≠ FIRST_PLAYER_ROLE then "<O" else "<X")

/-- Some row, column or diagonal of the board is fully occupied by `x`. -/
def hasLine (b : Board) (x : Char) : Prop :=
  (∃ r : Fin 3, b r 0 = x ∧ b r 1 = x ∧ b r 2 = x) ∨
  (∃ c : Fin 3, b 0 c = x ∧ b 1 c = x ∧ b 2 c = x) ∨
  (b 0 0 = x ∧ b 1 1 = x ∧ b 2 2 = x) ∨
  (b 0 2 = x ∧ b 1 1 = x ∧ b 2 0 = x)

instance (b : Board) (x : Char) : Decidable (hasLine b x) := by
  unfold hasLine; infer_instance

/-- Every cell of the board is occupied. -/
def boardFull (b : Board) : Prop := ∀ r c : Fin 3, b r c ≠ ' '

instance (b : Board) : Decidable (boardFull b) := by
  unfold boardFull; infer_instance

/-- The mark that `game_apply_move` writes for a role. -/
def markOf (r : GAME_ROLE) : Char := if r = FIRST_PLAYER_ROLE then 'X' else 'O'

/-- The role other than `r`, for `r` one of the two player roles. -/
def otherRole (r : GAME_ROLE) : GAME_ROLE :=
  if r = FIRST_PLAYER_ROLE then SECOND_PLAYER_ROLE else FIRST_PLAYER_ROLE

/-- Play a sequence of moves, each parsed by `game_parse_move` for the given
role and applied by `game_apply_move`; `none` when a text is refused, the
move is refused, or the board is indexed outside its bounds. -/
def playMoves (g : GAME) : List (GAME_ROLE × String) → Option GAME
  | [] => some g
  | (role, str) :: rest =>
    match game_parse_move g role str with
    | none => none
    | some m =>
      match game_apply_move g m with
      | some (0, g1) => playMoves g1 rest
      | _ => none

/-- Sequencing of two steps of a C function body: the second step runs on
the value of the first, and undefined behaviour (`none`) in the first ends
the run. -/
@[noinline] def andThen {α β : Type} (x : Option α) (f : α → Option β) : Option β :=
  match x with
  | none => none
  | some a => f a

/-! ## player.c -/

/-- The `struct player` of player.c (without its lock and reference count).
The `double` rating is taken in a field `F`. -/
structure PLAYER (F : Type) where
  username : String
  rating : F

/-- The function `player_create`, with `PLAYER_INITIAL_RATING` = 1500. -/
def player_create {F : Type} [Field F] (name : String) : PLAYER F :=
  { username := name, rating := 1500 }

/-- The scores `(p1_score, p2_score)` that the `switch` of
`player_post_result` assigns. -/
def post_scores {F : Type} [Field F] (result : Int) : F × F :=
  if result = 1 then (1, 0)
  else if result = 2 then (0, 1)
  else (1 / 2, 1 / 2)

/-- The function `player_post_result` on the table of players: `player1`
and `player2` are pointers (indices), `pow10 x` is the C library call
`pow(10, x)`, and `none` is the dereference of an invalid pointer.  The
function locks the mutexes of the two players before it reads the ratings:
when `player1` and `player2` are the same player, the second
`pthread_mutex_lock` asks for the default mutex that the first one holds and
does not return, and the call has no result (`none`).  The statements then
run in the order of the source: the rating of player 1 is stored before `E2`
is computed. -/
def player_post_result {F : Type} [Field F] (pow10 : F → F) (players : List (PLAYER F))
    (player1 player2 : Option Nat) (result : Int) : Option (List (PLAYER F)) :=
  let p1_score : F := (post_scores result).1
  let p2_score : F := (post_scores result).2
  andThen player1 fun i1 =>
  andThen player2 fun i2 =>
  andThen (players[i1]?) fun p1 =>
  andThen (players[i2]?) fun p2 =>
  if i1 = i2 then none else
  let E1 : F := 1 / (1 + pow10 ((p2.rating - p1.rating) / 400))
  let players1 := players.set i1 { p1 with rating := p1.rating + 32 * (p1_score - E1) }
  andThen (players1[i1]?) fun q1 =>
  andThen (players1[i2]?) fun q2 =>
  let E2 : F := 1 / (1 + pow10 ((q1.rating - q2.rating) / 400))
  some (players1.set i2 { q2 with rating := q2.rating + 32 * (p2_score - E2) })

/-! ## invitation.c -/

/-- Modelled from the spec: the `INVITATION_STATE` enumeration of the absent
header `invitation.h`, with the three states of section 4.4. -/
inductive INVITATION_STATE where
  | INV_OPEN_STATE
  | INV_ACCEPTED_STATE
  | INV_CLOSED_STATE
  deriving DecidableEq, Repr

open INVITATION_STATE

/-- The `struct invitation` of invitation.c (without its lock and reference
count).  `source` and `target` are client pointers, `none` being NULL; the
game is owned by the invitation and `none` is the NULL game pointer. -/
structure INVITATION where
  source : Option Nat
  target : Option Nat
  source_role : Int
  target_role : Int
  game : Option GAME
  state : INVITATION_STATE
  deriving DecidableEq

/-- The function `inv_create`; `none` is its NULL result. -/
def inv_create (source target : Option Nat) (source_role target_role : GAME_ROLE) :
    Option INVITATION :=
  if source = target then none
  else some
    { source := source, target := target
      source_role := source_role, target_role := target_role
      game := none, state := INV_OPEN_STATE }

/-- The function `inv_accept` on the invitation record. -/
def inv_accept (inv : INVITATION) : Int × INVITATION :=
  if inv.state = INV_OPEN_STATE then
    (0, { inv with state := INV_ACCEPTED_STATE, game := some game_create })
  else (-1, inv)

/-- The function `inv_close` on the invitation record; `game_resign` of a
NULL game returns -1. -/
def inv_close (inv : INVITATION) (role : GAME_ROLE) : Int × INVITATION :=
  if inv.state = INV_CLOSED_STATE then (-1, inv)
  else if role ≠ NULL_ROLE then
    match inv.game with
    | none => (-1, inv)
    | some g =>
      let r := game_resign g role
      if r.1 ≠ 0 then (-1, { inv with game := some r.2 })
      else (0, { inv with game := some r.2, state := INV_CLOSED_STATE })
  else (0, { inv with state := INV_CLOSED_STATE })

/-! ## protocol.c and client.c -/

/-- Modelled from the spec: the `JEUX_PACKET_TYPE` enumeration of the absent
header `protocol.h`, with the packet kinds of section 4.1 and the "no
packet" sentinel. -/
inductive JEUX_PACKET_TYPE where
  | JEUX_NO_PKT
  | JEUX_LOGIN_PKT
  | JEUX_USERS_PKT
  | JEUX_INVITE_PKT
  | JEUX_REVOKE_PKT
  | JEUX_ACCEPT_PKT
  | JEUX_DECLINE_PKT
  | JEUX_MOVE_PKT
  | JEUX_RESIGN_PKT
  | JEUX_ACK_PKT
  | JEUX_NACK_PKT
  | JEUX_INVITED_PKT
  | JEUX_REVOKED_PKT
  | JEUX_ACCEPTED_PKT
  | JEUX_DECLINED_PKT
  | JEUX_MOVED_PKT
  | JEUX_RESIGNED_PKT
  | JEUX_ENDED_PKT
  deriving DecidableEq, Repr

open JEUX_PACKET_TYPE

/-- Modelled from the spec: the `JEUX_PACKET_HEADER` of the absent header
`protocol.h`, with the fields of section 4.1 that the server fills in: the
one-byte `id` and `role` and the two-byte `size` (held here as the number it
encodes).  The time stamp is left out. -/
structure JEUX_PACKET_HEADER where
  type : JEUX_PACKET_TYPE
  id : Nat
  role : Nat
  size : Nat
  deriving DecidableEq, Repr

/-- An `int` stored into a one-byte unsigned header field. -/
def toU8 (n : Int) : Nat := (n % 256).toNat

/-- A length stored into the two-byte `size` field. -/
def toU16 (n : Nat) : Nat := n % 65536

/-- The C library call `strlen` on a string without an embedded NUL. -/
def strlen (s : String) : Nat := s.utf8ByteSize

/-- One call of `proto_send_packet`: the client whose connection is written
to, the header, and the data pointer (`none` is NULL). -/
structure SENT where
  client : Nat
  hdr : JEUX_PACKET_HEADER
  data : Option String
  deriving DecidableEq, Repr

/-- The `struct client` of client.c (without its lock and reference count).
The linked list `head .. tail` of invitation nodes is the list of the
invitation pointers the nodes hold, in order, and the field `len`, which
`client_add_invitation` and the removal loops keep equal to the number of
nodes, is the length of that list. -/
structure CLIENT where
  player : Option Nat
  fd : Int
  invitations : List Nat
  deriving DecidableEq, Repr

/-- The objects of a running server that client.c works on: the clients,
invitations and players, each addressed by its index, and the packets
written so far, oldest first. -/
structure World (F : Type) where
  clients : List CLIENT
  invitations : List INVITATION
  players : List (PLAYER F)
  sent : List SENT

variable {F : Type}

/-- Dereference of a client pointer. -/
def World.client (w : World F) (client : Option Nat) : Option CLIENT :=
  client.bind (fun c => w.clients[c]?)

/-- Dereference of an invitation pointer. -/
def World.inv (w : World F) (inv : Option Nat) : Option INVITATION :=
  inv.bind (fun i => w.invitations[i]?)

/-- Store into the client at address `c`. -/
def World.setClient (w : World F) (c : Nat) (cl : CLIENT) : World F :=
  { w with clients := w.clients.set c cl }

/-- Store into the invitation at address `i`. -/
def World.setInv (w : World F) (i : Nat) (r : INVITATION) : World F :=
  { w with invitations := w.invitations.set i r }

/-- The function `inv_get_source`. -/
def inv_get_source (w : World F) (inv : Option Nat) : Option (Option Nat) :=
  (w.inv inv).map (fun r => r.source)

/-- The function `inv_get_target`. -/
def inv_get_target (w : World F) (inv : Option Nat) : Option (Option Nat) :=
  (w.inv inv).map (fun r => r.target)

/-- The function `inv_get_source_role`. -/
def inv_get_source_role (w : World F) (inv : Option Nat) : Option GAME_ROLE :=
  (w.inv inv).map (fun r => r.source_role)

/-- The function `inv_get_target_role`. -/
def inv_get_target_role (w : World F) (inv : Option Nat) : Option GAME_ROLE :=
  (w.inv inv).map (fun r => r.target_role)

/-- The function `inv_get_game`: the inner `none` is the NULL game. -/
def inv_get_game (w : World F) (inv : Option Nat) : Option (Option GAME) :=
  (w.inv inv).map (fun r => r.game)

/-- The function `client_get_player`. -/
def client_get_player (w : World F) (client : Option Nat) : Option (Option Nat) :=
  (w.client client).map (fun cl => cl.player)

/-- The function `player_get_name`. -/
def player_get_name (w : World F) (player : Option Nat) : Option String :=
  (player.bind (fun p => w.players[p]?)).map (fun pl => pl.username)

/-- The loop of `get_invitation_index_by_client`, started at node list
`curr` with counter `index`. -/
def index_loop (inv : Option Nat) : List Nat → Int → Int
  | [], _ => -1
  | x :: next, index => if some x = inv then index else index_loop inv next (index + 1)

/-- The function `get_invitation_index_by_client`. -/
def get_invitation_index_by_client (w : World F) (client inv : Option Nat) : Option Int :=
  match client with
  | none => some (-1)
  | some c => (w.clients[c]?).map (fun cl => index_loop inv cl.invitations 0)

/-- The loop of `get_invitation_by_index`, started at node list `curr` with
counter `i`; `none` is NULL. -/
def by_index_loop (index : Int) : List Nat → Int → Option Nat
  | [], _ => none
  | x :: next, i => if i = index then some x else by_index_loop index next (i + 1)

/-- The function `get_invitation_by_index`; the inner `none` is NULL. -/
def get_invitation_by_index (w : World F) (client : Option Nat) (index : Int) :
    Option (Option Nat) :=
  match client with
  | none => some none
  | some c =>
    (w.clients[c]?).map (fun cl =>
      if index < 0 ∨ index ≥ cl.invitations.length then none
      else by_index_loop index cl.invitations 0)

/-- The function `client_send_packet`: one more packet on the client's
connection. -/
def client_send_packet (w : World F) (client : Option Nat) (hdr : JEUX_PACKET_HEADER)
    (data : Option String) : Option (World F) := do
  let c ← client
  let _ ← w.clients[c]?
  return { w with sent := w.sent ++ [{ client := c, hdr := hdr, data := data }] }

/-- The removal loop shared by `remove_inv` and `client_remove_invitation`:
the first node holding `inv` is unlinked; `none` when the loop runs off the
end of the list without finding one. -/
def unlink (inv : Option Nat) : List Nat → Option (List Nat)
  | [] => none
  | x :: next =>
    if some x = inv then some next
    else (unlink inv next).map (fun rest => x :: rest)

/-- The function `remove_inv`. -/
def remove_inv (w : World F) (client : Option Nat) (inv : Option Nat) : Option (World F) := do
  let c ← client
  let cl ← w.clients[c]?
  match unlink inv cl.invitations with
  | some rest => return w.setClient c { cl with invitations := rest }
  | none => return w

/-- The function `client_add_invitation`. -/
def client_add_invitation (w : World F) (client : Option Nat) (inv : Option Nat) :
    Option (Int × World F) := do
  let c ← client
  let cl ← w.clients[c]?
  let i ← inv
  let _ ← w.invitations[i]?
  return (0, w.setClient c { cl with invitations := cl.invitations ++ [i] })

/-- The function `client_remove_invitation`. -/
def client_remove_invitation (w : World F) (client : Option Nat) (inv : Option Nat) :
    Option (Int × World F) :=
  match client with
  | none => some (-1, w)
  | some c => do
    let source ← inv_get_source w inv
    let search ← if some c ≠ source then inv_get_target w inv else some (some c)
    let s ← search
    let cl ← w.clients[s]?
    match unlink inv cl.invitations with
    | some rest => return (0, w.setClient s { cl with invitations := rest })
    | none => return (-1, w)

/-- The in-place update of the game that an invitation points to. -/
def World.setGame (w : World F) (inv : Option Nat) (g : GAME) : Option (World F) :=
  andThen inv fun i =>
  andThen (w.invitations[i]?) fun r =>
  some (w.setInv i { r with game := some g })

/-- The function `inv_create` in the world: the new invitation gets the next
free address; the outer `none` is the dereference of an invalid client
pointer by `client_ref`, the inner `none` the NULL result. -/
def World.inv_create (w : World F) (source target : Option Nat)
    (source_role target_role : GAME_ROLE) : Option (Option Nat × World F) :=
  match Jeux.inv_create source target source_role target_role with
  | none => some (none, w)
  | some r =>
    andThen (w.client source) fun _ =>
    andThen (w.client target) fun _ =>
    some (some w.invitations.length, { w with invitations := w.invitations ++ [r] })

/-- The function `client_make_invitation`. -/
def client_make_invitation (w : World F) (source target : Option Nat)
    (source_role target_role : GAME_ROLE) : Option (Int × World F) :=
  andThen (w.inv_create source target source_role target_role) fun (inv, w1) =>
  if inv = none then some (-1, w1) else
  andThen (client_add_invitation w1 source inv) fun (r1, w2) =>
  if r1 ≠ 0 then some (-1, w2) else
  andThen (client_add_invitation w2 target inv) fun (r2, w3) =>
  if r2 ≠ 0 then some (-1, w3) else
  andThen (get_invitation_index_by_client w3 source inv) fun id_one =>
  andThen (client_send_packet w3 source
    { type := JEUX_ACK_PKT, id := toU8 id_one, role := 0, size := 0 } none) fun w4 =>
  andThen (client_get_player w4 source) fun player =>
  andThen (player_get_name w4 player) fun name =>
  andThen (inv_get_target_role w4 inv) fun target_role =>
  andThen (get_invitation_index_by_client w4 target inv) fun id_two =>
  andThen (client_send_packet w4 target
    { type := JEUX_INVITED_PKT, id := toU8 id_two, role := toU8 target_role,
      size := toU16 (strlen name) } (some name)) fun w5 =>
  some (0, w5)

/-- The function `client_revoke_invitation`. -/
def client_revoke_invitation (w : World F) (client : Option Nat) (id : Int) :
    Option (Int × World F) :=
  andThen (get_invitation_by_index w client id) fun inv =>
  andThen (inv_get_target w inv) fun target =>
  andThen (inv_get_source w inv) fun source =>
  if source ≠ client then some (-1, w) else
  andThen (client_get_player w client) fun player =>
  if player = none then some (-1, w) else
  andThen (inv_get_game w inv) fun game =>
  if game.isSome ∨ target = none then some (-1, w) else
  andThen (get_invitation_index_by_client w target inv) fun target_id =>
  andThen (w.inv inv) fun r =>
  andThen inv fun i =>
  let w1 := w.setInv i (inv_close r NULL_ROLE).2
  andThen (remove_inv w1 client inv) fun w2 =>
  andThen (get_invitation_by_index w2 target target_id) fun inv_two =>
  if inv_two = inv then
    andThen (remove_inv w2 target inv) fun w3 =>
    andThen (client_send_packet w3 target
      { type := JEUX_REVOKED_PKT, id := toU8 target_id, role := 0, size := 0 } none) fun w4 =>
    some (0, w4)
  else some (-1, w2)

/-- The function `client_decline_invitation`. -/
def client_decline_invitation (w : World F) (client : Option Nat) (id : Int) :
    Option (Int × World F) :=
  andThen (get_invitation_by_index w client id) fun inv =>
  andThen (inv_get_target w inv) fun target =>
  andThen (w.client client) fun cl =>
  if cl.player = none then some (-1, w) else
  if target ≠ client then some (-1, w) else
  andThen (inv_get_game w inv) fun game =>
  if game.isSome then some (-1, w) else
  andThen (get_invitation_index_by_client w client inv) fun source_id =>
  andThen (w.inv inv) fun r =>
  andThen inv fun i =>
  let w1 := w.setInv i (inv_close r NULL_ROLE).2
  andThen (inv_get_source w1 inv) fun source =>
  andThen (remove_inv w1 client inv) fun w2 =>
  andThen (get_invitation_by_index w2 source source_id) fun inv_two =>
  if inv_two = inv then
    andThen (remove_inv w2 source inv) fun w3 =>
    andThen (client_send_packet w3 source
      { type := JEUX_DECLINED_PKT, id := toU8 source_id, role := 0, size := 0 } none) fun w4 =>
    some (0, w4)
  else some (-1, w2)

/-- The function `client_accept_invitation`: the second component of the
result is the string stored through `strp`, `none` when nothing is
stored. -/
def client_accept_invitation (w : World F) (client : Option Nat) (id : Int) :
    Option (Int × Option String × World F) :=
  andThen (get_invitation_by_index w client id) fun inv =>
  if inv = none then some (-1, none, w) else
  andThen (w.client client) fun cl =>
  if cl.player = none then some (-1, none, w) else
  andThen (w.inv inv) fun r =>
  andThen inv fun i =>
  let w1 := w.setInv i (inv_accept r).2
  if (inv_accept r).1 ≠ 0 then some (-1, none, w1) else
  andThen (inv_get_game w1 inv) fun game =>
  andThen game fun g =>
  let game_state := game_unparse_state g
  andThen (get_invitation_index_by_client w1 client inv) fun idx =>
  andThen (inv_get_target_role w1 inv) fun target_role =>
  andThen (inv_get_source w1 inv) fun source =>
  if target_role = FIRST_PLAYER_ROLE then
    andThen (client_send_packet w1 source
      { type := JEUX_ACCEPTED_PKT, id := toU8 idx, role := 0, size := 0 } none) fun w2 =>
    some (0, some game_state, w2)
  else
    andThen (client_send_packet w1 source
      { type := JEUX_ACCEPTED_PKT, id := toU8 idx, role := 0,
        size := toU16 (strlen game_state) } (some game_state)) fun w2 =>
    some (0, none, w2)

/-- The function `client_resign_game`. -/
def client_resign_game [Field F] (pow10 : F → F) (w : World F) (client : Option Nat)
    (id : Int) : Option (Int × World F) :=
  andThen (w.client client) fun cl =>
  if cl.player = none then some (-1, w) else
  andThen (get_invitation_by_index w client id) fun inv =>
  if inv = none then some (-1, w) else
  andThen (inv_get_source w inv) fun source =>
  andThen (if source ≠ client then inv_get_target_role w inv
    else inv_get_source_role w inv) fun role =>
  andThen (if source ≠ client then inv_get_source w inv else inv_get_target w inv) fun target =>
  andThen (get_invitation_index_by_client w target inv) fun target_id =>
  andThen (w.inv inv) fun r =>
  andThen inv fun i =>
  let w1 := w.setInv i (inv_close r role).2
  if (inv_close r role).1 ≠ 0 then some (-1, w1) else
  andThen (inv_get_game w1 inv) fun game =>
  if game.isNone then some (-1, w1) else
  andThen (inv_get_source w1 inv) fun source1 =>
  andThen (if source1 ≠ client then inv_get_source_role w1 inv
    else inv_get_target_role w1 inv) fun winner =>
  andThen (client_get_player w1 source1) fun source_player =>
  andThen (inv_get_target w1 inv) fun target1 =>
  andThen (client_get_player w1 target1) fun target_player =>
  andThen (player_post_result pow10 w1.players source_player target_player winner)
    fun players =>
  let w2 : World F := { w1 with players := players }
  andThen (client_remove_invitation w2 target inv) fun (_, w3) =>
  andThen (client_remove_invitation w3 client inv) fun (_, w4) =>
  andThen (client_send_packet w4 target
    { type := JEUX_RESIGNED_PKT, id := toU8 target_id, role := 0, size := 0 } none) fun w5 =>
  some (0, w5)

/-- The function `display_game_results`. -/
def display_game_results [Field F] (pow10 : F → F) (w : World F) (inv : Option Nat)
    (winner : Int) : Option (World F) :=
  andThen (inv_get_source w inv) fun source =>
  andThen (client_get_player w source) fun source_player =>
  andThen (inv_get_target w inv) fun target =>
  andThen (client_get_player w target) fun target_player =>
  andThen (inv_get_target_role w inv) fun target_role =>
  if winner = target_role then
    andThen (player_post_result pow10 w.players target_player source_player winner)
      fun players => some { w with players := players }
  else
    andThen (player_post_result pow10 w.players source_player target_player winner)
      fun players => some { w with players := players }

/-- The function `determine_winner`. -/
def determine_winner (w : World F) (inv : Option Nat) (game : GAME) :
    Option (Int × World F) :=
  let winner := game_get_winner game
  andThen (inv_get_source w inv) fun source =>
  andThen (get_invitation_index_by_client w source inv) fun id_source =>
  andThen (client_send_packet w source
    { type := JEUX_ENDED_PKT, id := toU8 id_source, role := toU8 winner, size := 0 } none)
    fun w1 =>
  andThen (inv_get_target w1 inv) fun target =>
  andThen (get_invitation_index_by_client w1 target inv) fun id_target =>
  andThen (client_send_packet w1 target
    { type := JEUX_ENDED_PKT, id := toU8 id_target, role := toU8 winner, size := 0 } none)
    fun w2 =>
  some (winner, w2)

/-- The function `client_make_move`. -/
def client_make_move [Field F] (pow10 : F → F) (w : World F) (client : Option Nat)
    (id : Int) (move : String) : Option (Int × World F) :=
  andThen (w.client client) fun cl =>
  if cl.player = none then some (-1, w) else
  andThen (get_invitation_by_index w client id) fun inv =>
  andThen (inv_get_game w inv) fun game =>
  match game with
  | none => some (-1, w)
  | some g =>
    andThen (inv_get_source w inv) fun source =>
    andThen (if source ≠ client then inv_get_target_role w inv
      else inv_get_source_role w inv) fun role =>
    andThen (if source ≠ client then inv_get_source w inv else inv_get_target w inv)
      fun target =>
    andThen (get_invitation_index_by_client w target inv) fun id_two =>
    match game_parse_move g role move with
    | none => some (-1, w)
    | some game_move =>
      andThen (game_apply_move g game_move) fun (rc, g1) =>
      andThen (w.setGame inv g1) fun w1 =>
      if rc = -1 then some (-1, w1) else
      let game_state := game_unparse_state g1
      andThen (client_send_packet w1 target
        { type := JEUX_MOVED_PKT, id := toU8 id_two, role := 0,
          size := toU16 (strlen game_state) } (some game_state)) fun w2 =>
      if game_is_over g1 ≠ 0 then
        andThen (determine_winner w2 inv g1) fun (winner, w3) =>
        andThen (display_game_results pow10 w3 inv winner) fun w4 =>
        andThen (client_remove_invitation w4 target inv) fun (_, w5) =>
        andThen (client_remove_invitation w5 client inv) fun (_, w6) =>
        some (0, w6)
      else some (0, w2)

/-- The function `client_send_ack`. -/
def client_send_ack (w : World F) (client : Option Nat) (data : Option String)
    (datalen : Nat) : Option (World F) :=
  andThen client fun c =>
  andThen (w.clients[c]?) fun _ =>
  some { w with sent := w.sent ++
    [{ client := c
       hdr := { type := JEUX_ACK_PKT, id := 0, role := 0, size := toU16 datalen }
       data := data }] }

/-- The function `client_send_nack`. -/
def client_send_nack (w : World F) (client : Option Nat) : Option (World F) :=
  andThen client fun c =>
  andThen (w.clients[c]?) fun _ =>
  some { w with sent := w.sent ++
    [{ client := c
       hdr := { type := JEUX_NACK_PKT, id := 0, role := 0, size := 0 }
       data := none }] }

/-! ## server.c -/

/-- The `case JEUX_MOVE_PKT` of the loop of `jeux_client_service`, for a
packet with the given `id` and payload text. -/
def service_move_pkt [Field F] (pow10 : F → F) (w : World F) (client : Option Nat)
    (id : Int) (payload : String) : Option (World F) :=
  andThen (client_make_move pow10 w client id payload) fun r =>
  if r.1 = -1 then client_send_nack r.2 client
  else client_send_ack r.2 client none 0

/-- The `case JEUX_ACCEPT_PKT` of the loop of `jeux_client_service`, for a
packet with the given `id`. -/
def service_accept_pkt (w : World F) (client : Option Nat) (id : Int) : Option (World F) :=
  andThen (client_accept_invitation w client id) fun r =>
  if r.1 = -1 then client_send_nack r.2.2 client
  else
    match r.2.1 with
    | some strp => client_send_ack r.2.2 client (some strp) (strlen strp)
    | none => client_send_ack r.2.2 client none 0

/-- One call on an invitation: `inv_accept(inv)` or `inv_close(inv, role)`. -/
inductive INV_CALL where
  | accept
  | close (role : GAME_ROLE)

/-- The invitation after one call, with the call's return value. -/
def inv_call (inv : INVITATION) : INV_CALL → Int × INVITATION
  | INV_CALL.accept => inv_accept inv
  | INV_CALL.close role => inv_close inv role

/-- The invitation after a sequence of calls, made one after the other,
whatever each call returns. -/
def inv_calls (inv : INVITATION) : List INV_CALL → INVITATION
  | [] => inv
  | c :: rest => inv_calls (inv_call inv c).2 rest

/-! ## client.c: login and logout -/

/-- The function `client_login`. -/
def client_login (w : World F) (client : Option Nat) (player : Option Nat) :
    Option (Int × World F) :=
  match player with
  | none => some (-1, w)
  | some p =>
    andThen client fun c =>
    andThen (w.clients[c]?) fun cl =>
    some (0, w.setClient c { cl with player := some p })

/-- The loop of `client_logout`, at the node list `curr` with counter
`index`.  The nodes of a list hold different invitations
(`client_make_invitation` puts a new invitation once into each list) and,
as long as no node has been unlinked, `index` is the position of `curr`; so
a callee that unlinks a node from the list of the client unlinks and frees
the node `curr` points to.  The loop then reads `curr->next` from the freed
node, which has no defined result (`none`).  When the callee leaves the list
as it was, the loop goes on with the next node.  The return values of the
callees are not looked at. -/
def logout_loop [Field F] (pow10 : F → F) (w : World F) (client : Option Nat) :
    List Nat → Int → Option (World F)
  | [], _ => some w
  | x :: next, index =>
    andThen (w.client client) fun cl =>
    andThen (inv_get_game w (some x)) fun game =>
    andThen (if game.isSome then (client_resign_game pow10 w client index).map Prod.snd
      else
        andThen (inv_get_source w (some x)) fun source =>
        if source = client then (client_revoke_invitation w client index).map Prod.snd
        else (client_decline_invitation w client index).map Prod.snd) fun w1 =>
    andThen (w1.client client) fun cl1 =>
    if cl1.invitations = cl.invitations then logout_loop pow10 w1 client next (index + 1)
    else none

/-- The function `client_logout`. -/
def client_logout [Field F] (pow10 : F → F) (w : World F) (client : Option Nat) :
    Option (Int × World F) :=
  match client with
  | none => some (-1, w)
  | some c =>
    andThen (w.clients[c]?) fun cl =>
    if cl.player = none then some (-1, w) else
    andThen (logout_loop pow10 w (some c) cl.invitations 0) fun w1 =>
    andThen (w1.clients[c]?) fun cl1 =>
    some (0, w1.setClient c { cl1 with player := none })

/-! ## client_registry.c and player_registry.c -/

/-- The `struct client_registry` of client_registry.c (without its locks):
the client pointers held by the nodes `head .. tail`, in registration order,
and the field `len`.  Every node holds what `client_create` returned, a
non-NULL pointer. -/
structure CLIENT_REGISTRY where
  clients : List Nat
  len : Int
  deriving DecidableEq, Repr

/-- The loop of `creg_lookup`, at node list `curr`, with the value that the
variable `curr_client` holds; the result is the value of `curr_client` when
the loop ends, by `break` or by reaching the end of the list. -/
def lookup_loop (w : World F) (user : String) : List Nat → Option Nat → Option (Option Nat)
  | [], curr_client => some curr_client
  | c :: next, _ =>
    andThen (client_get_player w (some c)) fun curr_player =>
    match curr_player with
    | none => lookup_loop w user next (some c)
    | some p =>
      andThen (player_get_name w (some p)) fun name =>
      if name = user then some (some c) else lookup_loop w user next (some c)

/-- The function `creg_lookup`; the inner `none` is NULL. -/
def creg_lookup (w : World F) (cr : CLIENT_REGISTRY) (user : String) : Option (Option Nat) :=
  lookup_loop w user cr.clients none

/-- The function `creg_unregister` on a non-NULL registry. -/
def creg_unregister (cr : CLIENT_REGISTRY) (client : Option Nat) : Int × CLIENT_REGISTRY :=
  match client with
  | none => (-1, cr)
  | some _ =>
    match unlink client cr.clients with
    | some rest => (0, { clients := rest, len := cr.len - 1 })
    | none => (-1, cr)

/-- The loop of `creg_all_players`: the players of the registered clients
that have one, in registration order. -/
def all_players_loop (w : World F) : List Nat → Option (List Nat)
  | [] => some []
  | c :: next =>
    andThen (client_get_player w (some c)) fun curr_player =>
    andThen (all_players_loop w next) fun rest =>
    match curr_player with
    | none => some rest
    | some p => some (p :: rest)

/-- Modelled from the spec: the constant `MAX_CLIENTS` of an absent header,
the capacity 64 of the client registry. -/
def MAX_CLIENTS : Nat := 64

/-- The function `creg_all_players`: the filled part of the array of
`MAX_CLIENTS` pointers it allocates; `none` also when the loop writes past
the end of the array. -/
def creg_all_players (w : World F) (cr : CLIENT_REGISTRY) : Option (List Nat) :=
  andThen (all_players_loop w cr.clients) fun player_list =>
  if MAX_CLIENTS < player_list.length then none else some player_list

/-- The search loop of `preg_register`, at node list `curr`; `i` is the
address of the player that the node `curr` holds. -/
def preg_loop (name : String) : List (PLAYER F) → Nat → Option Nat
  | [], _ => none
  | pl :: next, i => if pl.username = name then some i else preg_loop name next (i + 1)

/-- The function `preg_register`.  The nodes of the player registry hold the
players of the server in the order of their creation: every player is
created here and none is removed, so the node list is the table
`World.players`. -/
def preg_register [Field F] (w : World F) (name : String) : Option Nat × World F :=
  match preg_loop name w.players 0 with
  | some p => (some p, w)
  | none => (some w.players.length, { w with players := w.players ++ [player_create name] })

/-! ## server.c: the session -/

/-- The function `send_invite`.  `name` is the text of the payload, of which
the function makes a NUL-terminated copy of `len` bytes, `len` being the
size of the payload. -/
def send_invite (w : World F) (cr : CLIENT_REGISTRY) (client : Option Nat) (name : String)
    (role : Int) : Option (World F) :=
  andThen (client_get_player w client) fun player =>
  andThen (creg_lookup w cr name) fun target =>
  if target = none ∨ player = none ∨
      (role ≠ FIRST_PLAYER_ROLE ∧ role ≠ SECOND_PLAYER_ROLE) then
    client_send_nack w client
  else
    let src_role := if role = SECOND_PLAYER_ROLE then FIRST_PLAYER_ROLE else SECOND_PLAYER_ROLE
    let target_role :=
      if role = SECOND_PLAYER_ROLE then SECOND_PLAYER_ROLE else FIRST_PLAYER_ROLE
    andThen (client_make_invitation w client target src_role target_role) fun r =>
    if r.1 = -1 then client_send_nack r.2 client else some r.2

/-- The text that the loop of `show_users` prints for a list of players:
one line `name TAB rating` each, the rating converted to `int` by
`player_get_rating`; `toInt` is that conversion of a `double`. -/
def users_text (toInt : F → Int) (w : World F) : List Nat → Option String
  | [] => some ""
  | p :: rest =>
    andThen (w.players[p]?) fun pl =>
    andThen (users_text toInt w rest) fun tail =>
    some (pl.username ++ "\t" ++ fmt_d (toInt pl.rating) ++ "\n" ++ tail)

/-- The function `show_users`; `none` also when all `MAX_CLIENTS` entries
of the array are filled, so that the loop reads past its end. -/
def show_users (toInt : F → Int) (w : World F) (cr : CLIENT_REGISTRY) (client : Option Nat) :
    Option (World F) :=
  andThen (creg_all_players w cr) fun player_list =>
  if MAX_CLIENTS ≤ player_list.length then none else
  andThen (users_text toInt w player_list) fun buf =>
  client_send_ack w client (some buf) (strlen buf)

/-- The function `login`; `name` is the text of the payload. -/
def login [Field F] (w : World F) (client : Option Nat) (name : String) : Option (World F) :=
  andThen (client_get_player w client) fun player =>
  if player ≠ none then client_send_nack w client else
  andThen (client_login (preg_register w name).2 client (preg_register w name).1) fun r =>
  if r.1 = 0 then client_send_ack r.2 client none 0
  else client_send_nack r.2 client

/-- The `case JEUX_REVOKE_PKT` of the loop of `jeux_client_service`. -/
def service_revoke_pkt (w : World F) (client : Option Nat) (id : Int) : Option (World F) :=
  andThen (client_revoke_invitation w client id) fun r =>
  if r.1 = -1 then client_send_nack r.2 client
  else client_send_ack r.2 client none 0

/-- The `case JEUX_DECLINE_PKT` of the loop of `jeux_client_service`. -/
def service_decline_pkt (w : World F) (client : Option Nat) (id : Int) : Option (World F) :=
  andThen (client_decline_invitation w client id) fun r =>
  if r.1 = -1 then client_send_nack r.2 client
  else client_send_ack r.2 client none 0

/-- The `case JEUX_RESIGN_PKT` of the loop of `jeux_client_service`. -/
def service_resign_pkt [Field F] (pow10 : F → F) (w : World F) (client : Option Nat)
    (id : Int) : Option (World F) :=
  andThen (client_resign_game pow10 w client id) fun r =>
  if r.1 = -1 then client_send_nack r.2 client
  else client_send_ack r.2 client none 0

/-- One turn of the loop of `jeux_client_service`, for the packet with
header `hdr` and payload text `payload` that `proto_recv_packet` delivered:
the state and the client registry afterwards, and whether the loop goes on
(`false` after the `default` case, which logs the client out, unregisters it
and returns). -/
def jeux_client_service [Field F] (pow10 : F → F) (toInt : F → Int) (w : World F)
    (cr : CLIENT_REGISTRY) (client : Option Nat) (hdr : JEUX_PACKET_HEADER)
    (payload : String) : Option (World F × CLIENT_REGISTRY × Bool) :=
  match hdr.type with
  | JEUX_LOGIN_PKT => (login w client payload).map fun w1 => (w1, cr, true)
  | JEUX_USERS_PKT => (show_users toInt w cr client).map fun w1 => (w1, cr, true)
  | JEUX_INVITE_PKT =>
    (send_invite w cr client payload (hdr.role : Int)).map fun w1 => (w1, cr, true)
  | JEUX_REVOKE_PKT =>
    (service_revoke_pkt w client (hdr.id : Int)).map fun w1 => (w1, cr, true)
  | JEUX_ACCEPT_PKT =>
    (service_accept_pkt w client (hdr.id : Int)).map fun w1 => (w1, cr, true)
  | JEUX_DECLINE_PKT =>
    (service_decline_pkt w client (hdr.id : Int)).map fun w1 => (w1, cr, true)
  | JEUX_MOVE_PKT =>
    (service_move_pkt pow10 w client (hdr.id : Int) payload).map fun w1 => (w1, cr, true)
  | JEUX_RESIGN_PKT =>
    (service_resign_pkt pow10 w client (hdr.id : Int)).map fun w1 => (w1, cr, true)
  | _ =>
    andThen (w.client client) fun _ =>
    andThen (client_logout pow10 w client) fun r =>
    some (r.2, (creg_unregister cr client).2, false)

/-! ## client_registry.c and player_registry.c: registration -/

/-- The function `client_create`: the client that `calloc` and the
assignments leave, without a player and without invitations. -/
def client_create (fd : Int) : CLIENT :=
  { player := none, fd := fd, invitations := [] }

/-- The function `creg_init`. -/
def creg_init : CLIENT_REGISTRY := { clients := [], len := 0 }

/-- The function `creg_register`: the new client gets the next free address
and a node at the tail of the registry; the first component is the pointer
returned, `none` being NULL. -/
def creg_register (w : World F) (cr : CLIENT_REGISTRY) (fd : Int) :
    Option Nat × World F × CLIENT_REGISTRY :=
  if cr.len = 64 then (none, w, cr)
  else
    (some w.clients.length,
     { w with clients := w.clients ++ [client_create fd] },
     { clients := cr.clients ++ [w.clients.length], len := cr.len + 1 })

/-- One call on the client registry: `creg_register(cr, fd)` or
`creg_unregister(cr, client)`. -/
inductive CREG_CALL where
  | register (fd : Int)
  | unregister (client : Option Nat)

/-- The clients and the registry after one call. -/
def creg_call (s : World F × CLIENT_REGISTRY) : CREG_CALL → World F × CLIENT_REGISTRY
  | CREG_CALL.register fd => (creg_register s.1 s.2 fd).2
  | CREG_CALL.unregister client => (s.1, (creg_unregister s.2 client).2)

/-- The clients and the registry after a sequence of calls, made one after
the other, whatever each call returns. -/
def creg_calls (s : World F × CLIENT_REGISTRY) : List CREG_CALL → World F × CLIENT_REGISTRY
  | [] => s
  | c :: rest => creg_calls (creg_call s c) rest

/-- The function `preg_init`: the state with an empty table of players. -/
def preg_init (w : World F) : World F := { w with players := [] }

/-- The state after a sequence of `preg_register` calls with the given
names. -/
def preg_calls [Field F] (w : World F) : List String → World F
  | [] => w
  | name :: rest => preg_calls (preg_register w name).2 rest
/-- What the calls on the registry keep: the field `len` is the number of
nodes, at most 64, and every registered client is a client of the server. -/
def cregOk (s : World F × CLIENT_REGISTRY) : Prop :=
  s.2.len = (s.2.clients.length : Int) ∧ s.2.clients.length ≤ 64 ∧
  ∀ x ∈ s.2.clients, x < s.1.clients.length

instance (s : World F × CLIENT_REGISTRY) : Decidable (cregOk s) := by
  unfold cregOk; infer_instance

/-! ## Sample server states -/

/-- A server with three logged-in clients (alice, bob and carol, all rated
1500) and no invitation. -/
def threeClients (F : Type) [Field F] : World F :=
  { clients := [{ player := some 0, fd := 4, invitations := [] },
                { player := some 1, fd := 5, invitations := [] },
                { player := some 2, fd := 6, invitations := [] }]
    invitations := []
    players := [player_create "alice", player_create "bob", player_create "carol"]
    sent := [] }

/-- The state in which alice (client 0) has invited bob and carol: her list
holds invitation 0 at id 0 and invitation 1 at id 1. -/
def aliceInvitedTwo : World ℚ :=
  { threeClients ℚ with
    clients := [{ player := some 0, fd := 4, invitations := [0, 1] },
                { player := some 1, fd := 5, invitations := [0] },
                { player := some 2, fd := 6, invitations := [1] }]
    invitations :=
      [{ source := some 0, target := some 1, source_role := FIRST_PLAYER_ROLE
         target_role := SECOND_PLAYER_ROLE, game := none, state := INV_OPEN_STATE },
       { source := some 0, target := some 2, source_role := FIRST_PLAYER_ROLE
         target_role := SECOND_PLAYER_ROLE, game := none, state := INV_OPEN_STATE }] }

/-- The state in which alice (client 0, playing FIRST) and bob (client 1,
playing SECOND) have a game in progress on a fresh board, as invitation 0 of
both lists. -/
def aliceBobPlaying : World ℚ :=
  { threeClients ℚ with
    clients := [{ player := some 0, fd := 4, invitations := [0] },
                { player := some 1, fd := 5, invitations := [0] },
                { player := some 2, fd := 6, invitations := [] }]
    invitations :=
      [{ source := some 0, target := some 1, source_role := FIRST_PLAYER_ROLE
         target_role := SECOND_PLAYER_ROLE, game := some game_create
         state := INV_ACCEPTED_STATE }] }

/-- The board whose nine cells, row by row, are the given characters. -/
def boardOf (cells : List Char) : Board :=
  fun r c => cells.getD (3 * r.val + c.val) ' '

/-- A state in which alice (client 0) is the source and bob (client 1) the
target of invitation 0, alice playing `source_role` and bob `target_role`,
and their game stands, after X:1, O:4, X:2, O:5, X:9, at
`XX. / OO. / ..X` with SECOND to move. -/
def midGame (F : Type) [Field F] (source_role target_role : GAME_ROLE) : World F :=
  { threeClients F with
    clients := [{ player := some 0, fd := 4, invitations := [0] },
                { player := some 1, fd := 5, invitations := [0] },
                { player := some 2, fd := 6, invitations := [] }]
    invitations :=
      [{ source := some 0, target := some 1, source_role := source_role
         target_role := target_role
         game := some
           { board := boardOf ['X', 'X', ' ', 'O', 'O', ' ', ' ', ' ', 'X']
             player_role := SECOND_PLAYER_ROLE, game_winner := NULL_ROLE, over := 0 }
         state := INV_ACCEPTED_STATE }] }

/-- A run of successful `client_make_move` calls, each given by the moving
client, the invitation id and the move text; `none` when a call fails. -/
def makeMoves [Field F] (pow10 : F → F) (w : World F) :
    List (Option Nat × Int × String) → Option (World F)
  | [] => some w
  | (client, id, move) :: rest =>
    andThen (client_make_move pow10 w client id move) fun r =>
    if r.1 = 0 then makeMoves pow10 r.2 rest else none

/-- The run in which alice (client 0) invites bob (client 1), bob accepts,
and the moves 1, 4, 2, 5, 9 are made in turn, `first` being the client that
plays FIRST; `none` when a call fails. -/
def playMidGame [Field F] (pow10 : F → F) (source_role target_role : GAME_ROLE)
    (first second : Option Nat) : Option (World F) :=
  andThen (client_make_invitation (threeClients F) (some 0) (some 1) source_role target_role)
    fun r1 =>
  andThen (client_accept_invitation r1.2 (some 1) 0) fun r2 =>
  makeMoves pow10 r2.2.2
    [(first, 0, "1"), (second, 0, "4"), (first, 0, "2"), (second, 0, "5"), (first, 0, "9")]

/-- The nine cells of a board, row by row. -/
def cells (b : Board) : List Char :=
  [b 0 0, b 0 1, b 0 2, b 1 0, b 1 1, b 1 2, b 2 0, b 2 1, b 2 2]

/-- A game as plain data: its cells, turn, winner and over flag. -/
structure GameView where
  cells : List Char
  player_role : GAME_ROLE
  game_winner : GAME_ROLE
  over : Int
  deriving DecidableEq, Repr

/-- An invitation as plain data. -/
structure InvView where
  source : Option Nat
  target : Option Nat
  source_role : Int
  target_role : Int
  state : INVITATION_STATE
  game : Option GameView
  deriving DecidableEq, Repr

/-- The clients with their invitation lists and the invitations with their
games of a state, as plain data for inspection. -/
def view (w : World F) : List CLIENT × List InvView :=
  (w.clients,
   w.invitations.map (fun v =>
     { source := v.source, target := v.target, source_role := v.source_role
       target_role := v.target_role, state := v.state
       game := v.game.map (fun g =>
         { cells := cells g.board, player_role := g.player_role
           game_winner := g.game_winner, over := g.over }) }))

/-- The game winners and the player table of a state, for inspection. -/
def summary (w : World F) : List (Option GAME_ROLE) × List (String × F) :=
  (w.invitations.map (fun v => v.game.map game_get_winner),
   w.players.map (fun pl => (pl.username, pl.rating)))

/-- The client registry of the sample states: alice, bob and carol in the
order of their registration. -/
def threeRegistered : CLIENT_REGISTRY := { clients := [0, 1, 2], len := 3 }

/-- The state in which alice (client 0, playing FIRST) has a game in
progress with bob (invitation 0) and another with carol (invitation 1), both
on fresh boards: her list holds them at ids 0 and 1, and each peer holds its
invitation at id 0. -/
def aliceTwoGames : World ℚ :=
  { threeClients ℚ with
    clients := [{ player := some 0, fd := 4, invitations := [0, 1] },
                { player := some 1, fd := 5, invitations := [0] },
                { player := some 2, fd := 6, invitations := [1] }]
    invitations :=
      [{ source := some 0, target := some 1, source_role := FIRST_PLAYER_ROLE
         target_role := SECOND_PLAYER_ROLE, game := some game_create
         state := INV_ACCEPTED_STATE },
       { source := some 0, target := some 2, source_role := FIRST_PLAYER_ROLE
         target_role := SECOND_PLAYER_ROLE, game := some game_create
         state := INV_ACCEPTED_STATE }] }

/-- The number of cells of a board that hold the mark `x`. -/
def countMark (b : Board) (x : Char) : Nat := (cells b).count x

/-- The relation between the turn and the marks on the board: when FIRST is
to move there are as many 'X' as 'O', and when SECOND is to move there is
one 'X' more. -/
def turnOk (g : GAME) : Prop :=
  (g.player_role = FIRST_PLAYER_ROLE ∧ countMark g.board 'X' = countMark g.board 'O') ∨
  (g.player_role = SECOND_PLAYER_ROLE ∧ countMark g.board 'X' = countMark g.board 'O' + 1)

instance (g : GAME) : Decidable (turnOk g) := by
  unfold turnOk; infer_instance

/-- A run of session loops: each step is one packet together with the client
whose loop handles it; `none` when a turn of a loop has no result. -/
def serviceRun [Field F] (pow10 : F → F) (toInt : F → Int) (s : World F × CLIENT_REGISTRY) :
    List (Option Nat × JEUX_PACKET_HEADER × String) → Option (World F × CLIENT_REGISTRY)
  | [] => some s
  | (client, hdr, payload) :: rest =>
    andThen (jeux_client_service pow10 toInt s.1 s.2 client hdr payload) fun r =>
    serviceRun pow10 toInt (r.1, r.2.1) rest

/-- A server without clients, invitations and players. -/
def emptyServer (F : Type) : World F :=
  { clients := [], invitations := [], players := [], sent := [] }

/-- The state in which two clients are logged in under the one name alice
(clients 0 and 1, both bound to player 0) and play a game on a fresh board:
client 1 invited "alice", which is client 0, and client 0 accepted. -/
def sameNameGame : World ℚ :=
  { clients := [{ player := some 0, fd := 4, invitations := [0] },
                { player := some 0, fd := 5, invitations := [0] }]
    invitations :=
      [{ source := some 1, target := some 0, source_role := FIRST_PLAYER_ROLE
         target_role := SECOND_PLAYER_ROLE, game := some game_create
         state := INV_ACCEPTED_STATE }]
    players := [player_create "alice"]
    sent := [] }

/-- The state in which alice (client 0, logged in) has a game on a fresh
board with client 1, which is registered but not logged in: alice invited
"dave", the lookup returned client 1, and alice accepted the invitation
herself. -/
def unboundPeerGame : World ℚ :=
  { clients := [{ player := some 0, fd := 4, invitations := [0] },
                { player := none, fd := 5, invitations := [0] }]
    invitations :=
      [{ source := some 0, target := some 1, source_role := FIRST_PLAYER_ROLE
         target_role := SECOND_PLAYER_ROLE, game := some game_create
         state := INV_ACCEPTED_STATE }]
    players := [player_create "alice"]
    sent := [] }

/-! ## Theorems -/

/-- A three-in-a-row test of `win_check` holds exactly when the three cells all hold `x`. -/
theorem triple_iff (p q r x : Char) : (p = x ∧ p = q ∧ q = r) ↔ (p = x ∧ q = x ∧ r = x) := by
  constructor
  · rintro ⟨h1, h2, h3⟩; subst h1; subst h2; subst h3; exact ⟨rfl, rfl, rfl⟩
  · rintro ⟨h1, h2, h3⟩; subst h1; subst h2; subst h3; exact ⟨rfl, rfl, rfl⟩

/-- A loop that sets a flag to 1 whenever a test succeeds. -/
theorem foldl_flag {α : Type} (P : α → Prop) [DecidablePred P] (l : List α) (w : Int) :
    l.foldl (fun win i => if P i then 1 else win) w = if ∃ i ∈ l, P i then 1 else w := by
  induction l generalizing w with
  | nil => simp
  | cons a t ih =>
    simp only [List.foldl_cons, ih, List.mem_cons, exists_eq_or_imp]
    by_cases ha : P a <;> by_cases ht : ∃ i ∈ t, P i <;> simp [ha, ht]

/-- The draw loop keeps the flag only when no scanned row has an empty cell. -/
theorem foldl_draw (b : Board) (l : List (Fin 3)) (d : Int) :
    l.foldl (fun draw row => draw_row b row draw) d =
      if ∀ r ∈ l, b r 0 ≠ ' ' ∧ b r 1 ≠ ' ' ∧ b r 2 ≠ ' ' then d else 0 := by
  induction l generalizing d with
  | nil => simp
  | cons a t ih =>
    rw [List.foldl_cons, ih]
    simp only [List.mem_cons, forall_eq_or_imp, draw_row]
    by_cases h0 : b a 0 = ' ' <;> by_cases h1 : b a 1 = ' ' <;> by_cases h2 : b a 2 = ' ' <;>
      simp [h0, h1, h2]

theorem boardFull_iff (b : Board) :
    boardFull b ↔ ∀ r ∈ List.finRange 3, b r 0 ≠ ' ' ∧ b r 1 ≠ ' ' ∧ b r 2 ≠ ' ' := by
  constructor
  · intro h r _; exact ⟨h r 0, h r 1, h r 2⟩
  · intro h r c
    have hr := h r (List.mem_finRange r)
    fin_cases c
    · exact hr.1
    · exact hr.2.1
    · exact hr.2.2

theorem win_value_eq (b : Board) (x : Char) :
    win_value b x = if hasLine b x then 1 else if boardFull b then 2 else 0 := by
  have hr : (∃ i : Fin 3, b i 0 = x ∧ b i 0 = b i 1 ∧ b i 1 = b i 2) ↔
      ∃ r : Fin 3, b r 0 = x ∧ b r 1 = x ∧ b r 2 = x :=
    exists_congr (fun i => triple_iff _ _ _ _)
  have hc : (∃ i : Fin 3, b 0 i = x ∧ b 0 i = b 1 i ∧ b 1 i = b 2 i) ↔
      ∃ c : Fin 3, b 0 c = x ∧ b 1 c = x ∧ b 2 c = x :=
    exists_congr (fun i => triple_iff _ _ _ _)
  have hd := triple_iff (b 0 0) (b 1 1) (b 2 2) x
  have he := triple_iff (b 0 2) (b 1 1) (b 2 0) x
  unfold win_value
  simp only [foldl_flag (fun row : Fin 3 => b row 0 = x ∧ b row 0 = b row 1 ∧ b row 1 = b row 2),
    foldl_flag (fun col : Fin 3 => b 0 col = x ∧ b 0 col = b 1 col ∧ b 1 col = b 2 col),
    foldl_draw, ← boardFull_iff]
  simp only [List.mem_finRange, true_and, hr, hc, hd, he]
  unfold hasLine
  by_cases hr : ∃ r : Fin 3, b r 0 = x ∧ b r 1 = x ∧ b r 2 = x <;>
  by_cases hc : ∃ c : Fin 3, b 0 c = x ∧ b 1 c = x ∧ b 2 c = x <;>
  by_cases hd : b 0 0 = x ∧ b 1 1 = x ∧ b 2 2 = x <;>
  by_cases he : b 0 2 = x ∧ b 1 1 = x ∧ b 2 0 = x <;>
  by_cases hf : boardFull b <;>
  simp [hr, hc, hd, he, hf]

theorem win_check_board (game : GAME) (x : Char) (winner : GAME_ROLE) :
    (win_check game x winner).board = game.board := by
  simp only [win_check]
  split_ifs <;> rfl

theorem win_check_player_role (game : GAME) (x : Char) (winner : GAME_ROLE) :
    (win_check game x winner).player_role = game.player_role := by
  simp only [win_check]
  split_ifs <;> rfl

/-- What `win_check` leaves in the over flag and the winner, by cases on the
board it inspects. -/
theorem win_check_result (game : GAME) (x : Char) (winner : GAME_ROLE) :
    ((win_check game x winner).over, (win_check game x winner).game_winner) =
      if hasLine game.board x then (1, winner)
      else if boardFull game.board then (1, NULL_ROLE)
      else (game.over, game.game_winner) := by
  unfold win_check
  simp only [win_value_eq]
  by_cases h1 : hasLine game.board x <;> by_cases h2 : boardFull game.board <;> simp [h1, h2]

theorem cellIdx_val (r : Fin 3) : cellIdx ((r.val : Nat) : Int) = some r := by
  unfold cellIdx
  have h : 0 ≤ ((r.val : Nat) : Int) ∧ ((r.val : Nat) : Int) < 3 := by omega
  rw [dif_pos h]
  simp

theorem cellIdx_none (i : Int) (h : i < 0 ∨ 3 ≤ i) : cellIdx i = none := by
  unfold cellIdx
  rw [dif_neg (by omega)]

/-- The game that `game_apply_move` leaves after a move by a player role onto
an empty cell of the board. -/
theorem game_apply_move_eq (game : GAME) (move : GAME_MOVE) (row col : Fin 3)
    (hrow : move.row = ((row.val : Nat) : Int)) (hcol : move.col = ((col.val : Nat) : Int))
    (hrole : move.player_role = FIRST_PLAYER_ROLE ∨ move.player_role = SECOND_PLAYER_ROLE)
    (hempty : game.board row col = ' ') :
    game_apply_move game move = some (0, win_check
      { game with board := setCell game.board row col (markOf move.player_role)
                  player_role := otherRole move.player_role }
      (markOf move.player_role) move.player_role) := by
  unfold game_apply_move
  rw [hrow, hcol, cellIdx_val, cellIdx_val]
  rcases hrole with h | h <;> simp [h, hempty, markOf, otherRole]


/-- C2: a move by FIRST or SECOND with row and col in 0..2 onto an empty
cell succeeds, writes 'X' for FIRST and 'O' for SECOND into that cell, leaves
every other cell as it was, and hands the turn to the other role. -/
theorem game_apply_move_effect (game : GAME) (move : GAME_MOVE) (row col : Fin 3)
    (hrow : move.row = ((row.val : Nat) : Int)) (hcol : move.col = ((col.val : Nat) : Int))
    (hrole : move.player_role = FIRST_PLAYER_ROLE ∨ move.player_role = SECOND_PLAYER_ROLE)
    (hempty : game.board row col = ' ') :
    ∃ g1 : GAME, game_apply_move game move = some (0, g1) ∧
      (move.player_role = FIRST_PLAYER_ROLE → g1.board row col = 'X') ∧
      (move.player_role = SECOND_PLAYER_ROLE → g1.board row col = 'O') ∧
      (∀ i j : Fin 3, ¬(i = row ∧ j = col) → g1.board i j = game.board i j) ∧
      (move.player_role = FIRST_PLAYER_ROLE → g1.player_role = SECOND_PLAYER_ROLE) ∧
      (move.player_role = SECOND_PLAYER_ROLE → g1.player_role = FIRST_PLAYER_ROLE) := by
  refine ⟨_, game_apply_move_eq game move row col hrow hcol hrole hempty, ?_, ?_, ?_, ?_, ?_⟩
  · intro h; simp [win_check_board, setCell, markOf, h]
  · intro h; simp [win_check_board, setCell, markOf, h]
  · intro i j hij; simp [win_check_board, setCell, hij]
  · intro h; simp [win_check_player_role, otherRole, h]
  · intro h; simp [win_check_player_role, otherRole, h]

/-- An instance of the effect theorem above: SECOND plays the centre of a
board on which only the top left cell is taken. -/
theorem game_apply_move_effect_witness :
    ∃ g1 : GAME,
      game_apply_move
        { board := setCell game_create.board 0 0 'X', player_role := SECOND_PLAYER_ROLE
          game_winner := NULL_ROLE, over := 0 }
        { pos := 5, row := 1, col := 1, player_role := SECOND_PLAYER_ROLE } = some (0, g1) ∧
      g1.board 1 1 = 'O' ∧ g1.board 0 0 = 'X' ∧ g1.player_role = FIRST_PLAYER_ROLE := by
  obtain ⟨g1, h, _, hO, hrest, _, hturn⟩ := game_apply_move_effect
    { board := setCell game_create.board 0 0 'X', player_role := SECOND_PLAYER_ROLE
      game_winner := NULL_ROLE, over := 0 }
    { pos := 5, row := 1, col := 1, player_role := SECOND_PLAYER_ROLE } 1 1
    (by decide) (by decide) (Or.inr rfl) (by decide)
  exact ⟨g1, h, hO rfl, by rw [hrest 0 0 (by decide)]; decide, hturn rfl⟩

/-- C1: for a game in progress (a finished game takes no move), after a move
by FIRST or SECOND onto an empty cell the game is over with winner = mover
exactly when a row, column or diagonal is fully occupied by the mover's
mark; without such a line a full board gives over with winner NULL, and
otherwise the over flag and the winner are as before. -/
theorem game_apply_move_termination (game : GAME) (move : GAME_MOVE) (row col : Fin 3)
    (hrow : move.row = ((row.val : Nat) : Int)) (hcol : move.col = ((col.val : Nat) : Int))
    (hrole : move.player_role = FIRST_PLAYER_ROLE ∨ move.player_role = SECOND_PLAYER_ROLE)
    (hempty : game.board row col = ' ')
    (hprogress : game_is_over game = 0) :
    ∃ g1 : GAME, game_apply_move game move = some (0, g1) ∧
      ((game_is_over g1 ≠ 0 ∧ g1.game_winner = move.player_role) ↔
        hasLine g1.board (markOf move.player_role)) ∧
      (¬hasLine g1.board (markOf move.player_role) → boardFull g1.board →
        game_is_over g1 ≠ 0 ∧ g1.game_winner = NULL_ROLE) ∧
      (¬hasLine g1.board (markOf move.player_role) → ¬boardFull g1.board →
        g1.over = game.over ∧ g1.game_winner = game.game_winner) := by
  refine ⟨_, game_apply_move_eq game move row col hrow hcol hrole hempty, ?_⟩
  have hres := win_check_result
    { game with board := setCell game.board row col (markOf move.player_role)
                player_role := otherRole move.player_role }
    (markOf move.player_role) move.player_role
  have hne : move.player_role ≠ NULL_ROLE := by
    rcases hrole with h | h <;> rw [h] <;> decide
  simp only [win_check_board, game_is_over] at *
  by_cases h1 : hasLine (setCell game.board row col (markOf move.player_role))
      (markOf move.player_role)
  · rw [if_pos h1] at hres
    have ho := congrArg Prod.fst hres
    have hw := congrArg Prod.snd hres
    simp only at ho hw
    simp [h1, ho, hw]
  · by_cases h2 : boardFull (setCell game.board row col (markOf move.player_role))
    · rw [if_neg h1, if_pos h2] at hres
      have ho := congrArg Prod.fst hres
      have hw := congrArg Prod.snd hres
      simp only at ho hw
      simp [h1, h2, ho, hw, Ne.symm hne]
    · rw [if_neg h1, if_neg h2] at hres
      have ho := congrArg Prod.fst hres
      have hw := congrArg Prod.snd hres
      simp only at ho hw
      simp only [h1, h2, ho, hw, not_false_iff, not_true, true_implies, false_implies,
        and_self, and_true, iff_false]
      exact fun h => h.1 hprogress

/-- Two instances of the termination theorem above. On the board
`XX. / OO. / ..X` SECOND plays 6 and completes the middle row: the game is
over with winner SECOND. On the board `XOX / XOO / OX.` FIRST plays 9: no
line of 'X', the board is full, and the game is over with winner NULL. -/
theorem game_apply_move_termination_witness :
    (∃ g1 : GAME,
      game_apply_move
        { board := boardOf ['X', 'X', ' ', 'O', 'O', ' ', ' ', ' ', 'X']
          player_role := SECOND_PLAYER_ROLE, game_winner := NULL_ROLE, over := 0 }
        { pos := 6, row := 1, col := 2, player_role := SECOND_PLAYER_ROLE } = some (0, g1) ∧
      hasLine g1.board 'O' ∧ game_is_over g1 ≠ 0 ∧ g1.game_winner = SECOND_PLAYER_ROLE) ∧
    (∃ g1 : GAME,
      game_apply_move
        { board := boardOf ['X', 'O', 'X', 'X', 'O', 'O', 'O', 'X', ' ']
          player_role := FIRST_PLAYER_ROLE, game_winner := NULL_ROLE, over := 0 }
        { pos := 9, row := 2, col := 2, player_role := FIRST_PLAYER_ROLE } = some (0, g1) ∧
      ¬hasLine g1.board 'X' ∧ boardFull g1.board ∧
      game_is_over g1 ≠ 0 ∧ g1.game_winner = NULL_ROLE) := by
  constructor
  · obtain ⟨g1, h, hiff, -, -⟩ := game_apply_move_termination
      { board := boardOf ['X', 'X', ' ', 'O', 'O', ' ', ' ', ' ', 'X']
        player_role := SECOND_PLAYER_ROLE, game_winner := NULL_ROLE, over := 0 }
      { pos := 6, row := 1, col := 2, player_role := SECOND_PLAYER_ROLE } 1 2
      (by decide) (by decide) (Or.inr rfl) (by decide) rfl
    have hb : g1.board =
        setCell (boardOf ['X', 'X', ' ', 'O', 'O', ' ', ' ', ' ', 'X']) 1 2 'O' := by
      rw [game_apply_move_eq _ _ 1 2 (by decide) (by decide) (Or.inr rfl) (by decide)] at h
      simp only [Option.some.injEq, Prod.mk.injEq, true_and] at h
      rw [← h, win_check_board]
      rfl
    have hl : hasLine g1.board 'O' := by
      rw [hb]
      decide
    exact ⟨g1, h, hl, (hiff.mpr hl).1, (hiff.mpr hl).2⟩
  · obtain ⟨g1, h, -, hdraw, -⟩ := game_apply_move_termination
      { board := boardOf ['X', 'O', 'X', 'X', 'O', 'O', 'O', 'X', ' ']
        player_role := FIRST_PLAYER_ROLE, game_winner := NULL_ROLE, over := 0 }
      { pos := 9, row := 2, col := 2, player_role := FIRST_PLAYER_ROLE } 2 2
      (by decide) (by decide) (Or.inl rfl) (by decide) rfl
    have hb : g1.board =
        setCell (boardOf ['X', 'O', 'X', 'X', 'O', 'O', 'O', 'X', ' ']) 2 2 'X' := by
      rw [game_apply_move_eq _ _ 2 2 (by decide) (by decide) (Or.inl rfl) (by decide)] at h
      simp only [Option.some.injEq, Prod.mk.injEq, true_and] at h
      rw [← h, win_check_board]
      rfl
    have hl : ¬hasLine g1.board 'X' := by
      rw [hb]
      decide
    have hf : boardFull g1.board := by
      rw [hb]
      decide
    exact ⟨g1, h, hl, hf, (hdraw hl hf).1, (hdraw hl hf).2⟩

/-- C4 at its failing inputs: with FIRST to move, `game_parse_move` returns a
move for the texts "10", "0" and "x", with positions 10, 0 and 0 and rows 3
and 1431655765, and `game_apply_move` on the move parsed from "10" reads the
board outside its bounds. -/
theorem game_parse_move_accepts_out_of_range :
    game_parse_move game_create FIRST_PLAYER_ROLE "10" =
      some { pos := 10, row := 3, col := 0, player_role := FIRST_PLAYER_ROLE } ∧
    game_parse_move game_create FIRST_PLAYER_ROLE "0" =
      some { pos := 0, row := 1431655765, col := 0, player_role := FIRST_PLAYER_ROLE } ∧
    game_parse_move game_create FIRST_PLAYER_ROLE "x" =
      some { pos := 0, row := 1431655765, col := 0, player_role := FIRST_PLAYER_ROLE } ∧
    game_apply_move game_create
      { pos := 10, row := 3, col := 0, player_role := FIRST_PLAYER_ROLE } = none := by
  refine ⟨by decide, by decide, by decide, ?_⟩
  unfold game_apply_move
  rw [cellIdx_none 3 (by omega)]
  rfl

/-- C5 at its failing input: after X has completed the top row (game over,
winner FIRST), `game_parse_move` still accepts "6" from SECOND and
`game_apply_move` applies it: it returns 0, writes 'O', and, as the middle
row is now all 'O', changes the winner to SECOND. -/
theorem game_apply_move_after_over :
    ∃ g g1 : GAME,
      playMoves game_create [(FIRST_PLAYER_ROLE, "1"), (SECOND_PLAYER_ROLE, "4"),
        (FIRST_PLAYER_ROLE, "2"), (SECOND_PLAYER_ROLE, "5"), (FIRST_PLAYER_ROLE, "3")] = some g ∧
      game_is_over g = 1 ∧ g.game_winner = FIRST_PLAYER_ROLE ∧ g.board 1 2 = ' ' ∧
      game_parse_move g SECOND_PLAYER_ROLE "6" =
        some { pos := 6, row := 1, col := 2, player_role := SECOND_PLAYER_ROLE } ∧
      game_apply_move g { pos := 6, row := 1, col := 2, player_role := SECOND_PLAYER_ROLE } =
        some (0, g1) ∧
      g1.board 1 2 = 'O' ∧ game_is_over g1 = 1 ∧ g1.game_winner = SECOND_PLAYER_ROLE := by
  refine ⟨_, _, rfl, ?_, ?_, ?_, ?_, game_apply_move_eq _ _ 1 2 (by decide) (by decide)
    (Or.inr rfl) ?_, ?_, ?_, ?_⟩ <;> decide

/-! ### player.c -/

theorem andThen_some {α β : Type} (a : α) (f : α → Option β) : andThen (some a) f = f a := rfl

theorem andThen_none {α β : Type} (f : α → Option β) : andThen none f = none := rfl

/-- The table that `player_post_result` leaves when its two players are the
two entries of a table of two: the second rating is computed from the first
rating as already updated. -/
theorem player_post_result_pair {F : Type} [Field F] (pow10 : F → F) (n1 n2 : String)
    (R1 R2 : F) (result : Int) :
    player_post_result pow10 [{ username := n1, rating := R1 }, { username := n2, rating := R2 }]
        (some 0) (some 1) result =
      some
        [{ username := n1
           rating := R1 + 32 * ((post_scores result).1 - 1 / (1 + pow10 ((R2 - R1) / 400))) },
         { username := n2
           rating := R2 + 32 * ((post_scores result).2 -
             1 / (1 + pow10 ((R1 + 32 * ((post_scores result).1 -
               1 / (1 + pow10 ((R2 - R1) / 400))) - R2) / 400))) }] := by
  rfl

/-- C6 at its failing inputs: whatever the two ratings are, when player 1
wins the stored rating of player 1 is R1 + 32 (1 - E1) as documented, but
the stored rating of player 2 is not R2 + 32 (0 - E2) with E2 taken from the
ratings held before the call. -/
theorem player_post_result_second_rating (R1 R2 : ℝ) :
    ∃ r1 r2 : ℝ,
      player_post_result (fun x : ℝ => (10 : ℝ) ^ x)
          [{ username := "alice", rating := R1 }, { username := "bob", rating := R2 }]
          (some 0) (some 1) 1 =
        some [{ username := "alice", rating := r1 }, { username := "bob", rating := r2 }] ∧
      r1 = R1 + 32 * (1 - 1 / (1 + (10 : ℝ) ^ ((R2 - R1) / 400))) ∧
      r2 ≠ R2 + 32 * (0 - 1 / (1 + (10 : ℝ) ^ ((R1 - R2) / 400))) := by
  refine ⟨_, _, player_post_result_pair _ _ _ R1 R2 1, ?_, ?_⟩
  · simp [post_scores]
  · have hs : (post_scores (1 : Int) : ℝ × ℝ) = (1, 0) := by simp [post_scores]
    simp only [hs]
    have hu : (0 : ℝ) < (10 : ℝ) ^ ((R2 - R1) / 400) := Real.rpow_pos_of_pos (by norm_num) _
    have hE : 1 / (1 + (10 : ℝ) ^ ((R2 - R1) / 400)) < 1 := by
      rw [div_lt_one (by linarith)]
      linarith
    have hlt : (R1 - R2) / 400 <
        (R1 + 32 * (1 - 1 / (1 + (10 : ℝ) ^ ((R2 - R1) / 400))) - R2) / 400 := by
      apply div_lt_div_of_pos_right _ (by norm_num)
      linarith
    have hpow := Real.rpow_lt_rpow_of_exponent_lt (by norm_num : (1 : ℝ) < 10) hlt
    have hb : (0 : ℝ) < (10 : ℝ) ^ ((R1 - R2) / 400) := Real.rpow_pos_of_pos (by norm_num) _
    have hfrac := one_div_lt_one_div_of_lt (by linarith : (0 : ℝ) < 1 + (10 : ℝ) ^ ((R1 - R2) / 400))
      (by linarith : 1 + (10 : ℝ) ^ ((R1 - R2) / 400) <
        1 + (10 : ℝ) ^ ((R1 + 32 * (1 - 1 / (1 + (10 : ℝ) ^ ((R2 - R1) / 400))) - R2) / 400))
    intro heq
    linarith

/-- C9 at its failing input: between two new players, both rated 1500, a win
of player 1 stores exactly 1516 for player 1, but for player 2 it stores a
rating strictly between 1484 and 1485, not 1484. -/
theorem player_post_result_equal_ratings :
    ∃ r2 : ℝ,
      player_post_result (fun x : ℝ => (10 : ℝ) ^ x)
          [player_create "alice", player_create "bob"] (some 0) (some 1) 1 =
        some [{ username := "alice", rating := 1516 }, { username := "bob", rating := r2 }] ∧
      1484 < r2 ∧ r2 < 1485 := by
  have hs : (post_scores (1 : Int) : ℝ × ℝ) = (1, 0) := by simp [post_scores]
  have h0 : ((1500 : ℝ) - 1500) / 400 = 0 := by norm_num
  have h1 : (1500 : ℝ) + 32 * (1 - 1 / (1 + (10 : ℝ) ^ (0 : ℝ))) = 1516 := by
    rw [Real.rpow_zero]; norm_num
  have he : ((1516 : ℝ) - 1500) / 400 = ((25 : ℕ) : ℝ)⁻¹ := by norm_num
  have hgt : (1 : ℝ) < (10 : ℝ) ^ (((25 : ℕ) : ℝ)⁻¹) :=
    Real.one_lt_rpow (by norm_num) (by norm_num)
  have hpow : ((10 : ℝ) ^ (((25 : ℕ) : ℝ)⁻¹)) ^ 25 = 10 :=
    Real.rpow_inv_natCast_pow (by norm_num) (by norm_num)
  have hlt : (10 : ℝ) ^ (((25 : ℕ) : ℝ)⁻¹) < 17 / 15 := by
    by_contra hge
    rw [not_lt] at hge
    have h25 := pow_le_pow_left₀ (by norm_num : (0 : ℝ) ≤ 17 / 15) hge 25
    rw [hpow] at h25
    norm_num at h25
  refine ⟨1500 + 32 * (0 - 1 / (1 + (10 : ℝ) ^ (((25 : ℕ) : ℝ)⁻¹))), ?_, ?_, ?_⟩
  · rw [player_create, player_create, player_post_result_pair, hs]
    simp only [h0, h1, he]
  · have : 1 / (1 + (10 : ℝ) ^ (((25 : ℕ) : ℝ)⁻¹)) < 1 / 2 := by
      rw [div_lt_div_iff₀ (by linarith) (by norm_num)]
      linarith
    linarith
  · have : 15 / 32 < 1 / (1 + (10 : ℝ) ^ (((25 : ℕ) : ℝ)⁻¹)) := by
      rw [div_lt_div_iff₀ (by norm_num) (by linarith)]
      linarith
    linarith

/-! ### client.c: invitation ids -/

/-- The lookup loop started with counter `k` returns the node `j` steps
ahead when asked for index `k + j`. -/
theorem by_index_loop_eq (l : List Nat) (k : Int) (j : Nat) :
    by_index_loop (k + j) l k = l[j]? := by
  induction l generalizing k j with
  | nil => simp [by_index_loop]
  | cons x next ih =>
    cases j with
    | zero => simp [by_index_loop]
    | succ j =>
      have hne : ¬(k = k + ((j + 1 : Nat) : Int)) := by omega
      have hk : k + ((j + 1 : Nat) : Int) = (k + 1) + (j : Int) := by push_cast; ring
      rw [by_index_loop, if_neg hne, hk, ih]
      simp

/-- The function `get_invitation_by_index` at a non-negative index is the
positional lookup in the client's list. -/
theorem get_invitation_by_index_eq (w : World F) (c : Nat) (j : Nat) :
    get_invitation_by_index w (some c) (j : Int) =
      (w.clients[c]?).map (fun cl => cl.invitations[j]?) := by
  cases hcl : w.clients[c]? with
  | none => simp [get_invitation_by_index, hcl]
  | some cl =>
    simp only [get_invitation_by_index, hcl, Option.map_some']
    have h := by_index_loop_eq cl.invitations 0 j
    rw [zero_add] at h
    by_cases hj : (j : Int) ≥ cl.invitations.length
    · have hlen : cl.invitations.length ≤ j := by omega
      simp [hj, List.getElem?_eq_none hlen]
    · have h0 : ¬((j : Int) < 0) := by omega
      simp only [h0, hj, or_self, if_false, h]

/-- The index loop returns -1 or a value from its starting counter on. -/
theorem index_loop_range (inv : Option Nat) (l : List Nat) (k : Int) :
    index_loop inv l k = -1 ∨ k ≤ index_loop inv l k := by
  induction l generalizing k with
  | nil => simp [index_loop]
  | cons x next ih =>
    unfold index_loop
    split_ifs
    · right; exact le_refl k
    · rcases ih (k + 1) with h | h
      · left; exact h
      · right; omega

/-- When the index loop finds invitation `a` at position `i`, the removal
loop unlinks the node at position `i`. -/
theorem unlink_eq_eraseIdx (a : Nat) (l : List Nat) (k : Int) (i : Nat) (hk : 0 ≤ k)
    (h : index_loop (some a) l k = k + i) : unlink (some a) l = some (l.eraseIdx i) := by
  induction l generalizing k i with
  | nil => simp [index_loop] at h; omega
  | cons x next ih =>
    unfold index_loop at h
    unfold unlink
    by_cases hx : some x = some a
    · rw [if_pos hx] at h
      have hi : i = 0 := by omega
      subst hi
      simp [hx]
    · rw [if_neg hx] at h
      have hr := index_loop_range (some a) next (k + 1)
      cases i with
      | zero => rcases hr with h1 | h1 <;> omega
      | succ i =>
        have h2 : index_loop (some a) next (k + 1) = (k + 1) + (i : Int) := by
          rw [h]; push_cast; ring
        rw [if_neg hx, ih (k + 1) i (by omega) h2]
        simp

theorem getElem?_setClient_self (w : World F) (c : Nat) (cl cl1 : CLIENT)
    (h : w.clients[c]? = some cl) : (w.setClient c cl1).clients[c]? = some cl1 := by
  have hlt : c < w.clients.length := by
    rcases List.getElem?_eq_some.mp h with ⟨hlt, _⟩
    exact hlt
  simp [World.setClient, List.getElem?_set_self hlt]

/-- C10 (as amended): when invitation `a` has id `i` in a client's list and
invitation `b` has id `j > i`, after `a` is taken out of the list, by
`remove_inv` (revoke, decline) or by `client_remove_invitation` called for a
participant of `a` (resign, game end), `b` is found at id `j - 1`, and every
id below `i` resolves as before. -/
theorem remove_inv_shifts_later_ids (w : World F) (c a b i j : Nat)
    (ha : get_invitation_index_by_client w (some c) (some a) = some (i : Int))
    (hb : get_invitation_by_index w (some c) (j : Int) = some (some b))
    (hij : i < j) :
    ∃ w1 : World F, remove_inv w (some c) (some a) = some w1 ∧
      (∀ r : INVITATION, w.invitations[a]? = some r →
        r.source = some c ∨ r.target = some c →
        client_remove_invitation w (some c) (some a) = some (0, w1)) ∧
      get_invitation_by_index w1 (some c) ((j : Int) - 1) = some (some b) ∧
      ∀ k : Nat, k < i →
        get_invitation_by_index w1 (some c) (k : Int) =
          get_invitation_by_index w (some c) (k : Int) := by
  cases hcl : w.clients[c]? with
  | none => simp [get_invitation_index_by_client, hcl] at ha
  | some cl =>
    simp only [get_invitation_index_by_client, hcl, Option.map_some', Option.some.injEq] at ha
    have hun := unlink_eq_eraseIdx a cl.invitations 0 i (le_refl 0) (by rw [ha]; ring)
    rw [get_invitation_by_index_eq, hcl] at hb
    simp only [Option.map_some', Option.some.injEq] at hb
    refine ⟨w.setClient c { cl with invitations := cl.invitations.eraseIdx i }, ?_, ?_, ?_, ?_⟩
    · simp [remove_inv, hcl, hun]
    · intro r hr hpart
      by_cases hs : some c = r.source
      · simp [client_remove_invitation, inv_get_source, inv_get_target, World.inv, hr, ← hs,
          hcl, hun]
      · have ht : r.target = some c := by
          rcases hpart with h | h
          · exact absurd h.symm hs
          · exact h
        simp [client_remove_invitation, inv_get_source, inv_get_target, World.inv, hr, hs, ht,
          hcl, hun]
    · obtain ⟨j1, rfl⟩ : ∃ j1, j = j1 + 1 := ⟨j - 1, by omega⟩
      have hj : (((j1 + 1 : Nat) : Int) - 1) = (j1 : Int) := by push_cast; ring
      rw [hj, get_invitation_by_index_eq, getElem?_setClient_self w c cl _ hcl]
      simp only [Option.map_some', Option.some.injEq]
      rw [List.getElem?_eraseIdx_of_ge _ _ _ (by omega), hb]
    · intro k hk
      rw [get_invitation_by_index_eq, get_invitation_by_index_eq,
        getElem?_setClient_self w c cl _ hcl, hcl]
      simp only [Option.map_some', Option.some.injEq]
      exact List.getElem?_eraseIdx_of_lt _ _ _ hk

/-- An instance of the theorem above: alice holds invitation 0 at
id 0 and invitation 1 at id 1; once invitation 0 is removed, invitation 1 is
at id 0. -/
theorem remove_inv_shifts_later_ids_witness :
    get_invitation_index_by_client aliceInvitedTwo (some 0) (some 0) = some ((0 : Nat) : Int) ∧
    get_invitation_by_index aliceInvitedTwo (some 0) ((1 : Nat) : Int) = some (some 1) ∧
    ∃ w1 : World ℚ, remove_inv aliceInvitedTwo (some 0) (some 0) = some w1 ∧
      (∀ r : INVITATION, aliceInvitedTwo.invitations[0]? = some r →
        r.source = some 0 ∨ r.target = some 0 →
        client_remove_invitation aliceInvitedTwo (some 0) (some 0) = some (0, w1)) ∧
      get_invitation_by_index w1 (some 0) (((1 : Nat) : Int) - 1) = some (some 1) ∧
      ∀ k : Nat, k < 0 →
        get_invitation_by_index w1 (some 0) (k : Int) =
          get_invitation_by_index aliceInvitedTwo (some 0) (k : Int) :=
  ⟨by decide, by decide,
   remove_inv_shifts_later_ids aliceInvitedTwo 0 0 1 0 1 (by decide) (by decide) (by decide)⟩

/-- C10 (as stated) fails: alice invites bob and then carol (both calls
succeed; the invitations get ids 0 and 1 in her list), then revokes id 0
(success); afterwards id 1 resolves to no invitation in her list, and id 0
resolves to the invitation that had id 1. -/
theorem invitation_ids_shift_counterexample :
    (andThen (client_make_invitation (threeClients ℚ) (some 0) (some 1)
        FIRST_PLAYER_ROLE SECOND_PLAYER_ROLE) fun r1 =>
      andThen (client_make_invitation r1.2 (some 0) (some 2)
        FIRST_PLAYER_ROLE SECOND_PLAYER_ROLE) fun r2 =>
      andThen (client_revoke_invitation r2.2 (some 0) 0) fun r3 =>
      some (r1.1, r2.1, get_invitation_by_index r2.2 (some 0) 0,
        get_invitation_by_index r2.2 (some 0) 1, r3.1,
        get_invitation_by_index r3.2 (some 0) 1, get_invitation_by_index r3.2 (some 0) 0)) =
    some ((0 : Int), (0 : Int), some (some 0), some (some 1), (0 : Int), some none,
      some (some 1)) := by
  rfl

/-! ### client.c: moves -/

/-- A position 1..9 given by the move text is parsed, for the role whose turn
it is, into the move with that position, row (p-1)/3 and column (p-1)%3. -/
theorem game_parse_move_in_range (g : GAME) (role : GAME_ROLE) (move : String) (pos : Nat)
    (row col : Fin 3) (hturn : g.player_role = role) (hpos : strtoul move = pos)
    (h1 : 1 ≤ pos) (h9 : pos ≤ 9) (hrow : row.val = (pos - 1) / 3)
    (hcol : col.val = (pos - 1) % 3) :
    game_parse_move g role move =
      some { pos := (pos : Int), row := ((row.val : Nat) : Int), col := ((col.val : Nat) : Int)
             player_role := role } := by
  unfold game_parse_move
  rw [if_pos hturn]
  simp only [hpos, hrow, hcol]
  interval_cases pos <;> simp [toInt32]

/-- A move onto an occupied cell of the board is refused and the game is
left as it was. -/
theorem game_apply_move_occupied (g : GAME) (m : GAME_MOVE) (row col : Fin 3)
    (hrow : m.row = ((row.val : Nat) : Int)) (hcol : m.col = ((col.val : Nat) : Int))
    (hocc : g.board row col ≠ ' ') : game_apply_move g m = some (-1, g) := by
  unfold game_apply_move
  rw [hrow, hcol, cellIdx_val, cellIdx_val]
  simp [hocc]

theorem list_set_self {α : Type} (l : List α) (i : Nat) (a : α) (h : l[i]? = some a) :
    l.set i a = l := by
  induction l generalizing i with
  | nil => rfl
  | cons x t ih =>
    cases i with
    | zero => simp at h; simp [h]
    | succ i => simp at h; simp [ih i h]

/-- Writing back the game an invitation already holds changes nothing. -/
theorem setGame_self (w : World F) (i : Nat) (r : INVITATION) (g : GAME)
    (hr : w.invitations[i]? = some r) (hg : r.game = some g) :
    w.setGame (some i) g = some w := by
  have hrec : ({ r with game := some g } : INVITATION) = r := by
    cases r; simp only at hg; simp [hg]
  simp only [World.setGame, andThen_some, hr, hrec, World.setInv, list_set_self _ _ _ hr]

theorem andThen_ite_some {α β : Type} (c : Prop) [Decidable c] (a b : α) (f : α → Option β) :
    andThen (if c then some a else some b) f = f (if c then a else b) := by
  split_ifs <;> rfl

/-- The index of an invitation in the list of a client that is NULL or a
valid pointer is defined. -/
theorem get_invitation_index_by_client_defined (w : World F) (client inv : Option Nat)
    (h : client = none ∨ (w.client client).isSome) :
    ∃ n : Int, get_invitation_index_by_client w client inv = some n := by
  cases client with
  | none => exact ⟨-1, rfl⟩
  | some c =>
    rcases h with h | h
    · cases h
    · obtain ⟨cl, hcl⟩ := Option.isSome_iff_exists.mp h
      have hcl1 : w.clients[c]? = some cl := hcl
      exact ⟨index_loop inv cl.invitations 0, by simp [get_invitation_index_by_client, hcl1]⟩

/-- C3: for a bound client and an invitation of its list that has a game
(and whose two participants are clients of the server), if the role the
client plays is not the one whose turn it is, or the text addresses a cell
1..9 that is occupied, `client_make_move` returns -1 and the whole server
state is as before: no packet is sent, and the game (board, turn, over flag,
winner) and all invitation lists are unchanged; the session's handling of
the MOVE packet then sends one NACK to the client and nothing else. -/
theorem client_make_move_rejected [Field F] (pow10 : F → F) (w : World F)
    (client p i : Nat) (id : Int) (move : String) (cl : CLIENT) (r : INVITATION) (g : GAME)
    (hcl : w.clients[client]? = some cl) (hbound : cl.player = some p)
    (hinv : get_invitation_by_index w (some client) id = some (some i))
    (hr : w.invitations[i]? = some r) (hg : r.game = some g)
    (hsrc : (w.client r.source).isSome) (htgt : (w.client r.target).isSome)
    (hrej : (if r.source ≠ some client then r.target_role else r.source_role) ≠ g.player_role ∨
      ∃ (pos : Nat) (row col : Fin 3), strtoul move = pos ∧ 1 ≤ pos ∧ pos ≤ 9 ∧
        row.val = (pos - 1) / 3 ∧ col.val = (pos - 1) % 3 ∧ g.board row col ≠ ' ') :
    client_make_move pow10 w (some client) id move = some (-1, w) ∧
    service_move_pkt pow10 w (some client) id move =
      some { w with sent := w.sent ++
        [{ client := client
           hdr := { type := JEUX_NACK_PKT, id := 0, role := 0, size := 0 }
           data := none }] } := by
  have hc : w.client (some client) = some cl := hcl
  have hgame : inv_get_game w (some i) = some (some g) := by
    simp [inv_get_game, World.inv, hr, hg]
  have hsource : inv_get_source w (some i) = some r.source := by
    simp [inv_get_source, World.inv, hr]
  have htarget : inv_get_target w (some i) = some r.target := by
    simp [inv_get_target, World.inv, hr]
  have htr : inv_get_target_role w (some i) = some r.target_role := by
    simp [inv_get_target_role, World.inv, hr]
  have hsr : inv_get_source_role w (some i) = some r.source_role := by
    simp [inv_get_source_role, World.inv, hr]
  obtain ⟨n, hn⟩ := get_invitation_index_by_client_defined w
    (if r.source ≠ some client then r.source else r.target) (some i)
    (Or.inr (by split_ifs <;> assumption))
  have hmove : client_make_move pow10 w (some client) id move = some (-1, w) := by
    unfold client_make_move
    rw [hc, andThen_some, if_neg (by rw [hbound]; exact Option.some_ne_none p), hinv,
      andThen_some, hgame, andThen_some]
    simp only [hsource, andThen_some, htr, hsr, htarget, andThen_ite_some, hn]
    by_cases hturn : g.player_role = (if r.source ≠ some client then r.target_role
        else r.source_role)
    · rcases hrej with h | ⟨pos, row, col, hpos, h1, h9, hrow, hcol, hocc⟩
      · exact absurd hturn.symm h
      · rw [game_parse_move_in_range g _ move pos row col hturn hpos h1 h9 hrow hcol]
        simp only
        rw [game_apply_move_occupied g _ row col rfl rfl hocc, andThen_some]
        simp only [setGame_self w i r g hr hg, andThen_some, if_true]
    · have hnone : game_parse_move g (if r.source ≠ some client then r.target_role
          else r.source_role) move = none := by
        unfold game_parse_move
        rw [if_neg hturn]
      rw [hnone]
  refine ⟨hmove, ?_⟩
  unfold service_move_pkt
  rw [hmove, andThen_some]
  simp only [if_true, client_send_nack, andThen_some, hcl]

/-- An instance of the theorem above: in a game that alice (FIRST)
and bob (SECOND) have just started, bob sends a move although it is the turn
of FIRST. -/
theorem client_make_move_rejected_witness :
    client_make_move (fun x : ℚ => x) aliceBobPlaying (some 1) 0 "5" =
      some (-1, aliceBobPlaying) ∧
    service_move_pkt (fun x : ℚ => x) aliceBobPlaying (some 1) 0 "5" =
      some { aliceBobPlaying with sent := aliceBobPlaying.sent ++
        [{ client := 1
           hdr := { type := JEUX_NACK_PKT, id := 0, role := 0, size := 0 }
           data := none }] } :=
  client_make_move_rejected (fun x : ℚ => x) aliceBobPlaying 1 1 0 0 "5"
    { player := some 1, fd := 5, invitations := [0] }
    { source := some 0, target := some 1, source_role := FIRST_PLAYER_ROLE
      target_role := SECOND_PLAYER_ROLE, game := some game_create, state := INV_ACCEPTED_STATE }
    game_create rfl rfl rfl rfl rfl rfl rfl (Or.inl (by decide))

/-! ### client.c: posting results -/

/-- The move with which bob, playing SECOND as the target of the invitation,
completes the middle row: the call succeeds, the winner of the game is
SECOND, and the ratings are those that `player_post_result (bob, alice, 2)`
leaves. -/
theorem make_move_second_wins_eval {F : Type} [Field F] (pow10 : F → F) :
    (client_make_move pow10 (midGame F FIRST_PLAYER_ROLE SECOND_PLAYER_ROLE) (some 1) 0 "6").map
      (fun r => (r.1, summary r.2)) =
    some (0, [some SECOND_PLAYER_ROLE],
      [("alice", 1500 + 32 * (1 - 1 / (1 + pow10 ((1500 + 32 * (0 - 1 / (1 + pow10
          ((1500 - 1500) / 400))) - 1500) / 400)))),
       ("bob", 1500 + 32 * (0 - 1 / (1 + pow10 ((1500 - 1500) / 400)))),
       ("carol", 1500)]) := by
  rfl

set_option maxRecDepth 100000 in
/-- The sample state `midGame` with alice FIRST is what the client operations
produce from `threeClients`: the clients with their invitation lists and the
invitation with its game agree. -/
theorem midGame_reached :
    (playMidGame (fun x : ℚ => x) FIRST_PLAYER_ROLE SECOND_PLAYER_ROLE (some 0) (some 1)).map
      view = some (view (midGame ℚ FIRST_PLAYER_ROLE SECOND_PLAYER_ROLE)) := by
  decide

/-- C7 at its failing input: alice (source) plays FIRST and bob (target)
plays SECOND; bob's move "6" completes the middle row, the call succeeds and
the game's winner is SECOND, bob's role; yet bob's rating falls from 1500 to
1484 (score 0) and alice's rises above 1500 (score 1). -/
theorem client_make_move_posts_win_to_loser :
    ∃ (w1 : World ℝ) (ra rb : ℝ),
      client_make_move (fun x : ℝ => (10 : ℝ) ^ x)
        (midGame ℝ FIRST_PLAYER_ROLE SECOND_PLAYER_ROLE) (some 1) 0 "6" = some (0, w1) ∧
      summary w1 =
        ([some SECOND_PLAYER_ROLE], [("alice", ra), ("bob", rb), ("carol", 1500)]) ∧
      rb = 1484 ∧ 1500 < ra := by
  have h := make_move_second_wins_eval (fun x : ℝ => (10 : ℝ) ^ x)
  cases hres : client_make_move (fun x : ℝ => (10 : ℝ) ^ x)
      (midGame ℝ FIRST_PLAYER_ROLE SECOND_PLAYER_ROLE) (some 1) 0 "6" with
  | none => rw [hres] at h; cases h
  | some r =>
    obtain ⟨rc, w1⟩ := r
    rw [hres] at h
    simp only [Option.map_some', Option.some.injEq, Prod.mk.injEq] at h
    obtain ⟨hrc, hsum⟩ := h
    subst hrc
    refine ⟨w1, _, _, rfl, hsum, ?_, ?_⟩
    · simp only [sub_self, zero_div, Real.rpow_zero]; norm_num
    · have hpos : (0 : ℝ) < (10 : ℝ) ^ ((1500 + 32 * (0 - 1 / (1 + (10 : ℝ) ^
          (((1500 : ℝ) - 1500) / 400))) - 1500) / 400) := Real.rpow_pos_of_pos (by norm_num) _
      have hlt : 1 / (1 + (10 : ℝ) ^ ((1500 + 32 * (0 - 1 / (1 + (10 : ℝ) ^
          (((1500 : ℝ) - 1500) / 400))) - 1500) / 400)) < 1 := by
        rw [div_lt_one (by linarith)]
        linarith
      linarith

/-- The resignation of alice, the source of the invitation, who plays SECOND
against bob: the call succeeds, the winner of the game is FIRST, and the
ratings are those that `player_post_result (alice, bob, 1)` leaves. -/
theorem resign_by_second_source_eval {F : Type} [Field F] (pow10 : F → F) :
    (client_resign_game pow10 (midGame F SECOND_PLAYER_ROLE FIRST_PLAYER_ROLE) (some 0) 0).map
      (fun r => (r.1, summary r.2)) =
    some (0, [some FIRST_PLAYER_ROLE],
      [("alice", 1500 + 32 * (1 - 1 / (1 + pow10 ((1500 - 1500) / 400)))),
       ("bob", 1500 + 32 * (0 - 1 / (1 + pow10 ((1500 + 32 * (1 - 1 / (1 + pow10
          ((1500 - 1500) / 400))) - 1500) / 400)))),
       ("carol", 1500)]) := by
  rfl

set_option maxRecDepth 100000 in
/-- The sample state `midGame` with alice SECOND is what the client
operations produce from `threeClients` when bob, playing FIRST, opens. -/
theorem midGame_reached_source_second :
    (playMidGame (fun x : ℚ => x) SECOND_PLAYER_ROLE FIRST_PLAYER_ROLE (some 1) (some 0)).map
      view = some (view (midGame ℚ SECOND_PLAYER_ROLE FIRST_PLAYER_ROLE)) := by
  decide

/-- C8 at its failing input: alice (source) plays SECOND against bob and
resigns; the call succeeds and the game's winner is FIRST, bob's role; yet
alice's rating rises from 1500 to 1516 (score 1) and bob's falls below 1500
(score 0). -/
theorem client_resign_game_posts_win_to_resigner :
    ∃ (w1 : World ℝ) (ra rb : ℝ),
      client_resign_game (fun x : ℝ => (10 : ℝ) ^ x)
        (midGame ℝ SECOND_PLAYER_ROLE FIRST_PLAYER_ROLE) (some 0) 0 = some (0, w1) ∧
      summary w1 =
        ([some FIRST_PLAYER_ROLE], [("alice", ra), ("bob", rb), ("carol", 1500)]) ∧
      ra = 1516 ∧ rb < 1500 := by
  have h := resign_by_second_source_eval (fun x : ℝ => (10 : ℝ) ^ x)
  cases hres : client_resign_game (fun x : ℝ => (10 : ℝ) ^ x)
      (midGame ℝ SECOND_PLAYER_ROLE FIRST_PLAYER_ROLE) (some 0) 0 with
  | none => rw [hres] at h; cases h
  | some r =>
    obtain ⟨rc, w1⟩ := r
    rw [hres] at h
    simp only [Option.map_some', Option.some.injEq, Prod.mk.injEq] at h
    obtain ⟨hrc, hsum⟩ := h
    subst hrc
    refine ⟨w1, _, _, rfl, hsum, ?_, ?_⟩
    · simp only [sub_self, zero_div, Real.rpow_zero]; norm_num
    · have hpos : (0 : ℝ) < (10 : ℝ) ^ ((1500 + 32 * (1 - 1 / (1 + (10 : ℝ) ^
          (((1500 : ℝ) - 1500) / 400))) - 1500) / 400) := Real.rpow_pos_of_pos (by norm_num) _
      have hlt : 0 < 1 / (1 + (10 : ℝ) ^ ((1500 + 32 * (1 - 1 / (1 + (10 : ℝ) ^
          (((1500 : ℝ) - 1500) / 400))) - 1500) / 400)) := by
        apply div_pos one_pos
        linarith
      linarith

/-! ### Lists of invitation pointers -/

/-- The index loop finds a member of the list at its first position. -/
theorem index_loop_of_mem (a : Nat) (l : List Nat) (k : Int) (h : a ∈ l) :
    index_loop (some a) l k = k + (l.indexOf a : Nat) := by
  induction l generalizing k with
  | nil => cases h
  | cons x next ih =>
    unfold index_loop
    by_cases hx : x = a
    · subst hx; simp
    · have hmem : a ∈ next := by
        rcases List.mem_cons.mp h with h1 | h1
        · exact absurd h1.symm hx
        · exact h1
      have hsome : ¬(some x = some a) := by simpa using hx
      rw [if_neg hsome, ih (k + 1) hmem, List.indexOf_cons_ne _ hx]
      push_cast; ring

/-- The index loop returns -1 for an invitation that is not in the list. -/
theorem index_loop_of_not_mem (a : Nat) (l : List Nat) (k : Int) (h : a ∉ l) :
    index_loop (some a) l k = -1 := by
  induction l generalizing k with
  | nil => rfl
  | cons x next ih =>
    unfold index_loop
    have hx : ¬(some x = some a) := by
      intro hx; apply h; simp at hx; simp [hx]
    rw [if_neg hx]
    exact ih (k + 1) (fun hm => h (List.mem_cons_of_mem _ hm))

/-- The removal loop erases the first occurrence of a member of the list. -/
theorem unlink_of_mem (a : Nat) (l : List Nat) (h : a ∈ l) :
    unlink (some a) l = some (l.erase a) := by
  induction l with
  | nil => cases h
  | cons x next ih =>
    unfold unlink
    by_cases hx : x = a
    · subst hx; simp
    · have hmem : a ∈ next := by
        rcases List.mem_cons.mp h with h1 | h1
        · exact absurd h1.symm hx
        · exact h1
      have hsome : ¬(some x = some a) := by simpa using hx
      rw [if_neg hsome, ih hmem]
      simp [List.erase_cons, hx]

/-- The removal loop finds nothing to remove when the invitation is not in the list. -/
theorem unlink_of_not_mem (a : Nat) (l : List Nat) (h : a ∉ l) : unlink (some a) l = none := by
  induction l with
  | nil => rfl
  | cons x next ih =>
    unfold unlink
    have hx : ¬(some x = some a) := by
      intro hx; apply h; simp at hx; simp [hx]
    rw [if_neg hx, ih (fun hm => h (List.mem_cons_of_mem _ hm))]
    rfl

/-- What the lookup loop returns is in the list. -/
theorem by_index_loop_mem (index : Int) (l : List Nat) (k : Int) (x : Nat)
    (h : by_index_loop index l k = some x) : x ∈ l := by
  induction l generalizing k with
  | nil => simp [by_index_loop] at h
  | cons y next ih =>
    unfold by_index_loop at h
    split_ifs at h
    · simp at h; simp [h]
    · exact List.mem_cons_of_mem _ (ih (k + 1) h)

/-- An id that resolves in a client's list resolves to a member of that list. -/
theorem get_invitation_by_index_mem (w : World F) (c : Nat) (cl : CLIENT) (id : Int) (i : Nat)
    (hcl : w.clients[c]? = some cl)
    (h : get_invitation_by_index w (some c) id = some (some i)) : i ∈ cl.invitations := by
  simp only [get_invitation_by_index, hcl, Option.map_some', Option.some.injEq] at h
  split_ifs at h
  exact by_index_loop_mem id cl.invitations 0 i h

theorem get_invitation_index_by_client_of_mem (w : World F) (c : Nat) (cl : CLIENT) (i : Nat)
    (hcl : w.clients[c]? = some cl) (h : i ∈ cl.invitations) :
    get_invitation_index_by_client w (some c) (some i) =
      some ((cl.invitations.indexOf i : Nat) : Int) := by
  simp [get_invitation_index_by_client, hcl, index_loop_of_mem i cl.invitations 0 h]

theorem get_invitation_by_index_indexOf (w : World F) (c : Nat) (cl : CLIENT) (i : Nat)
    (hcl : w.clients[c]? = some cl) (h : i ∈ cl.invitations) :
    get_invitation_by_index w (some c) ((cl.invitations.indexOf i : Nat) : Int) =
      some (some i) := by
  rw [get_invitation_by_index_eq, hcl]
  simp [List.getElem?_indexOf h]

theorem toU8_of_lt (n : Nat) (h : n < 256) : toU8 (n : Int) = n := by
  unfold toU8
  omega

/-! ### invitation.c -/

/-- C12: `inv_accept` on an OPEN invitation returns 0, makes the state
ACCEPTED and attaches a fresh game (nine empty cells, FIRST to move, not
over, winner NULL); on any other invitation it returns -1 and leaves the
invitation, its state and its game as they were. -/
theorem inv_accept_spec (inv : INVITATION) :
    (inv.state = INV_OPEN_STATE →
      ∃ g : GAME, inv_accept inv = (0, { inv with state := INV_ACCEPTED_STATE, game := some g }) ∧
        (∀ r c : Fin 3, g.board r c = ' ') ∧ g.player_role = FIRST_PLAYER_ROLE ∧
        game_is_over g = 0 ∧ g.game_winner = NULL_ROLE) ∧
    (inv.state ≠ INV_OPEN_STATE → inv_accept inv = (-1, inv)) := by
  constructor
  · intro h
    exact ⟨game_create, by simp [inv_accept, h], fun _ _ => rfl, rfl, rfl, rfl⟩
  · intro h
    simp [inv_accept, h]


/-! ### client.c: state updates -/

theorem getElem?_setInv_self (w : World F) (i : Nat) (r r1 : INVITATION)
    (h : w.invitations[i]? = some r) : (w.setInv i r1).invitations[i]? = some r1 := by
  have hlt : i < w.invitations.length := by
    rcases List.getElem?_eq_some.mp h with ⟨hlt, _⟩
    exact hlt
  simp [World.setInv, List.getElem?_set_self hlt]

theorem client_send_packet_eq (w : World F) (c : Nat) (cl : CLIENT) (hdr : JEUX_PACKET_HEADER)
    (data : Option String) (hcl : w.clients[c]? = some cl) :
    client_send_packet w (some c) hdr data =
      some { w with sent := w.sent ++ [{ client := c, hdr := hdr, data := data }] } := by
  simp [client_send_packet, hcl]

/-- The result of `client_accept_invitation` for a bound client whose id
resolves to an OPEN invitation with a valid source: the invitation becomes
ACCEPTED with a fresh game, whose rendering goes to the caller when the
target plays FIRST and into the ACCEPTED packet otherwise; the id of the
packet is the invitation's index in the caller's list. -/
theorem client_accept_invitation_eq (w : World F) (c p i s : Nat) (id : Int) (cl cs : CLIENT)
    (r : INVITATION) (hcl : w.clients[c]? = some cl) (hbound : cl.player = some p)
    (hinv : get_invitation_by_index w (some c) id = some (some i))
    (hr : w.invitations[i]? = some r) (hopen : r.state = INV_OPEN_STATE)
    (hsrc : r.source = some s) (hs : w.clients[s]? = some cs) :
    client_accept_invitation w (some c) id =
      some (0,
        if r.target_role = FIRST_PLAYER_ROLE then some (game_unparse_state game_create) else none,
        { w with
          invitations := w.invitations.set i
            { r with state := INV_ACCEPTED_STATE, game := some game_create }
          sent := w.sent ++
            [{ client := s
               hdr :=
                 { type := JEUX_ACCEPTED_PKT
                   id := toU8 ((cl.invitations.indexOf i : Nat) : Int)
                   role := 0
                   size := if r.target_role = FIRST_PLAYER_ROLE then 0
                     else toU16 (strlen (game_unparse_state game_create)) }
               data := if r.target_role = FIRST_PLAYER_ROLE then none
                 else some (game_unparse_state game_create) }] }) := by
  have hmem := get_invitation_by_index_mem w c cl id i hcl hinv
  have hc : w.client (some c) = some cl := hcl
  have hwi : w.inv (some i) = some r := hr
  have hacc : inv_accept r = (0, { r with state := INV_ACCEPTED_STATE, game := some game_create }) := by
    simp [inv_accept, hopen]
  have hget := getElem?_setInv_self w i r
    { r with state := INV_ACCEPTED_STATE, game := some game_create } hr
  have hidx := get_invitation_index_by_client_of_mem
    (w.setInv i { r with state := INV_ACCEPTED_STATE, game := some game_create }) c cl i hcl hmem
  unfold client_accept_invitation
  rw [hinv, andThen_some, if_neg (by simp), hc, andThen_some,
    if_neg (by rw [hbound]; exact Option.some_ne_none p), hwi, andThen_some, andThen_some]
  simp only [hacc, ne_eq, not_true_eq_false, if_false, inv_get_game, inv_get_target_role,
    inv_get_source, World.inv, Option.some_bind, hget, Option.map_some', andThen_some, hidx]
  simp only [hsrc]
  by_cases ht : r.target_role = FIRST_PLAYER_ROLE
  · rw [if_pos ht, client_send_packet_eq (w.setInv i _) s cs _ _ hs, andThen_some]
    simp [ht, World.setInv]
  · rw [if_neg ht, client_send_packet_eq (w.setInv i _) s cs _ _ hs, andThen_some]
    simp [ht, World.setInv]


theorem client_send_ack_eq (w : World F) (c : Nat) (cl : CLIENT) (data : Option String)
    (datalen : Nat) (hcl : w.clients[c]? = some cl) :
    client_send_ack w (some c) data datalen =
      some { w with sent := w.sent ++
        [{ client := c
           hdr := { type := JEUX_ACK_PKT, id := 0, role := 0, size := toU16 datalen }
           data := data }] } := by
  simp [client_send_ack, andThen_some, hcl]

set_option maxRecDepth 100000 in
/-- The sample state `aliceInvitedTwo` is what two calls of
`client_make_invitation` by alice produce from `threeClients`. -/
theorem aliceInvitedTwo_reached :
    (andThen (client_make_invitation (threeClients ℚ) (some 0) (some 1)
        FIRST_PLAYER_ROLE SECOND_PLAYER_ROLE) fun r1 =>
      andThen (client_make_invitation r1.2 (some 0) (some 2)
        FIRST_PLAYER_ROLE SECOND_PLAYER_ROLE) fun r2 =>
      some (r1.1, r2.1, view r2.2)) = some (0, 0, view aliceInvitedTwo) := by
  decide

set_option maxRecDepth 100000 in
/-- C13 at its failing input: alice has invited bob (id 0 in her list) and
carol (id 1 in her list, id 0 in carol's list); carol accepts her id 0, the
call succeeds, and the one packet sent is an ACCEPTED to alice with id 0,
carol's index of the invitation, although in alice's list the invitation has
index 1 and id 0 is the invitation to bob. -/
theorem client_accept_invitation_id_of_acceptor :
    (client_accept_invitation aliceInvitedTwo (some 2) 0).map
        (fun r => (r.1, r.2.2.sent.map (fun s => (s.client, s.hdr.type, s.hdr.id)))) =
      some (0, [(0, JEUX_ACCEPTED_PKT, 0)]) ∧
    get_invitation_by_index aliceInvitedTwo (some 2) 0 = some (some 1) ∧
    get_invitation_index_by_client aliceInvitedTwo (some 0) (some 1) = some 1 ∧
    get_invitation_by_index aliceInvitedTwo (some 0) 0 = some (some 0) := by
  decide

/-- C14: for a bound client whose id resolves to an OPEN invitation (with a
valid source and two different roles), handling ACCEPT sends two packets: if
the source plays FIRST, an ACCEPTED to the source whose payload is the
rendering of the fresh game and then an ACK without payload to the acceptor;
if the target plays FIRST, an ACCEPTED without payload to the source and
then an ACK whose payload is the rendering to the acceptor. -/
theorem service_accept_first_mover_gets_board (w : World F) (c p i s : Nat) (id : Int)
    (cl cs : CLIENT) (r : INVITATION) (hcl : w.clients[c]? = some cl)
    (hbound : cl.player = some p)
    (hinv : get_invitation_by_index w (some c) id = some (some i))
    (hr : w.invitations[i]? = some r) (hopen : r.state = INV_OPEN_STATE)
    (hsrc : r.source = some s) (hs : w.clients[s]? = some cs)
    (hroles : r.source_role ≠ r.target_role) :
    (r.source_role = FIRST_PLAYER_ROLE →
      service_accept_pkt w (some c) id =
        some { w with
          invitations := w.invitations.set i
            { r with state := INV_ACCEPTED_STATE, game := some game_create }
          sent := w.sent ++
            [{ client := s
               hdr := { type := JEUX_ACCEPTED_PKT
                        id := toU8 ((cl.invitations.indexOf i : Nat) : Int), role := 0
                        size := toU16 (strlen (game_unparse_state game_create)) }
               data := some (game_unparse_state game_create) },
             { client := c
               hdr := { type := JEUX_ACK_PKT, id := 0, role := 0, size := 0 }
               data := none }] }) ∧
    (r.target_role = FIRST_PLAYER_ROLE →
      service_accept_pkt w (some c) id =
        some { w with
          invitations := w.invitations.set i
            { r with state := INV_ACCEPTED_STATE, game := some game_create }
          sent := w.sent ++
            [{ client := s
               hdr := { type := JEUX_ACCEPTED_PKT
                        id := toU8 ((cl.invitations.indexOf i : Nat) : Int), role := 0
                        size := 0 }
               data := none },
             { client := c
               hdr := { type := JEUX_ACK_PKT, id := 0, role := 0
                        size := toU16 (strlen (game_unparse_state game_create)) }
               data := some (game_unparse_state game_create) }] }) := by
  have hacc := client_accept_invitation_eq w c p i s id cl cs r hcl hbound hinv hr hopen hsrc hs
  constructor
  · intro hfirst
    have ht : ¬(r.target_role = FIRST_PLAYER_ROLE) := fun h => hroles (hfirst.trans h.symm)
    unfold service_accept_pkt
    rw [hacc, andThen_some]
    simp [ht, client_send_ack, andThen_some, hcl, toU16]
  · intro ht
    unfold service_accept_pkt
    rw [hacc, andThen_some]
    simp [ht, client_send_ack, andThen_some, hcl]


/-- An instance of the theorem above: bob accepts alice's invitation, in
which alice plays FIRST. -/
theorem service_accept_first_mover_gets_board_witness :
    service_accept_pkt aliceInvitedTwo (some 1) 0 =
      some { aliceInvitedTwo with
        invitations := aliceInvitedTwo.invitations.set 0
          { source := some 0, target := some 1, source_role := FIRST_PLAYER_ROLE
            target_role := SECOND_PLAYER_ROLE, game := some game_create
            state := INV_ACCEPTED_STATE }
        sent := aliceInvitedTwo.sent ++
          [{ client := 0
             hdr := { type := JEUX_ACCEPTED_PKT, id := 0, role := 0
                      size := toU16 (strlen (game_unparse_state game_create)) }
             data := some (game_unparse_state game_create) },
           { client := 1
             hdr := { type := JEUX_ACK_PKT, id := 0, role := 0, size := 0 }
             data := none }] } :=
  (service_accept_first_mover_gets_board aliceInvitedTwo 1 1 0 0 0
    { player := some 1, fd := 5, invitations := [0] }
    { player := some 0, fd := 4, invitations := [0, 1] }
    { source := some 0, target := some 1, source_role := FIRST_PLAYER_ROLE
      target_role := SECOND_PLAYER_ROLE, game := none, state := INV_OPEN_STATE }
    rfl rfl rfl rfl rfl rfl rfl (by decide)).1 rfl

set_option maxRecDepth 100000 in
/-- C15 (as stated) fails: alice, the source, plays FIRST; bob accepts; the
call succeeds, nothing is returned for bob's ACK, and the ACCEPTED packet to
alice carries the rendering of the game as payload. -/
theorem client_accept_payload_counterexample :
    aliceInvitedTwo.invitations.map (fun v => (v.source, v.source_role, v.target_role)) =
      [(some 0, FIRST_PLAYER_ROLE, SECOND_PLAYER_ROLE),
       (some 0, FIRST_PLAYER_ROLE, SECOND_PLAYER_ROLE)] ∧
    (client_accept_invitation aliceInvitedTwo (some 1) 0).map
        (fun r => (r.1, r.2.1, r.2.2.sent.map (fun s => (s.client, s.hdr.type, s.data)))) =
      some (0, none, [(0, JEUX_ACCEPTED_PKT, some (game_unparse_state game_create))]) := by
  refine ⟨by decide, ?_⟩
  rfl

/-- C15 (as amended): for a bound client whose id resolves to an OPEN
invitation with a valid source, one role FIRST and the other SECOND, a
successful `client_accept_invitation` routes the rendering GS of the fresh
game to the first mover: if the source plays FIRST, the ACCEPTED packet to
the source carries GS and nothing is returned for the ACK; if the source
plays SECOND, the ACCEPTED packet has no payload and GS is returned for the
ACK. -/
theorem client_accept_payload_routing (w : World F) (c p i s : Nat) (id : Int)
    (cl cs : CLIENT) (r : INVITATION) (hcl : w.clients[c]? = some cl)
    (hbound : cl.player = some p)
    (hinv : get_invitation_by_index w (some c) id = some (some i))
    (hr : w.invitations[i]? = some r) (hopen : r.state = INV_OPEN_STATE)
    (hsrc : r.source = some s) (hs : w.clients[s]? = some cs)
    (hroles : (r.source_role = FIRST_PLAYER_ROLE ∧ r.target_role = SECOND_PLAYER_ROLE) ∨
      (r.source_role = SECOND_PLAYER_ROLE ∧ r.target_role = FIRST_PLAYER_ROLE)) :
    (r.source_role = FIRST_PLAYER_ROLE →
      ∃ w1 : World F, client_accept_invitation w (some c) id = some (0, none, w1) ∧
        w1.sent = w.sent ++
          [{ client := s
             hdr := { type := JEUX_ACCEPTED_PKT
                      id := toU8 ((cl.invitations.indexOf i : Nat) : Int), role := 0
                      size := toU16 (strlen (game_unparse_state game_create)) }
             data := some (game_unparse_state game_create) }]) ∧
    (r.source_role = SECOND_PLAYER_ROLE →
      ∃ w1 : World F,
        client_accept_invitation w (some c) id =
          some (0, some (game_unparse_state game_create), w1) ∧
        w1.sent = w.sent ++
          [{ client := s
             hdr := { type := JEUX_ACCEPTED_PKT
                      id := toU8 ((cl.invitations.indexOf i : Nat) : Int), role := 0
                      size := 0 }
             data := none }]) := by
  have hacc := client_accept_invitation_eq w c p i s id cl cs r hcl hbound hinv hr hopen hsrc hs
  constructor
  · intro hfirst
    have ht : ¬(r.target_role = FIRST_PLAYER_ROLE) := by
      rcases hroles with ⟨_, h2⟩ | ⟨h1, _⟩
      · rw [h2]; decide
      · rw [hfirst] at h1; exact absurd h1 (by decide)
    rw [hacc]
    simp only [ht, if_false]
    exact ⟨_, rfl, rfl⟩
  · intro hsecond
    have ht : r.target_role = FIRST_PLAYER_ROLE := by
      rcases hroles with ⟨h1, _⟩ | ⟨_, h2⟩
      · rw [hsecond] at h1; exact absurd h1 (by decide)
      · exact h2
    rw [hacc]
    simp only [ht, if_true]
    exact ⟨_, rfl, rfl⟩

/-- An instance of the theorem above: carol accepts alice's invitation, in
which alice plays FIRST. -/
theorem client_accept_payload_routing_witness :
    ∃ w1 : World ℚ, client_accept_invitation aliceInvitedTwo (some 2) 0 = some (0, none, w1) ∧
      w1.sent = aliceInvitedTwo.sent ++
        [{ client := 0
           hdr := { type := JEUX_ACCEPTED_PKT, id := 0, role := 0
                    size := toU16 (strlen (game_unparse_state game_create)) }
           data := some (game_unparse_state game_create) }] :=
  (client_accept_payload_routing aliceInvitedTwo 2 2 1 0 0
    { player := some 2, fd := 6, invitations := [1] }
    { player := some 0, fd := 4, invitations := [0, 1] }
    { source := some 0, target := some 2, source_role := FIRST_PLAYER_ROLE
      target_role := SECOND_PLAYER_ROLE, game := none, state := INV_OPEN_STATE }
    rfl rfl rfl rfl rfl rfl rfl (Or.inl ⟨rfl, rfl⟩)).1 rfl

/-! ### client.c: making an invitation -/

/-- The index loop finds a new invitation appended to a list at the old
length of the list. -/
theorem index_loop_append_new (n : Nat) (l : List Nat) (h : n ∉ l) :
    index_loop (some n) (l ++ [n]) 0 = (l.length : Int) := by
  rw [index_loop_of_mem n (l ++ [n]) 0 (by simp), List.indexOf_append_of_not_mem h]
  simp

theorem getElem?_set_set_left {α : Type} (l : List α) (s t : Nat) (a b x : α) (hne : s ≠ t)
    (hs : l[s]? = some x) : ((l.set s a).set t b)[s]? = some a := by
  have hlt : s < l.length := by
    rcases List.getElem?_eq_some.mp hs with ⟨hlt, _⟩
    exact hlt
  rw [List.getElem?_set_ne (Ne.symm hne), List.getElem?_set_self hlt]

theorem getElem?_set_set_right {α : Type} (l : List α) (s t : Nat) (a b x : α)
    (ht : l[t]? = some x) : ((l.set s a).set t b)[t]? = some b := by
  have hlt : t < (l.set s a).length := by
    rcases List.getElem?_eq_some.mp ht with ⟨hlt, _⟩
    simpa using hlt
  rw [List.getElem?_set_self hlt]

/-- C11: for a bound source client and a different target client (each with
fewer than 256 invitations, none of them at the address of the new
invitation), `client_make_invitation` returns 0; it creates one OPEN
invitation without a game, appends it to the end of both lists, and sends
two packets: an ACK to the source with the invitation's index in the
source's list as id, and an INVITED to the target with the index in the
target's list as id, the target's role and the source's username as payload.
The new ids resolve to the new invitation and all earlier ids resolve as
before. -/
theorem client_make_invitation_post (w : World F) (s t p : Nat) (cs ct : CLIENT)
    (pl : PLAYER F) (source_role target_role : GAME_ROLE) (hne : s ≠ t)
    (hcs : w.clients[s]? = some cs) (hct : w.clients[t]? = some ct)
    (hbound : cs.player = some p) (hp : w.players[p]? = some pl)
    (hfs : w.invitations.length ∉ cs.invitations) (hft : w.invitations.length ∉ ct.invitations)
    (hls : cs.invitations.length < 256) (hlt : ct.invitations.length < 256) :
    ∃ w1 : World F,
      client_make_invitation w (some s) (some t) source_role target_role = some (0, w1) ∧
      w1 =
        { clients := (w.clients.set s
              { cs with invitations := cs.invitations ++ [w.invitations.length] }).set t
              { ct with invitations := ct.invitations ++ [w.invitations.length] }
          invitations := w.invitations ++
            [{ source := some s, target := some t, source_role := source_role
               target_role := target_role, game := none, state := INV_OPEN_STATE }]
          players := w.players
          sent := w.sent ++
            [{ client := s
               hdr := { type := JEUX_ACK_PKT, id := cs.invitations.length, role := 0, size := 0 }
               data := none },
             { client := t
               hdr := { type := JEUX_INVITED_PKT, id := ct.invitations.length
                        role := toU8 target_role, size := toU16 (strlen pl.username) }
               data := some pl.username }] } ∧
      get_invitation_by_index w1 (some s) (cs.invitations.length : Int) =
        some (some w.invitations.length) ∧
      get_invitation_by_index w1 (some t) (ct.invitations.length : Int) =
        some (some w.invitations.length) ∧
      (∀ k : Nat, k < cs.invitations.length →
        get_invitation_by_index w1 (some s) (k : Int) = get_invitation_by_index w (some s) k) ∧
      (∀ k : Nat, k < ct.invitations.length →
        get_invitation_by_index w1 (some t) (k : Int) = get_invitation_by_index w (some t) k) := by
  obtain ⟨cpl, cfd, cinv⟩ := cs
  obtain ⟨tpl, tfd, tinv⟩ := ct
  simp only at hbound hfs hft hls hlt
  subst hbound
  dsimp only
  have hsn : ¬(some s = some t) := by simpa using hne
  have hs3 := getElem?_set_set_left w.clients s t
    { player := some p, fd := cfd, invitations := cinv ++ [w.invitations.length] }
    { player := tpl, fd := tfd, invitations := tinv ++ [w.invitations.length] } _ hne hcs
  have ht3 := getElem?_set_set_right w.clients s t
    { player := some p, fd := cfd, invitations := cinv ++ [w.invitations.length] }
    { player := tpl, fd := tfd, invitations := tinv ++ [w.invitations.length] } _ hct
  have ht2 : (w.clients.set s
      { player := some p, fd := cfd, invitations := cinv ++ [w.invitations.length] })[t]? =
      some { player := tpl, fd := tfd, invitations := tinv } := by
    rw [List.getElem?_set_ne hne, hct]
  refine ⟨_, ?_, rfl, ?_, ?_, ?_, ?_⟩
  · unfold client_make_invitation World.inv_create inv_create
    rw [if_neg hsn]
    simp only [World.client, Option.some_bind, hcs, hct, andThen_some]
    rw [if_neg (by simp)]
    simp only [client_add_invitation, World.setClient, hcs, Option.bind_eq_bind, Option.some_bind,
      List.getElem?_concat_length, Option.pure_def, andThen_some, ne_eq, not_true_eq_false,
      if_false, ht2, get_invitation_index_by_client, hs3, ht3, Option.map_some',
      World.client,
      index_loop_append_new _ _ hfs, index_loop_append_new _ _ hft, client_send_packet,
      client_get_player, player_get_name, hp, inv_get_target_role, World.inv,
      toU8_of_lt _ hls, toU8_of_lt _ hlt]
    simp
  · rw [get_invitation_by_index_eq]
    simp [hs3]
  · rw [get_invitation_by_index_eq]
    simp [ht3]
  · intro k hk
    rw [get_invitation_by_index_eq, get_invitation_by_index_eq]
    simp [hs3, hcs, List.getElem?_append_left hk]
  · intro k hk
    rw [get_invitation_by_index_eq, get_invitation_by_index_eq]
    simp [ht3, hct, List.getElem?_append_left hk]


/-- An instance of the theorem above: alice invites bob on a server without
invitations. -/
theorem client_make_invitation_post_witness :
    ∃ w1 : World ℚ,
      client_make_invitation (threeClients ℚ) (some 0) (some 1)
        FIRST_PLAYER_ROLE SECOND_PLAYER_ROLE = some (0, w1) ∧
      get_invitation_by_index w1 (some 0) 0 = some (some 0) ∧
      get_invitation_by_index w1 (some 1) 0 = some (some 0) := by
  obtain ⟨w1, h1, _, h3, h4, _⟩ := client_make_invitation_post (threeClients ℚ) 0 1 0
    { player := some 0, fd := 4, invitations := [] }
    { player := some 1, fd := 5, invitations := [] }
    (player_create "alice") FIRST_PLAYER_ROLE SECOND_PLAYER_ROLE (by decide) rfl rfl rfl rfl
    (by decide) (by decide) (by decide) (by decide)
  exact ⟨w1, h1, h3, h4⟩

/-! ### client.c: revoking and declining -/

theorem remove_inv_of_mem (w : World F) (c i : Nat) (cl : CLIENT)
    (hcl : w.clients[c]? = some cl) (h : i ∈ cl.invitations) :
    remove_inv w (some c) (some i) =
      some (w.setClient c { cl with invitations := cl.invitations.erase i }) := by
  simp [remove_inv, hcl, unlink_of_mem i cl.invitations h]

/-- C16: for a bound client that is the source of an OPEN invitation
without a game, found at `id` in its own list and also present in the list
of the (different) target, `client_revoke_invitation` returns 0, the
invitation becomes CLOSED, its first entry is erased from both lists (so
that lists without repetition no longer contain it), and the one packet
sent is a REVOKED to the target whose id is the index the invitation had in
the target's list (as a one-byte value). -/
theorem client_revoke_invitation_post (w : World F) (c t p i : Nat) (id : Int)
    (cs ct : CLIENT) (r : INVITATION)
    (hcs : w.clients[c]? = some cs) (hbound : cs.player = some p)
    (hinv : get_invitation_by_index w (some c) id = some (some i))
    (hr : w.invitations[i]? = some r) (hopen : r.state = INV_OPEN_STATE)
    (hgame : r.game = none) (hsrc : r.source = some c) (htgt : r.target = some t)
    (hne : c ≠ t) (hct : w.clients[t]? = some ct) (hmem : i ∈ ct.invitations) :
    client_revoke_invitation w (some c) id =
      some (0,
        { clients := (w.clients.set c
              { cs with invitations := cs.invitations.erase i }).set t
              { ct with invitations := ct.invitations.erase i }
          invitations := w.invitations.set i { r with state := INV_CLOSED_STATE }
          players := w.players
          sent := w.sent ++
            [{ client := t
               hdr := { type := JEUX_REVOKED_PKT
                        id := toU8 ((ct.invitations.indexOf i : Nat) : Int)
                        role := 0, size := 0 }
               data := none }] }) ∧
    (ct.invitations.indexOf i < 256 →
      toU8 ((ct.invitations.indexOf i : Nat) : Int) = ct.invitations.indexOf i) ∧
    (cs.invitations.Nodup → i ∉ cs.invitations.erase i) ∧
    (ct.invitations.Nodup → i ∉ ct.invitations.erase i) := by
  refine ⟨?_, toU8_of_lt _, fun h => h.not_mem_erase, fun h => h.not_mem_erase⟩
  have hmemc := get_invitation_by_index_mem w c cs id i hcs hinv
  have hclose : inv_close r NULL_ROLE = (0, { r with state := INV_CLOSED_STATE }) := by
    simp [inv_close, hopen]
  have htidx := get_invitation_index_by_client_of_mem w t ct i hct hmem
  have h8 := remove_inv_of_mem (w.setInv i { r with state := INV_CLOSED_STATE }) c i cs hcs hmemc
  have hct2 : ((w.setInv i { r with state := INV_CLOSED_STATE }).setClient c
      { cs with invitations := cs.invitations.erase i }).clients[t]? = some ct := by
    simp only [World.setClient, World.setInv]
    rw [List.getElem?_set_ne hne, hct]
  have h9 := get_invitation_by_index_indexOf _ t ct i hct2 hmem
  have h10 := remove_inv_of_mem _ t i ct hct2 hmem
  have h11 := client_send_packet_eq
    (((w.setInv i { r with state := INV_CLOSED_STATE }).setClient c
      { cs with invitations := cs.invitations.erase i }).setClient t
      { ct with invitations := ct.invitations.erase i }) t _
    { type := JEUX_REVOKED_PKT, id := toU8 ((ct.invitations.indexOf i : Nat) : Int)
      role := 0, size := 0 } none
    (getElem?_setClient_self _ t ct _ hct2)
  unfold client_revoke_invitation
  rw [hinv, andThen_some]
  simp only [inv_get_target, inv_get_source, inv_get_game, client_get_player, World.inv,
    World.client, Option.some_bind, hr, hcs, Option.map_some', andThen_some, htgt, hsrc, hgame,
    hbound]
  rw [if_neg (by simp), if_neg (by simp), if_neg (by simp), htidx, andThen_some, hclose]
  simp only [h8, andThen_some, h9, if_true, h10, h11]
  simp [World.setClient, World.setInv, hbound, hsrc, htgt, hgame]


/-- An instance of the theorem above: alice revokes her invitation to carol,
which has id 1 in her list and id 0 in carol's list. -/
theorem client_revoke_invitation_post_witness :
    client_revoke_invitation aliceInvitedTwo (some 0) 1 =
      some (0,
        { clients := (aliceInvitedTwo.clients.set 0
              { player := some 0, fd := 4, invitations := [0] }).set 2
              { player := some 2, fd := 6, invitations := [] }
          invitations := aliceInvitedTwo.invitations.set 1
            { source := some 0, target := some 2, source_role := FIRST_PLAYER_ROLE
              target_role := SECOND_PLAYER_ROLE, game := none, state := INV_CLOSED_STATE }
          players := aliceInvitedTwo.players
          sent := aliceInvitedTwo.sent ++
            [{ client := 2
               hdr := { type := JEUX_REVOKED_PKT, id := 0, role := 0, size := 0 }
               data := none }] }) :=
  (client_revoke_invitation_post aliceInvitedTwo 0 2 0 1 1
    { player := some 0, fd := 4, invitations := [0, 1] }
    { player := some 2, fd := 6, invitations := [1] }
    { source := some 0, target := some 2, source_role := FIRST_PLAYER_ROLE
      target_role := SECOND_PLAYER_ROLE, game := none, state := INV_OPEN_STATE }
    rfl rfl rfl rfl rfl rfl rfl rfl (by decide) rfl (by decide)).1

set_option maxRecDepth 100000 in
/-- C17 at its failing input: alice has invited bob (id 0 in her list) and
carol (id 1 in her list, id 0 in carol's list); carol declines her id 0. The
call returns -1 and sends no packet, although it has closed the invitation
and taken it out of carol's list; the invitation stays in alice's list. When
bob, whose index equals alice's, declines his id 0, the call returns 0 and
sends DECLINED with id 0 to alice. -/
theorem client_decline_invitation_mixes_indices :
    (client_decline_invitation aliceInvitedTwo (some 2) 0).map
        (fun r => (r.1, (view r.2).1.map (fun cl => cl.invitations),
          (view r.2).2.map (fun v => v.state), r.2.sent)) =
      some (-1, [[0, 1], [0], []], [INV_OPEN_STATE, INV_CLOSED_STATE], []) ∧
    (client_decline_invitation aliceInvitedTwo (some 1) 0).map
        (fun r => (r.1, (view r.2).1.map (fun cl => cl.invitations),
          (view r.2).2.map (fun v => v.state), r.2.sent)) =
      some (0, [[1], [], [1]], [INV_CLOSED_STATE, INV_OPEN_STATE],
        [{ client := 0
           hdr := { type := JEUX_DECLINED_PKT, id := 0, role := 0, size := 0 }
           data := none }]) := by
  constructor <;> rfl

/-! ### client.c: resigning -/

/-- With valid pointers to two different players `player_post_result`
is defined, and it keeps the number of players. -/
theorem player_post_result_defined [Field F] (pow10 : F → F) (players : List (PLAYER F))
    (i1 i2 : Nat) (p1 p2 : PLAYER F) (result : Int) (h1 : players[i1]? = some p1)
    (h2 : players[i2]? = some p2) (hne : i1 ≠ i2) :
    ∃ players1 : List (PLAYER F),
      player_post_result pow10 players (some i1) (some i2) result = some players1 ∧
      players1.length = players.length := by
  have hl1 : i1 < players.length := (List.getElem?_eq_some.mp h1).1
  have hl2 : i2 < players.length := (List.getElem?_eq_some.mp h2).1
  unfold player_post_result
  simp only [andThen_some, h1, h2, hne, if_false]
  generalize hq : players.set i1 _ = players1
  have hlen : players1.length = players.length := by rw [← hq]; simp
  obtain ⟨q1, hq1⟩ : ∃ q1, players1[i1]? = some q1 :=
    ⟨_, List.getElem?_eq_getElem (by omega)⟩
  obtain ⟨q2, hq2⟩ : ∃ q2, players1[i2]? = some q2 :=
    ⟨_, List.getElem?_eq_getElem (by omega)⟩
  simp only [hq1, hq2, andThen_some]
  exact ⟨_, rfl, by simp [hlen]⟩

/-- The function `client_remove_invitation`, called for a participant of an
invitation that is in the participant's list, erases it from that list. -/
theorem client_remove_invitation_of_participant (w : World F) (c i : Nat) (cl : CLIENT)
    (r : INVITATION) (hr : w.invitations[i]? = some r)
    (hpart : r.source = some c ∨ r.target = some c) (hcl : w.clients[c]? = some cl)
    (hmem : i ∈ cl.invitations) :
    client_remove_invitation w (some c) (some i) =
      some (0, w.setClient c { cl with invitations := cl.invitations.erase i }) := by
  have hun := unlink_of_mem i cl.invitations hmem
  by_cases hs : some c = r.source
  · simp [client_remove_invitation, inv_get_source, inv_get_target, World.inv, hr, ← hs,
      hcl, hun]
  · have ht : r.target = some c := by
      rcases hpart with h | h
      · exact absurd h.symm hs
      · exact h
    simp [client_remove_invitation, inv_get_source, inv_get_target, World.inv, hr, hs, ht,
      hcl, hun]

/-- Closing an ACCEPTED invitation whose game is in progress for a player
role resigns the game for that role. -/
theorem inv_close_resigns (r : INVITATION) (g : GAME) (role : GAME_ROLE)
    (hst : r.state = INV_ACCEPTED_STATE) (hg : r.game = some g) (hover : game_is_over g = 0)
    (hrole : role ≠ NULL_ROLE) :
    inv_close r role =
      (0, { r with
          game := some { g with
            game_winner := if role = FIRST_PLAYER_ROLE then SECOND_PLAYER_ROLE
              else FIRST_PLAYER_ROLE
            over := 1 }
          state := INV_CLOSED_STATE }) := by
  simp [inv_close, hst, hg, hrole, game_resign, hover]

/-- Closing an invitation without a game for a player role fails and leaves
the invitation as it was. -/
theorem inv_close_no_game (r : INVITATION) (role : GAME_ROLE) (hg : r.game = none)
    (hrole : role ≠ NULL_ROLE) : inv_close r role = (-1, r) := by
  unfold inv_close
  split_ifs
  · rfl
  · simp [hg]


/-- The effect of `client_resign_game` between clients logged in as two
different players: let a bound client `c` and a bound peer `q` be the two participants
of an invitation with one role FIRST and the other SECOND, found at `id` in
the list of `c` and present in the list of `q`. If the invitation is
ACCEPTED and its game is not over, `client_resign_game` returns 0, the
invitation becomes CLOSED, the game is over with the peer's role as winner,
the invitation is erased from both lists, the ratings are those that
`player_post_result` leaves, and the one packet sent is a RESIGNED to the
peer whose id is the index the invitation had in the peer's list. If the
invitation has no game, the call returns -1 and the state is as before. -/
theorem client_resign_game_post [Field F] (pow10 : F → F) (w : World F)
    (c q pc pq i : Nat) (id : Int) (cc cq : CLIENT) (plc plq : PLAYER F) (r : INVITATION)
    (hcc : w.clients[c]? = some cc) (hcq : w.clients[q]? = some cq) (hne : c ≠ q)
    (hbc : cc.player = some pc) (hbq : cq.player = some pq)
    (hpc : w.players[pc]? = some plc) (hpq : w.players[pq]? = some plq) (hpne : pc ≠ pq)
    (hinv : get_invitation_by_index w (some c) id = some (some i))
    (hr : w.invitations[i]? = some r)
    (hpart : (r.source = some c ∧ r.target = some q) ∨ (r.source = some q ∧ r.target = some c))
    (hroles : (r.source_role = FIRST_PLAYER_ROLE ∧ r.target_role = SECOND_PLAYER_ROLE) ∨
      (r.source_role = SECOND_PLAYER_ROLE ∧ r.target_role = FIRST_PLAYER_ROLE))
    (hmemq : i ∈ cq.invitations) :
    (∀ g : GAME, r.state = INV_ACCEPTED_STATE → r.game = some g → game_is_over g = 0 →
      ∃ players1 : List (PLAYER F),
        player_post_result pow10 w.players
          (if r.source = some c then some pc else some pq)
          (if r.source = some c then some pq else some pc)
          (if r.source = some c then r.target_role else r.source_role) = some players1 ∧
        client_resign_game pow10 w (some c) id =
          some (0,
            { clients := (w.clients.set q
                  { cq with invitations := cq.invitations.erase i }).set c
                  { cc with invitations := cc.invitations.erase i }
              invitations := w.invitations.set i
                { r with
                  game := some { g with
                    game_winner := if r.source = some c then r.target_role else r.source_role
                    over := 1 }
                  state := INV_CLOSED_STATE }
              players := players1
              sent := w.sent ++
                [{ client := q
                   hdr := { type := JEUX_RESIGNED_PKT
                            id := toU8 ((cq.invitations.indexOf i : Nat) : Int)
                            role := 0, size := 0 }
                   data := none }] })) ∧
    (r.game = none → client_resign_game pow10 w (some c) id = some (-1, w)) := by
  have hmemc := get_invitation_by_index_mem w c cc id i hcc hinv
  have hqidx := get_invitation_index_by_client_of_mem w q cq i hcq hmemq
  have hcn : ¬(some q = some c) := by intro h; simp at h; exact hne h.symm
  have hcn2 : ¬(some c = some q) := by simpa using hne
  obtain ⟨ccp, ccfd, ccinv⟩ := cc
  obtain ⟨cqp, cqfd, cqinv⟩ := cq
  simp only at hbc hbq hmemc hmemq hqidx
  subst hbc hbq
  constructor
  · intro g hst hg hover
    obtain ⟨rs, rt, rsr, rtr, rg, rst⟩ := r
    simp only at hpart hroles hst hg
    subst hst hg
    rcases hpart with ⟨h1, h2⟩ | ⟨h1, h2⟩
    · subst h1 h2
      obtain ⟨players1, hpp, -⟩ :=
        player_post_result_defined pow10 w.players pc pq plc plq rtr hpc hpq hpne
      refine ⟨players1, by simpa [hcn, hcn2] using hpp, ?_⟩
      have hrole : rsr ≠ NULL_ROLE := by
        rcases hroles with ⟨h3, h4⟩ | ⟨h3, h4⟩ <;> simp [h3, h4]
      have hwin : (if rsr = FIRST_PLAYER_ROLE then SECOND_PLAYER_ROLE
          else FIRST_PLAYER_ROLE) = rtr := by
        rcases hroles with ⟨h3, h4⟩ | ⟨h3, h4⟩ <;> rw [h3, h4] <;> decide
      have hclose := inv_close_resigns
        { source := some c, target := some q, source_role := rsr, target_role := rtr,
          game := some g, state := INV_ACCEPTED_STATE } g rsr rfl rfl hover hrole
      rw [hwin] at hclose
      have hget := getElem?_setInv_self w i _
        { source := some c, target := some q, source_role := rsr, target_role := rtr,
          game := some { g with game_winner := rtr, over := 1 }, state := INV_CLOSED_STATE } hr
      have hrm1 := client_remove_invitation_of_participant
        { (w.setInv i
        { source := some c, target := some q, source_role := rsr, target_role := rtr,
          game := some { g with game_winner := rtr, over := 1 }, state := INV_CLOSED_STATE }) with
        players := players1 }
        q i _ _ hget (Or.inr rfl) hcq hmemq
      have hcc3 : (World.setClient { (w.setInv i
        { source := some c, target := some q, source_role := rsr, target_role := rtr,
          game := some { g with game_winner := rtr, over := 1 }, state := INV_CLOSED_STATE }) with
        players := players1 }
        q { player := some pq, fd := cqfd, invitations := cqinv.erase i }).clients[c]? =
          some { player := some pc, fd := ccfd, invitations := ccinv } := by
        simp only [World.setClient, World.setInv]
        rw [List.getElem?_set_ne (Ne.symm hne), hcc]
      have hrm2 := client_remove_invitation_of_participant
        (World.setClient { (w.setInv i
        { source := some c, target := some q, source_role := rsr, target_role := rtr,
          game := some { g with game_winner := rtr, over := 1 }, state := INV_CLOSED_STATE }) with
        players := players1 }
        q { player := some pq, fd := cqfd, invitations := cqinv.erase i })
        c i _ _ hget (Or.inl rfl) hcc3 hmemc
      have hcq4 : (World.setClient (World.setClient { (w.setInv i
        { source := some c, target := some q, source_role := rsr, target_role := rtr,
          game := some { g with game_winner := rtr, over := 1 }, state := INV_CLOSED_STATE }) with
        players := players1 }
        q { player := some pq, fd := cqfd, invitations := cqinv.erase i })
        c { player := some pc, fd := ccfd, invitations := ccinv.erase i }).clients[q]? =
          some { player := some pq, fd := cqfd, invitations := cqinv.erase i } := by
        simp only [World.setClient, World.setInv]
        rw [List.getElem?_set_ne hne, List.getElem?_set_self (List.getElem?_eq_some.mp hcq).1]
      have hsend := client_send_packet_eq
        (World.setClient (World.setClient { (w.setInv i
        { source := some c, target := some q, source_role := rsr, target_role := rtr,
          game := some { g with game_winner := rtr, over := 1 }, state := INV_CLOSED_STATE }) with
        players := players1 }
        q { player := some pq, fd := cqfd, invitations := cqinv.erase i })
        c { player := some pc, fd := ccfd, invitations := ccinv.erase i })
        q _ { type := JEUX_RESIGNED_PKT, id := toU8 ((cqinv.indexOf i : Nat) : Int)
              role := 0, size := 0 } none hcq4
      dsimp only [World.setInv, World.setClient] at hget hrm1 hrm2 hsend
      unfold client_resign_game
      simp only [World.client, Option.some_bind, hcc, andThen_some, hinv, inv_get_source,
        inv_get_target, inv_get_source_role, inv_get_target_role, inv_get_game, World.inv, hr,
        Option.map_some', client_get_player, hcq, hqidx, hclose, hget, hpp, hrm1, hrm2,
        hsend, hcn, hcn2, ne_eq, not_true_eq_false, if_false, if_true, not_false_eq_true,
        Option.isNone_some, Bool.false_eq_true, World.setInv, World.setClient]
      simp [hcn, hcn2]
    · subst h1 h2
      obtain ⟨players1, hpp, -⟩ :=
        player_post_result_defined pow10 w.players pq pc plq plc rsr hpq hpc (Ne.symm hpne)
      refine ⟨players1, by simpa [hcn, hcn2] using hpp, ?_⟩
      have hrole : rtr ≠ NULL_ROLE := by
        rcases hroles with ⟨h3, h4⟩ | ⟨h3, h4⟩ <;> simp [h3, h4]
      have hwin : (if rtr = FIRST_PLAYER_ROLE then SECOND_PLAYER_ROLE
          else FIRST_PLAYER_ROLE) = rsr := by
        rcases hroles with ⟨h3, h4⟩ | ⟨h3, h4⟩ <;> rw [h3, h4] <;> decide
      have hclose := inv_close_resigns
        { source := some q, target := some c, source_role := rsr, target_role := rtr,
          game := some g, state := INV_ACCEPTED_STATE } g rtr rfl rfl hover hrole
      rw [hwin] at hclose
      have hget := getElem?_setInv_self w i _
        { source := some q, target := some c, source_role := rsr, target_role := rtr,
          game := some { g with game_winner := rsr, over := 1 }, state := INV_CLOSED_STATE } hr
      have hrm1 := client_remove_invitation_of_participant
        { (w.setInv i
        { source := some q, target := some c, source_role := rsr, target_role := rtr,
          game := some { g with game_winner := rsr, over := 1 }, state := INV_CLOSED_STATE }) with
        players := players1 }
        q i _ _ hget (Or.inl rfl) hcq hmemq
      have hcc3 : (World.setClient { (w.setInv i
        { source := some q, target := some c, source_role := rsr, target_role := rtr,
          game := some { g with game_winner := rsr, over := 1 }, state := INV_CLOSED_STATE }) with
        players := players1 }
        q { player := some pq, fd := cqfd, invitations := cqinv.erase i }).clients[c]? =
          some { player := some pc, fd := ccfd, invitations := ccinv } := by
        simp only [World.setClient, World.setInv]
        rw [List.getElem?_set_ne (Ne.symm hne), hcc]
      have hrm2 := client_remove_invitation_of_participant
        (World.setClient { (w.setInv i
        { source := some q, target := some c, source_role := rsr, target_role := rtr,
          game := some { g with game_winner := rsr, over := 1 }, state := INV_CLOSED_STATE }) with
        players := players1 }
        q { player := some pq, fd := cqfd, invitations := cqinv.erase i })
        c i _ _ hget (Or.inr rfl) hcc3 hmemc
      have hcq4 : (World.setClient (World.setClient { (w.setInv i
        { source := some q, target := some c, source_role := rsr, target_role := rtr,
          game := some { g with game_winner := rsr, over := 1 }, state := INV_CLOSED_STATE }) with
        players := players1 }
        q { player := some pq, fd := cqfd, invitations := cqinv.erase i })
        c { player := some pc, fd := ccfd, invitations := ccinv.erase i }).clients[q]? =
          some { player := some pq, fd := cqfd, invitations := cqinv.erase i } := by
        simp only [World.setClient, World.setInv]
        rw [List.getElem?_set_ne hne, List.getElem?_set_self (List.getElem?_eq_some.mp hcq).1]
      have hsend := client_send_packet_eq
        (World.setClient (World.setClient { (w.setInv i
        { source := some q, target := some c, source_role := rsr, target_role := rtr,
          game := some { g with game_winner := rsr, over := 1 }, state := INV_CLOSED_STATE }) with
        players := players1 }
        q { player := some pq, fd := cqfd, invitations := cqinv.erase i })
        c { player := some pc, fd := ccfd, invitations := ccinv.erase i })
        q _ { type := JEUX_RESIGNED_PKT, id := toU8 ((cqinv.indexOf i : Nat) : Int)
              role := 0, size := 0 } none hcq4
      dsimp only [World.setInv, World.setClient] at hget hrm1 hrm2 hsend
      unfold client_resign_game
      simp only [World.client, Option.some_bind, hcc, andThen_some, hinv, inv_get_source,
        inv_get_target, inv_get_source_role, inv_get_target_role, inv_get_game, World.inv, hr,
        Option.map_some', client_get_player, hcq, hqidx, hclose, hget, hpp, hrm1, hrm2,
        hsend, hcn, hcn2, ne_eq, not_true_eq_false, if_false, if_true, not_false_eq_true,
        Option.isNone_some, Bool.false_eq_true, World.setInv, World.setClient]
      simp [hcn, hcn2]
  · intro hg
    have hset : w.setInv i r = w := by
      simp only [World.setInv, list_set_self _ _ _ hr]
    have hrs : r.source_role ≠ NULL_ROLE := by
      rcases hroles with ⟨h3, _⟩ | ⟨h3, _⟩ <;> rw [h3] <;> decide
    have hrt : r.target_role ≠ NULL_ROLE := by
      rcases hroles with ⟨_, h4⟩ | ⟨_, h4⟩ <;> rw [h4] <;> decide
    unfold client_resign_game
    rcases hpart with ⟨h1, h2⟩ | ⟨h1, h2⟩
    · simp only [World.client, Option.some_bind, hcc, andThen_some, hinv, inv_get_source,
        inv_get_target, inv_get_source_role, inv_get_target_role, World.inv, hr,
        Option.map_some', hqidx, h1, h2, inv_close_no_game r _ hg hrs, hset, ne_eq,
        not_true_eq_false, if_false]
      simp
    · simp only [World.client, Option.some_bind, hcc, andThen_some, hinv, inv_get_source,
        inv_get_target, inv_get_source_role, inv_get_target_role, World.inv, hr,
        Option.map_some', hqidx, h1, h2, hcn, inv_close_no_game r _ hg hrt, hset, ne_eq,
        not_false_eq_true, if_true]
      simp


/-- An instance of the theorem above: bob, playing SECOND against alice,
resigns the game of `midGame`. -/
theorem client_resign_game_post_witness :
    ∃ w1 : World ℚ,
      client_resign_game (fun x : ℚ => x) (midGame ℚ FIRST_PLAYER_ROLE SECOND_PLAYER_ROLE)
        (some 1) 0 = some (0, w1) ∧
      w1.clients.map (fun cl => cl.invitations) = [[], [], []] ∧
      w1.invitations.map (fun v => (v.state, v.game.map game_get_winner)) =
        [(INV_CLOSED_STATE, some FIRST_PLAYER_ROLE)] ∧
      w1.sent =
        [{ client := 0
           hdr := { type := JEUX_RESIGNED_PKT, id := 0, role := 0, size := 0 }
           data := none }] := by
  obtain ⟨players1, _, h⟩ := (client_resign_game_post (fun x : ℚ => x)
    (midGame ℚ FIRST_PLAYER_ROLE SECOND_PLAYER_ROLE) 1 0 1 0 0 0
    { player := some 1, fd := 5, invitations := [0] }
    { player := some 0, fd := 4, invitations := [0] }
    (player_create "bob") (player_create "alice")
    { source := some 0, target := some 1, source_role := FIRST_PLAYER_ROLE
      target_role := SECOND_PLAYER_ROLE
      game := some
        { board := boardOf ['X', 'X', ' ', 'O', 'O', ' ', ' ', ' ', 'X']
          player_role := SECOND_PLAYER_ROLE, game_winner := NULL_ROLE, over := 0 }
      state := INV_ACCEPTED_STATE }
    rfl rfl (by decide) rfl rfl rfl rfl (by decide) rfl rfl (Or.inr ⟨rfl, rfl⟩)
    (Or.inl ⟨rfl, rfl⟩) (by decide)).1 _ rfl rfl rfl
  exact ⟨_, h, rfl, rfl, rfl⟩

/-! ### client.c: the end of a game by a move -/

theorem setGame_eq (w : World F) (i : Nat) (r : INVITATION) (g : GAME)
    (hr : w.invitations[i]? = some r) :
    w.setGame (some i) g = some (w.setInv i { r with game := some g }) := by
  simp only [World.setGame, andThen_some, hr]

/-- The function `determine_winner` for an invitation whose source and
target are clients that hold it in their lists: an ENDED packet goes to the
source and then one to the target, each with the index of the invitation in
the receiver's own list and the winner of the game as role. -/
theorem determine_winner_eq (w : World F) (i s t : Nat) (cs ct : CLIENT) (r : INVITATION)
    (g : GAME) (hr : w.invitations[i]? = some r) (hsrc : r.source = some s)
    (htgt : r.target = some t) (hcs : w.clients[s]? = some cs) (hct : w.clients[t]? = some ct)
    (hmems : i ∈ cs.invitations) (hmemt : i ∈ ct.invitations) :
    determine_winner w (some i) g =
      some (g.game_winner,
        { w with sent := w.sent ++
          [{ client := s
             hdr := { type := JEUX_ENDED_PKT, id := toU8 ((cs.invitations.indexOf i : Nat) : Int)
                      role := toU8 g.game_winner, size := 0 }
             data := none },
           { client := t
             hdr := { type := JEUX_ENDED_PKT, id := toU8 ((ct.invitations.indexOf i : Nat) : Int)
                      role := toU8 g.game_winner, size := 0 }
             data := none }] }) := by
  have h1 := get_invitation_index_by_client_of_mem w s cs i hcs hmems
  have h2 := client_send_packet_eq w s cs
    { type := JEUX_ENDED_PKT, id := toU8 ((cs.invitations.indexOf i : Nat) : Int)
      role := toU8 g.game_winner, size := 0 } none hcs
  unfold determine_winner
  simp only [game_get_winner, inv_get_source, inv_get_target, World.inv, Option.some_bind, hr,
    Option.map_some', andThen_some, hsrc, htgt, h1, h2]
  have h3 : ∀ snt : List SENT, get_invitation_index_by_client
      { clients := w.clients, invitations := w.invitations, players := w.players, sent := snt }
      (some t) (some i) = some ((ct.invitations.indexOf i : Nat) : Int) := fun snt =>
    get_invitation_index_by_client_of_mem
      { clients := w.clients, invitations := w.invitations, players := w.players, sent := snt }
      t ct i hct hmemt
  have h4 : ∀ (snt : List SENT) hdr data, client_send_packet
      { clients := w.clients, invitations := w.invitations, players := w.players, sent := snt }
      (some t) hdr data = some _ := fun snt hdr data =>
    client_send_packet_eq
      { clients := w.clients, invitations := w.invitations, players := w.players, sent := snt }
      t ct hdr data hct
  simp only [h3, h4, andThen_some]
  simp

/-- The function `display_game_results` for an invitation one of whose
participants is not logged in: `player_post_result` is called with a NULL
player and has no result. -/
theorem display_game_results_unbound [Field F] (pow10 : F → F) (w : World F) (i s t : Nat)
    (cs ct : CLIENT) (r : INVITATION) (winner : Int)
    (hr : w.invitations[i]? = some r) (hsrc : r.source = some s) (htgt : r.target = some t)
    (hcs : w.clients[s]? = some cs) (hct : w.clients[t]? = some ct)
    (hun : cs.player = none ∨ ct.player = none) :
    display_game_results pow10 w (some i) winner = none := by
  have h1 : ∀ (a b : Option Nat), a = none ∨ b = none →
      player_post_result pow10 w.players a b winner = none := by
    intro a b hab
    unfold player_post_result
    rcases hab with h | h
    · subst h; rfl
    · subst h
      cases a <;> rfl
  unfold display_game_results
  simp only [inv_get_source, inv_get_target, inv_get_target_role, client_get_player, World.inv,
    World.client, Option.some_bind, hr, Option.map_some', andThen_some, hsrc, htgt, hcs, hct,
    h1 _ _ hun, h1 _ _ hun.symm, andThen_none, ite_self]

/-- A move that ends the game when a participant is not logged in is not a
successful `client_make_move`: for a caller that is not logged in the call
returns -1 at once, and for a peer that is not logged in it has no result,
because `display_game_results` hands the NULL player of the peer to
`player_post_result`. -/
theorem client_make_move_end_of_game_unbound [Field F] (pow10 : F → F) (w : World F)
    (s t p i c : Nat) (id : Int) (move : String) (cs ct : CLIENT)
    (r : INVITATION) (g g1 : GAME) (m : GAME_MOVE) (rc : Int)
    (hcs : w.clients[s]? = some cs) (hct : w.clients[t]? = some ct) (hne : s ≠ t)
    (hc : c = s ∨ c = t)
    (hinv : get_invitation_by_index w (some c) id = some (some i))
    (hr : w.invitations[i]? = some r) (hsrc : r.source = some s) (htgt : r.target = some t)
    (hg : r.game = some g) (hmems : i ∈ cs.invitations) (hmemt : i ∈ ct.invitations)
    (hparse : game_parse_move g (if c = s then r.source_role else r.target_role) move = some m)
    (happly : game_apply_move g m = some (rc, g1)) (hrc : rc ≠ -1)
    (hover : game_is_over g1 ≠ 0) :
    ((if c = s then cs else ct).player = none →
      client_make_move pow10 w (some c) id move = some (-1, w)) ∧
    ((if c = s then cs else ct).player = some p → (if c = s then ct else cs).player = none →
      client_make_move pow10 w (some c) id move = none) := by
  have hcc : w.clients[c]? = some (if c = s then cs else ct) := by
    rcases hc with h | h
    · subst h; simpa using hcs
    · subst h; simpa [Ne.symm hne] using hct
  constructor
  · intro hnone
    unfold client_make_move
    simp only [World.client, Option.some_bind, hcc, andThen_some, hnone, if_true]
  · intro hb hpeer
    have hun : cs.player = none ∨ ct.player = none := by
      by_cases h : c = s
      · right; simpa [h] using hpeer
      · left; simpa [h] using hpeer
    have hbc : (if c = s then cs else ct).player ≠ none := by rw [hb]; simp
    obtain ⟨rs, rt, rsr, rtr, rg, rst⟩ := r
    simp only at hsrc htgt hg hparse
    subst hsrc htgt hg
    have hlt : i < w.invitations.length := (List.getElem?_eq_some.mp hr).1
    have hr1 : (w.invitations.set i
        { source := some s, target := some t, source_role := rsr, target_role := rtr,
          game := some g1, state := rst })[i]? = some
        { source := some s, target := some t, source_role := rsr, target_role := rtr,
          game := some g1, state := rst } := List.getElem?_set_self hlt
    have hsetg : World.setGame w (some i) g1 = some
        { clients := w.clients, invitations := (w.invitations.set i
        { source := some s, target := some t, source_role := rsr, target_role := rtr,
          game := some g1, state := rst }), players := w.players, sent := w.sent } :=
      setGame_eq w i _ g1 hr
    have hsend : ∀ (x : Nat) (cx : CLIENT), w.clients[x]? = some cx →
        ∀ (inv : List INVITATION) (pl : List (PLAYER F)) (snt : List SENT)
          (hdr : JEUX_PACKET_HEADER) (data : Option String),
        client_send_packet
          { clients := w.clients, invitations := inv, players := pl, sent := snt } (some x)
          hdr data = some
          { clients := w.clients, invitations := inv, players := pl
            sent := snt ++ [{ client := x, hdr := hdr, data := data }] } :=
      fun x cx hx inv pl snt hdr data => client_send_packet_eq
        { clients := w.clients, invitations := inv, players := pl, sent := snt } x cx hdr data hx
    have hdw : ∀ (pl : List (PLAYER F)) (snt : List SENT), ∃ w3 : World F, determine_winner
        { clients := w.clients, invitations := (w.invitations.set i
        { source := some s, target := some t, source_role := rsr, target_role := rtr,
          game := some g1, state := rst }), players := pl, sent := snt } (some i) g1 =
        some (g1.game_winner, w3) ∧ w3.clients = w.clients ∧
          w3.invitations = (w.invitations.set i
        { source := some s, target := some t, source_role := rsr, target_role := rtr,
          game := some g1, state := rst }) :=
      fun pl snt => ⟨_, determine_winner_eq
        { clients := w.clients, invitations := (w.invitations.set i
        { source := some s, target := some t, source_role := rsr, target_role := rtr,
          game := some g1, state := rst }), players := pl, sent := snt }
        i s t _ _ _ g1 hr1 rfl rfl hcs hct hmems hmemt, rfl, rfl⟩
    have hdg : ∀ w3 : World F, w3.clients = w.clients → w3.invitations = (w.invitations.set i
        { source := some s, target := some t, source_role := rsr, target_role := rtr,
          game := some g1, state := rst }) →
        display_game_results pow10 w3 (some i) g1.game_winner = none :=
      fun w3 h1 h2 => display_game_results_unbound pow10 w3 i s t cs ct _ g1.game_winner
        (by rw [h2]; exact hr1) rfl rfl (by rw [h1]; exact hcs) (by rw [h1]; exact hct) hun
    rcases hc with hc | hc
    · subst hc
      have hidx := get_invitation_index_by_client_of_mem w t _ i hct hmemt
      have hst := hsend t _ hct
      simp only [if_true] at hparse hbc
      obtain ⟨w3, hw3, hc3, hi3⟩ := hdw w.players (w.sent ++
        [{ client := t
           hdr := { type := JEUX_MOVED_PKT, id := toU8 ((ct.invitations.indexOf i : Nat) : Int)
                    role := 0, size := toU16 (strlen (game_unparse_state g1)) }
           data := some (game_unparse_state g1) }])
      unfold client_make_move
      simp only [World.client, Option.some_bind, hcs, andThen_some, hinv, inv_get_source,
        inv_get_target, inv_get_source_role, inv_get_target_role, inv_get_game, World.inv, hr,
        Option.map_some', hidx, hparse, happly, hsetg, hrc, hst, hover, hw3, hdg w3 hc3 hi3,
        hbc, andThen_none, ne_eq, not_true_eq_false, if_false, if_true, not_false_eq_true,
        reduceCtorEq]
    · subst hc
      have hcn : ¬(some s = some c) := by simpa using hne
      have hidx := get_invitation_index_by_client_of_mem w s _ i hcs hmems
      have hss := hsend s _ hcs
      simp only [if_neg (Ne.symm hne)] at hparse hbc
      obtain ⟨w3, hw3, hc3, hi3⟩ := hdw w.players (w.sent ++
        [{ client := s
           hdr := { type := JEUX_MOVED_PKT, id := toU8 ((cs.invitations.indexOf i : Nat) : Int)
                    role := 0, size := toU16 (strlen (game_unparse_state g1)) }
           data := some (game_unparse_state g1) }])
      unfold client_make_move
      simp only [World.client, Option.some_bind, hct, andThen_some, hinv, inv_get_source,
        inv_get_target, inv_get_source_role, inv_get_target_role, inv_get_game, World.inv, hr,
        Option.map_some', hidx, hparse, happly, hsetg, hrc, hss, hover, hw3, hdg w3 hc3 hi3,
        hbc, hcn, andThen_none, ne_eq, not_true_eq_false, if_false, if_true,
        not_false_eq_true, reduceCtorEq]

/-- An instance of the theorem on `inv_accept`: the OPEN invitation of alice
to bob is accepted. -/
theorem inv_accept_spec_witness :
    ∃ g : GAME,
      inv_accept
        { source := some 0, target := some 1, source_role := FIRST_PLAYER_ROLE
          target_role := SECOND_PLAYER_ROLE, game := none, state := INV_OPEN_STATE } =
        (0, { source := some 0, target := some 1, source_role := FIRST_PLAYER_ROLE
              target_role := SECOND_PLAYER_ROLE, game := some g
              state := INV_ACCEPTED_STATE }) ∧
      (∀ r c : Fin 3, g.board r c = ' ') ∧ g.player_role = FIRST_PLAYER_ROLE ∧
      game_is_over g = 0 ∧ g.game_winner = NULL_ROLE :=
  (inv_accept_spec
    { source := some 0, target := some 1, source_role := FIRST_PLAYER_ROLE
      target_role := SECOND_PLAYER_ROLE, game := none, state := INV_OPEN_STATE }).1 rfl

/-- C20 at its failing input: alice (source, FIRST) and bob (target, SECOND)
play the game of `midGame`; bob's move 6 completes the middle row, the call
returns 0 and the game is over with SECOND as winner, yet the state of the
invitation after the call is ACCEPTED, not CLOSED: `client_make_move` never
closes the invitation. -/
theorem client_make_move_leaves_invitation_accepted {F : Type} [Field F] (pow10 : F → F) :
    (client_make_move pow10 (midGame F FIRST_PLAYER_ROLE SECOND_PLAYER_ROLE) (some 1) 0 "6").map
      (fun r => (r.1, r.2.invitations.map
        (fun v => (v.state, v.game.map (fun g => (game_is_over g, game_get_winner g)))))) =
    some (0, [(INV_ACCEPTED_STATE, some (1, SECOND_PLAYER_ROLE))]) := by
  rfl

/-! ### invitation.c: closing -/

/-- C22, for every ACCEPTED invitation (in particular one whose game is in
progress): `inv_close` with NULL_ROLE does not look at the game; it returns 0
and makes the state CLOSED, the game being left as it is, not over and
without a winner. -/
theorem inv_close_null_role_closes_accepted (inv : INVITATION) :
    inv_close { inv with state := INV_ACCEPTED_STATE } NULL_ROLE =
      (0, { inv with state := INV_CLOSED_STATE }) ∧
    inv_close
      { source := some 0, target := some 1, source_role := FIRST_PLAYER_ROLE
        target_role := SECOND_PLAYER_ROLE, game := some game_create
        state := INV_ACCEPTED_STATE } NULL_ROLE =
      (0, { source := some 0, target := some 1, source_role := FIRST_PLAYER_ROLE
            target_role := SECOND_PLAYER_ROLE, game := some game_create
            state := INV_CLOSED_STATE }) ∧
    game_is_over game_create = 0 := by
  refine ⟨?_, ?_, rfl⟩ <;> simp [inv_close, NULL_ROLE]

/-- C23: on an ACCEPTED invitation with a game, `inv_close` with the role
FIRST or SECOND: if the game is not over, the call returns 0, the state
becomes CLOSED and the game becomes over with the other role as winner,
board and turn as before; if the game is over, the call returns -1 and the
invitation with its game is as before. -/
theorem inv_close_player_role (inv : INVITATION) (g : GAME) (role : GAME_ROLE)
    (hst : inv.state = INV_ACCEPTED_STATE) (hg : inv.game = some g)
    (hrole : role = FIRST_PLAYER_ROLE ∨ role = SECOND_PLAYER_ROLE) :
    (game_is_over g = 0 →
      ∃ g1 : GAME,
        inv_close inv role = (0, { inv with game := some g1, state := INV_CLOSED_STATE }) ∧
        game_is_over g1 ≠ 0 ∧
        (role = FIRST_PLAYER_ROLE → g1.game_winner = SECOND_PLAYER_ROLE) ∧
        (role = SECOND_PLAYER_ROLE → g1.game_winner = FIRST_PLAYER_ROLE) ∧
        g1.board = g.board ∧ g1.player_role = g.player_role) ∧
    (game_is_over g ≠ 0 → inv_close inv role = (-1, inv)) := by
  have hne : role ≠ NULL_ROLE := by
    rcases hrole with h | h <;> rw [h] <;> decide
  constructor
  · intro hover
    refine ⟨{ g with
        game_winner := if role = FIRST_PLAYER_ROLE then SECOND_PLAYER_ROLE
                       else FIRST_PLAYER_ROLE
        over := 1 }, inv_close_resigns inv g role hst hg hover hne, by simp [game_is_over],
      fun h => by subst h; rfl, fun h => by subst h; rfl, rfl, rfl⟩
  · intro hover
    obtain ⟨rs, rt, rsr, rtr, rg, rst⟩ := inv
    simp only at hst hg
    subst hst hg
    simp [inv_close, game_resign, hover, hne]

/-- An instance of the theorem above: FIRST resigns a fresh game by closing
its invitation. -/
theorem inv_close_player_role_witness :
    ∃ g1 : GAME,
      inv_close
        { source := some 0, target := some 1, source_role := FIRST_PLAYER_ROLE
          target_role := SECOND_PLAYER_ROLE, game := some game_create
          state := INV_ACCEPTED_STATE } FIRST_PLAYER_ROLE =
        (0, { source := some 0, target := some 1, source_role := FIRST_PLAYER_ROLE
              target_role := SECOND_PLAYER_ROLE, game := some g1
              state := INV_CLOSED_STATE }) ∧
      game_is_over g1 ≠ 0 ∧ g1.game_winner = SECOND_PLAYER_ROLE := by
  obtain ⟨g1, h, hover, hw, -⟩ := (inv_close_player_role
    { source := some 0, target := some 1, source_role := FIRST_PLAYER_ROLE
      target_role := SECOND_PLAYER_ROLE, game := some game_create
      state := INV_ACCEPTED_STATE } game_create FIRST_PLAYER_ROLE rfl rfl (Or.inl rfl)).1 rfl
  exact ⟨g1, h, hover, hw rfl⟩

theorem inv_call_closed (inv : INVITATION) (hst : inv.state = INV_CLOSED_STATE)
    (c : INV_CALL) : inv_call inv c = (-1, inv) := by
  cases c with
  | accept => simp [inv_call, inv_accept, hst]
  | close role => simp [inv_call, inv_close, hst]

/-- C24: on a CLOSED invitation `inv_close` with any role and `inv_accept`
return -1 and leave the invitation, with its state and its game, as it was;
so after any sequence of such calls the invitation is still the same CLOSED
invitation. -/
theorem closed_is_terminal (inv : INVITATION) (hst : inv.state = INV_CLOSED_STATE) :
    (∀ role : GAME_ROLE, inv_close inv role = (-1, inv)) ∧
    inv_accept inv = (-1, inv) ∧
    ∀ calls : List INV_CALL, inv_calls inv calls = inv := by
  refine ⟨fun role => inv_call_closed inv hst (INV_CALL.close role),
    inv_call_closed inv hst INV_CALL.accept, ?_⟩
  intro calls
  induction calls with
  | nil => rfl
  | cons c rest ih => rw [inv_calls, inv_call_closed inv hst c]; exact ih

/-- An instance of the theorem above: a revoked invitation is accepted,
closed for SECOND and closed again. -/
theorem closed_is_terminal_witness :
    inv_calls
      { source := some 0, target := some 1, source_role := FIRST_PLAYER_ROLE
        target_role := SECOND_PLAYER_ROLE, game := none, state := INV_CLOSED_STATE }
      [INV_CALL.accept, INV_CALL.close SECOND_PLAYER_ROLE, INV_CALL.close NULL_ROLE] =
      { source := some 0, target := some 1, source_role := FIRST_PLAYER_ROLE
        target_role := SECOND_PLAYER_ROLE, game := none, state := INV_CLOSED_STATE } :=
  (closed_is_terminal
    { source := some 0, target := some 1, source_role := FIRST_PLAYER_ROLE
      target_role := SECOND_PLAYER_ROLE, game := none, state := INV_CLOSED_STATE } rfl).2.2 _

/-- One call keeps the relation between the state and the game pointer: an
ACCEPTED invitation has a game and an OPEN one has none. -/
theorem inv_call_state_game (inv : INVITATION) (c : INV_CALL)
    (h : (inv.state = INV_ACCEPTED_STATE → inv.game.isSome) ∧
      (inv.state = INV_OPEN_STATE → inv.game = none)) :
    ((inv_call inv c).2.state = INV_ACCEPTED_STATE → (inv_call inv c).2.game.isSome) ∧
    ((inv_call inv c).2.state = INV_OPEN_STATE → (inv_call inv c).2.game = none) := by
  obtain ⟨rs, rt, rsr, rtr, rg, rst⟩ := inv
  simp only at h
  cases c with
  | accept =>
    by_cases ho : rst = INV_OPEN_STATE
    · simp [inv_call, inv_accept, ho]
    · simpa [inv_call, inv_accept, ho] using h
  | close role =>
    by_cases hc : rst = INV_CLOSED_STATE
    · simp [inv_call, inv_close, hc]
    · by_cases hr : role = NULL_ROLE
      · simp [inv_call, inv_close, hc, hr]
      · cases rg with
        | none => simpa [inv_call, inv_close, hc, hr] using h
        | some g =>
          by_cases hres : (game_resign g role).1 = 0
          · simp [inv_call, inv_close, hc, hr, hres]
          · have h1 := h.1
            have h2 := h.2
            simp only [inv_call, inv_close, hc, hr, hres, if_false, ne_eq, not_false_eq_true,
              if_true]
            constructor
            · intro _; rfl
            · intro ho; simpa using h2 ho

/-- C25: an invitation made by `inv_create` and then taken through any
sequence of `inv_accept` and `inv_close` calls, with any roles, has a game
whenever its state is ACCEPTED and has none whenever its state is OPEN. -/
theorem inv_state_game_invariant (source target : Option Nat)
    (source_role target_role : GAME_ROLE) (inv0 : INVITATION)
    (hcreate : inv_create source target source_role target_role = some inv0)
    (calls : List INV_CALL) :
    ((inv_calls inv0 calls).state = INV_ACCEPTED_STATE → (inv_calls inv0 calls).game.isSome) ∧
    ((inv_calls inv0 calls).state = INV_OPEN_STATE → (inv_calls inv0 calls).game = none) := by
  have h0 : (inv0.state = INV_ACCEPTED_STATE → inv0.game.isSome) ∧
      (inv0.state = INV_OPEN_STATE → inv0.game = none) := by
    unfold inv_create at hcreate
    split at hcreate
    · cases hcreate
    · cases hcreate
      simp
  clear hcreate
  induction calls generalizing inv0 with
  | nil => exact h0
  | cons c rest ih => exact ih _ (inv_call_state_game inv0 c h0)

/-- An instance of the theorem above: alice's invitation to bob is accepted,
accepted again, closed with NULL_ROLE and closed for FIRST. -/
theorem inv_state_game_invariant_witness :
    ∃ inv0 : INVITATION,
      inv_create (some 0) (some 1) FIRST_PLAYER_ROLE SECOND_PLAYER_ROLE = some inv0 ∧
      (inv_calls inv0 [INV_CALL.accept] ).state = INV_ACCEPTED_STATE ∧
      (inv_calls inv0 [INV_CALL.accept]).game.isSome :=
  ⟨_, rfl, rfl, (inv_state_game_invariant (some 0) (some 1) FIRST_PLAYER_ROLE
    SECOND_PLAYER_ROLE _ rfl [INV_CALL.accept]).1 rfl⟩

/-! ### client.c: what `client_make_invitation` checks -/

theorem andThen_eq_some {α β : Type} (x : Option α) (f : α → Option β) (b : β) :
    andThen x f = some b ↔ ∃ a, x = some a ∧ f a = some b := by
  cases x <;> simp [andThen]

theorem client_add_invitation_some (w w1 : World F) (client inv : Option Nat) (rc : Int)
    (h : client_add_invitation w client inv = some (rc, w1)) :
    rc = 0 ∧ w1.invitations = w.invitations ∧ w1.players = w.players ∧ w1.sent = w.sent := by
  unfold client_add_invitation at h
  cases client with
  | none => simp at h
  | some c =>
    cases hc : w.clients[c]? with
    | none => simp [hc] at h
    | some cl =>
      cases inv with
      | none => simp [hc] at h
      | some i =>
        cases hi : w.invitations[i]? with
        | none => simp [hc, hi] at h
        | some r =>
          simp [hc, hi, World.setClient] at h
          obtain ⟨h1, h2⟩ := h
          subst h2
          exact ⟨h1.symm, rfl, rfl, rfl⟩

theorem client_send_packet_some (w w1 : World F) (client : Option Nat)
    (hdr : JEUX_PACKET_HEADER) (data : Option String)
    (h : client_send_packet w client hdr data = some w1) :
    w1.invitations = w.invitations ∧ w1.clients = w.clients ∧ w1.players = w.players := by
  unfold client_send_packet at h
  cases client with
  | none => simp at h
  | some c =>
    cases hc : w.clients[c]? with
    | none => simp [hc] at h
    | some cl =>
      simp [hc] at h
      subst h
      exact ⟨rfl, rfl, rfl⟩

theorem client_send_nack_some (w w1 : World F) (client : Option Nat)
    (h : client_send_nack w client = some w1) :
    w1.invitations = w.invitations ∧ w1.clients = w.clients ∧ w1.players = w.players := by
  unfold client_send_nack at h
  cases client with
  | none => simp [andThen] at h
  | some c =>
    cases hc : w.clients[c]? with
    | none => simp [andThen, hc] at h
    | some cl =>
      simp [andThen, hc] at h
      subst h
      exact ⟨rfl, rfl, rfl⟩

/-- Whatever `client_make_invitation` returns: for equal source and target it
returns -1 in the unchanged state; otherwise the invitations afterwards are
those before and the new one, OPEN, without a game, with the roles as
given. -/
theorem client_make_invitation_some (w w1 : World F) (s t : Option Nat)
    (source_role target_role : GAME_ROLE) (rc : Int)
    (h : client_make_invitation w s t source_role target_role = some (rc, w1)) :
    (s = t ∧ rc = -1 ∧ w1 = w) ∨
    (s ≠ t ∧ w1.invitations = w.invitations ++
      [{ source := s, target := t, source_role := source_role, target_role := target_role
         game := none, state := INV_OPEN_STATE }]) := by
  unfold client_make_invitation World.inv_create Jeux.inv_create at h
  by_cases hst : s = t
  · left
    simp [hst, andThen_some] at h
    exact ⟨hst, h.1.symm, h.2.symm⟩
  · right
    refine ⟨hst, ?_⟩
    simp only [hst, if_false, andThen_eq_some] at h
    obtain ⟨⟨inv, wa⟩, ⟨_, _, _, _, hcr⟩, h⟩ := h
    simp only [Option.some.injEq, Prod.mk.injEq] at hcr
    obtain ⟨hinv, hwa⟩ := hcr
    subst hinv hwa
    simp only [reduceCtorEq, if_false, andThen_eq_some] at h
    obtain ⟨⟨r1, w2⟩, hadd1, h⟩ := h
    obtain ⟨hr1, hi2, -, -⟩ := client_add_invitation_some _ _ _ _ _ hadd1
    subst hr1
    simp only [ne_eq, not_true_eq_false, if_false, andThen_eq_some] at h
    obtain ⟨⟨r2, w3⟩, hadd2, h⟩ := h
    obtain ⟨hr2, hi3, -, -⟩ := client_add_invitation_some _ _ _ _ _ hadd2
    subst hr2
    simp only [ne_eq, not_true_eq_false, if_false, andThen_eq_some] at h
    obtain ⟨id_one, -, w4, hs4, player, -, name, -, trole, -, id_two, -, w5, hs5, h⟩ := h
    simp only [Option.some.injEq, Prod.mk.injEq] at h
    obtain ⟨-, h⟩ := h
    subst h
    rw [(client_send_packet_some _ _ _ _ _ hs5).1, (client_send_packet_some _ _ _ _ _ hs4).1,
      hi3, hi2]


/-- C26 (as stated) fails: alice invites bob with the role FIRST for both,
and then with the role 7 for both; each call returns 0, creates the
invitation with the roles as given, adds it to both lists, and sends ACK and
INVITED. -/
theorem client_make_invitation_roles_counterexample :
    (client_make_invitation (threeClients ℚ) (some 0) (some 1) FIRST_PLAYER_ROLE
        FIRST_PLAYER_ROLE).map
      (fun r => (r.1, (view r.2).1.map (fun cl => cl.invitations),
        r.2.invitations.map (fun v => (v.source_role, v.target_role, v.state)),
        r.2.sent.map (fun s => (s.client, s.hdr.type)))) =
      some (0, [[0], [0], []], [(FIRST_PLAYER_ROLE, FIRST_PLAYER_ROLE, INV_OPEN_STATE)],
        [(0, JEUX_ACK_PKT), (1, JEUX_INVITED_PKT)]) ∧
    (client_make_invitation (threeClients ℚ) (some 0) (some 1) 7 7).map
      (fun r => (r.1, (view r.2).1.map (fun cl => cl.invitations),
        r.2.invitations.map (fun v => (v.source_role, v.target_role, v.state)),
        r.2.sent.map (fun s => (s.client, s.hdr.type)))) =
      some (0, [[0], [0], []], [(7, 7, INV_OPEN_STATE)],
        [(0, JEUX_ACK_PKT), (1, JEUX_INVITED_PKT)]) := by
  constructor <;> rfl

/-- C26 (as amended): `client_make_invitation` with the same client as
source and as target returns -1 and leaves the state as it was (no
invitation, the lists unchanged, no packet), whatever the roles. The roles
are checked by `send_invite`: for a role other than FIRST and SECOND it
sends one NACK to the requester and changes nothing else; and whenever it
returns, the invitations are those before, or those before and one new
invitation whose source and target differ and whose roles are FIRST and
SECOND, one each. -/
theorem client_make_invitation_requirements (w : World F) (cr : CLIENT_REGISTRY)
    (c : Nat) (cl : CLIENT) (name : String) (role : Int) (target : Option Nat)
    (hcl : w.clients[c]? = some cl) (hlook : creg_lookup w cr name = some target) :
    (∀ (x : Option Nat) (source_role target_role : GAME_ROLE),
      client_make_invitation w x x source_role target_role = some (-1, w)) ∧
    (role ≠ FIRST_PLAYER_ROLE → role ≠ SECOND_PLAYER_ROLE →
      send_invite w cr (some c) name role =
        some { w with sent := w.sent ++
          [{ client := c, hdr := { type := JEUX_NACK_PKT, id := 0, role := 0, size := 0 }
             data := none }] }) ∧
    (∀ w1 : World F, send_invite w cr (some c) name role = some w1 →
      w1.invitations = w.invitations ∨
      ∃ r : INVITATION, w1.invitations = w.invitations ++ [r] ∧ r.source ≠ r.target ∧
        r.game = none ∧ r.state = INV_OPEN_STATE ∧
        ((r.source_role = FIRST_PLAYER_ROLE ∧ r.target_role = SECOND_PLAYER_ROLE) ∨
         (r.source_role = SECOND_PLAYER_ROLE ∧ r.target_role = FIRST_PLAYER_ROLE))) := by
  have hnack : client_send_nack w (some c) = some { w with sent := w.sent ++
      [{ client := c, hdr := { type := JEUX_NACK_PKT, id := 0, role := 0, size := 0 }
         data := none }] } := by
    simp [client_send_nack, andThen_some, hcl]
  refine ⟨?_, ?_, ?_⟩
  · intro x source_role target_role
    simp [client_make_invitation, World.inv_create, Jeux.inv_create, andThen_some]
  · intro h1 h2
    simp [send_invite, client_get_player, World.client, hcl, hlook, andThen_some, h1, h2, hnack]
  · intro w1 h
    unfold send_invite at h
    simp only [client_get_player, World.client, Option.some_bind, hcl, Option.map_some',
      andThen_some, hlook] at h
    split at h
    · left
      rw [hnack] at h
      cases h
      rfl
    · rw [andThen_eq_some] at h
      obtain ⟨⟨rc, w2⟩, hmk, h⟩ := h
      have hw1 : w1.invitations = w2.invitations := by
        simp only at h
        split at h
        · exact (client_send_nack_some _ _ _ h).1
        · cases h
          rfl
      rcases client_make_invitation_some _ _ _ _ _ _ _ hmk with ⟨-, -, hw⟩ | ⟨hne, hw⟩
      · left
        rw [hw1, hw]
      · right
        refine ⟨_, by rw [hw1, hw], hne, rfl, rfl, ?_⟩
        by_cases hr : role = SECOND_PLAYER_ROLE
        · left
          simp [hr]
        · right
          simp [hr]

/-- An instance of the theorem above: alice asks to invite bob with the
role 7, and gets a NACK; she asks with the role SECOND for bob and the
invitation is made with alice FIRST and bob SECOND. -/
theorem client_make_invitation_requirements_witness :
    send_invite (threeClients ℚ) threeRegistered (some 0) "bob" 7 =
      some { threeClients ℚ with sent :=
        [{ client := 0, hdr := { type := JEUX_NACK_PKT, id := 0, role := 0, size := 0 }
           data := none }] } ∧
    (send_invite (threeClients ℚ) threeRegistered (some 0) "bob" SECOND_PLAYER_ROLE).map
      (fun w1 => w1.invitations) =
      some [{ source := some 0, target := some 1, source_role := FIRST_PLAYER_ROLE
              target_role := SECOND_PLAYER_ROLE, game := none, state := INV_OPEN_STATE }] :=
  ⟨(client_make_invitation_requirements (threeClients ℚ) threeRegistered 0
      { player := some 0, fd := 4, invitations := [] } "bob" 7 (some 1) rfl rfl).2.1
      (by decide) (by decide), rfl⟩


/-! ### client.c: an id that does not resolve -/

/-- C27, for every bound client and every id from the length of its list on:
`get_invitation_by_index` returns NULL; `client_accept_invitation` and
`client_resign_game` test for it and return -1 in the unchanged state, but
`client_revoke_invitation` and `client_decline_invitation` call
`inv_get_target` and `client_make_move` calls `inv_get_game` on the NULL
pointer before they test it, and have no defined result. -/
theorem unknown_id_dereferences_null [Field F] (pow10 : F → F) (w : World F) (c p : Nat)
    (id : Int) (cl : CLIENT) (move : String) (hcl : w.clients[c]? = some cl)
    (hbound : cl.player = some p) (hid : (cl.invitations.length : Int) ≤ id) :
    get_invitation_by_index w (some c) id = some none ∧
    client_accept_invitation w (some c) id = some (-1, none, w) ∧
    client_resign_game pow10 w (some c) id = some (-1, w) ∧
    client_revoke_invitation w (some c) id = none ∧
    client_decline_invitation w (some c) id = none ∧
    client_make_move pow10 w (some c) id move = none := by
  have hget : get_invitation_by_index w (some c) id = some none := by
    simp [get_invitation_by_index, hcl, hid]
  refine ⟨hget, ?_, ?_, ?_, ?_, ?_⟩
  · simp [client_accept_invitation, hget, andThen_some]
  · simp [client_resign_game, World.client, hcl, hbound, hget, andThen_some]
  · simp [client_revoke_invitation, hget, andThen_some, inv_get_target, World.inv, andThen_none]
  · simp [client_decline_invitation, hget, andThen_some, inv_get_target, World.inv,
      andThen_none]
  · simp [client_make_move, World.client, hcl, hbound, hget, andThen_some, inv_get_game,
      World.inv, andThen_none]

/-- An instance of the theorem above: alice, logged in and without any
invitation, uses the id 0. -/
theorem unknown_id_dereferences_null_witness :
    client_accept_invitation (threeClients ℚ) (some 0) 0 = some (-1, none, threeClients ℚ) ∧
    client_revoke_invitation (threeClients ℚ) (some 0) 0 = none ∧
    client_decline_invitation (threeClients ℚ) (some 0) 0 = none ∧
    client_make_move (fun x : ℚ => x) (threeClients ℚ) (some 0) 0 "5" = none := by
  obtain ⟨-, h1, -, h2, h3, h4⟩ := unknown_id_dereferences_null (fun x : ℚ => x)
    (threeClients ℚ) 0 0 0 { player := some 0, fd := 4, invitations := [] } "5" rfl rfl
    (by decide)
  exact ⟨h1, h2, h3, h4⟩

/-! ### server.c: the responses of the session -/

/-- C28 at its failing input: alice, logged in and without any invitation,
sends REVOKE, DECLINE or MOVE with the id 0; the handler dereferences the
NULL pointer that `get_invitation_by_index` returned, so the turn of the
loop has no defined result and no ACK or NACK is sent. For ACCEPT and RESIGN
with the same id the one packet sent is a NACK to alice. -/
theorem service_unknown_id_no_response [Field F] (pow10 : F → F) (toInt : F → Int) :
    jeux_client_service pow10 toInt (threeClients F) threeRegistered (some 0)
      { type := JEUX_REVOKE_PKT, id := 0, role := 0, size := 0 } "" = none ∧
    jeux_client_service pow10 toInt (threeClients F) threeRegistered (some 0)
      { type := JEUX_DECLINE_PKT, id := 0, role := 0, size := 0 } "" = none ∧
    jeux_client_service pow10 toInt (threeClients F) threeRegistered (some 0)
      { type := JEUX_MOVE_PKT, id := 0, role := 0, size := 1 } "5" = none ∧
    (jeux_client_service pow10 toInt (threeClients F) threeRegistered (some 0)
      { type := JEUX_ACCEPT_PKT, id := 0, role := 0, size := 0 } "").map
        (fun r => r.1.sent) =
      some [{ client := 0, hdr := { type := JEUX_NACK_PKT, id := 0, role := 0, size := 0 }
              data := none }] ∧
    (jeux_client_service pow10 toInt (threeClients F) threeRegistered (some 0)
      { type := JEUX_RESIGN_PKT, id := 0, role := 0, size := 0 } "").map
        (fun r => r.1.sent) =
      some [{ client := 0, hdr := { type := JEUX_NACK_PKT, id := 0, role := 0, size := 0 }
              data := none }] := by
  refine ⟨rfl, rfl, rfl, rfl, rfl⟩

/-- C29: for a client that is bound to a player, `login` with any name
sends one NACK to the client and changes nothing else: the client stays
bound to the same player and the table of players is as before; so does the
turn of the session loop for a LOGIN packet. -/
theorem login_duplicate_refused [Field F] (pow10 : F → F) (toInt : F → Int) (w : World F)
    (cr : CLIENT_REGISTRY) (c p : Nat) (cl : CLIENT) (name : String)
    (hdr : JEUX_PACKET_HEADER) (hcl : w.clients[c]? = some cl) (hbound : cl.player = some p)
    (htype : hdr.type = JEUX_LOGIN_PKT) :
    login w (some c) name =
      some { w with sent := w.sent ++
        [{ client := c, hdr := { type := JEUX_NACK_PKT, id := 0, role := 0, size := 0 }
           data := none }] } ∧
    jeux_client_service pow10 toInt w cr (some c) hdr name =
      some ({ w with sent := w.sent ++
        [{ client := c, hdr := { type := JEUX_NACK_PKT, id := 0, role := 0, size := 0 }
           data := none }] }, cr, true) := by
  have h : login w (some c) name =
      some { w with sent := w.sent ++
        [{ client := c, hdr := { type := JEUX_NACK_PKT, id := 0, role := 0, size := 0 }
           data := none }] } := by
    simp [login, client_get_player, World.client, hcl, hbound, andThen_some, client_send_nack]
  refine ⟨h, ?_⟩
  unfold jeux_client_service
  rw [htype]
  simp only [h, Option.map_some']

/-- An instance of the theorem above: alice, logged in, sends LOGIN with
the name dave. -/
theorem login_duplicate_refused_witness :
    jeux_client_service (fun x : ℚ => x) (fun _ => 1500) (threeClients ℚ) threeRegistered
        (some 0) { type := JEUX_LOGIN_PKT, id := 0, role := 0, size := 4 } "dave" =
      some ({ threeClients ℚ with sent :=
        [{ client := 0, hdr := { type := JEUX_NACK_PKT, id := 0, role := 0, size := 0 }
           data := none }] }, threeRegistered, true) :=
  (login_duplicate_refused (fun x : ℚ => x) (fun _ => 1500) (threeClients ℚ) threeRegistered
    0 0 { player := some 0, fd := 4, invitations := [] } "dave"
    { type := JEUX_LOGIN_PKT, id := 0, role := 0, size := 4 } rfl rfl rfl).2

/-! ### client_registry.c -/

/-- C30 at its failing input: alice, bob and carol are registered and
logged in, in this order, and no player is named dave. `creg_lookup` of
"dave" returns carol, the client of the last node, because `curr_client` is
not reset when the loop ends without a match; so `send_invite` for "dave"
from alice makes an invitation to carol and sends her INVITED. The lookup of
"bob" returns bob. -/
theorem creg_lookup_miss_returns_last_client :
    creg_lookup (threeClients ℚ) threeRegistered "dave" = some (some 2) ∧
    (threeClients ℚ).players.map (fun pl => pl.username) = ["alice", "bob", "carol"] ∧
    creg_lookup (threeClients ℚ) threeRegistered "bob" = some (some 1) ∧
    (send_invite (threeClients ℚ) threeRegistered (some 0) "dave" SECOND_PLAYER_ROLE).map
      (fun w1 => (w1.invitations.map (fun v => (v.source, v.target)),
        w1.sent.map (fun s => (s.client, s.hdr.type, s.data)))) =
      some ([(some 0, some 2)],
        [(0, JEUX_ACK_PKT, none), (2, JEUX_INVITED_PKT, some "alice")]) := by
  refine ⟨by decide, by decide, by decide, rfl⟩

/-! ### client.c: logout -/

set_option maxRecDepth 100000 in
/-- The sample state `aliceTwoGames` is what the client operations produce
from `threeClients`: alice invites bob and carol, and each of them accepts. -/
theorem aliceTwoGames_reached :
    (andThen (client_make_invitation (threeClients ℚ) (some 0) (some 1) FIRST_PLAYER_ROLE
        SECOND_PLAYER_ROLE) fun r1 =>
      andThen (client_make_invitation r1.2 (some 0) (some 2) FIRST_PLAYER_ROLE
        SECOND_PLAYER_ROLE) fun r2 =>
      andThen (client_accept_invitation r2.2 (some 1) 0) fun r3 =>
      client_accept_invitation r3.2.2 (some 2) 0).map (fun r => (r.1, view r.2.2)) =
      some (0, view aliceTwoGames) := by
  decide

set_option maxRecDepth 100000 in
/-- C21 at its failing inputs. Alice has two OPEN invitations, to bob (id 0)
and to carol (id 1). The loop of `client_logout` revokes id 0: the call
closes the invitation, takes it out of both lists and sends REVOKED to bob,
and it frees the node of alice's list that the loop stands on. The loop then
reads `curr->next` from the freed node, and the logout has no defined
result: carol is not notified, her invitation stays OPEN and in both
lists, and alice stays bound. Were the pointer still read from the freed
node, the next call would be `client_revoke_invitation` with id 1, which
resolves to no invitation any more (the invitation to carol now has id 0),
and would dereference NULL. With a single invitation, the game of alice and
bob, and with two games, the logout has no defined result either, after the
first `client_resign_game`. Only a client without invitations is logged
out. -/
theorem client_logout_misses_invitations :
    client_logout (fun x : ℚ => x) aliceInvitedTwo (some 0) = none ∧
    (client_revoke_invitation aliceInvitedTwo (some 0) 0).map
      (fun r => (r.1, (view r.2).1.map (fun cl => cl.invitations),
        (view r.2).2.map (fun v => v.state), r.2.sent.map (fun s => (s.client, s.hdr.type)),
        get_invitation_by_index r.2 (some 0) 1,
        (client_revoke_invitation r.2 (some 0) 1).isNone)) =
      some (0, [[1], [], [1]], [INV_CLOSED_STATE, INV_OPEN_STATE], [(1, JEUX_REVOKED_PKT)],
        some none, true) ∧
    client_logout (fun x : ℚ => x) aliceBobPlaying (some 0) = none ∧
    client_logout (fun x : ℚ => x) aliceTwoGames (some 0) = none ∧
    (client_logout (fun x : ℚ => x) (threeClients ℚ) (some 0)).map
      (fun r => (r.1, (view r.2).1, r.2.sent)) =
      some (0, [{ player := none, fd := 4, invitations := [] },
                { player := some 1, fd := 5, invitations := [] },
                { player := some 2, fd := 6, invitations := [] }], []) := by
  refine ⟨rfl, rfl, rfl, rfl, by decide⟩

/-! ### client_registry.c: capacity -/

theorem cregOk_call (s : World F × CLIENT_REGISTRY) (c : CREG_CALL) (h : cregOk s) :
    cregOk (creg_call s c) := by
  obtain ⟨w, cr⟩ := s
  obtain ⟨hlen, h64, hmem⟩ := h
  simp only at hlen h64 hmem
  cases c with
  | register fd =>
    by_cases hfull : cr.len = 64
    · simp only [creg_call, creg_register, hfull, if_true]
      exact ⟨hlen, h64, hmem⟩
    · simp only [creg_call, creg_register, hfull, if_false]
      refine ⟨?_, ?_, ?_⟩
      · simp [hlen]
      · simp only [List.length_append, List.length_singleton]
        have : (cr.clients.length : Int) ≠ 64 := by rw [← hlen]; exact hfull
        omega
      · intro x hx
        simp only [List.mem_append, List.mem_singleton] at hx
        simp only [List.length_append, List.length_singleton]
        rcases hx with hx | hx
        · have := hmem x hx
          omega
        · omega
  | unregister client =>
    cases client with
    | none => exact ⟨hlen, h64, hmem⟩
    | some a =>
      by_cases ha : a ∈ cr.clients
      · simp only [creg_call, creg_unregister, unlink_of_mem a cr.clients ha]
        have hpos : 0 < cr.clients.length := List.length_pos_of_mem ha
        have hl : (cr.clients.erase a).length = cr.clients.length - 1 :=
          List.length_erase_of_mem ha
        refine ⟨?_, ?_, ?_⟩
        · simp only [hl, hlen]
          omega
        · simp only [hl]
          omega
        · intro x hx
          exact hmem x (List.mem_of_mem_erase hx)
      · simp only [creg_call, creg_unregister, unlink_of_not_mem a cr.clients ha]
        exact ⟨hlen, h64, hmem⟩

theorem cregOk_calls (s : World F × CLIENT_REGISTRY) (calls : List CREG_CALL) (h : cregOk s) :
    cregOk (creg_calls s calls) := by
  induction calls generalizing s with
  | nil => exact h
  | cons c rest ih => exact ih _ (cregOk_call s c h)

/-- C31: in the registry reached from `creg_init` by any sequence of
`creg_register` and `creg_unregister` calls, the field `len` equals the
number of registered clients, which is at most 64. With 64 clients
registered `creg_register` returns NULL and leaves clients and registry as
they were; with fewer it returns a new client, not registered before, that
has no player and no invitations, and appends it to the registry. -/
theorem creg_capacity (w0 : World F) (calls : List CREG_CALL) (fd : Int) :
    (creg_calls (w0, creg_init) calls).2.len =
      ((creg_calls (w0, creg_init) calls).2.clients.length : Int) ∧
    (creg_calls (w0, creg_init) calls).2.clients.length ≤ 64 ∧
    ((creg_calls (w0, creg_init) calls).2.clients.length = 64 →
      creg_register (creg_calls (w0, creg_init) calls).1 (creg_calls (w0, creg_init) calls).2 fd =
        (none, (creg_calls (w0, creg_init) calls).1, (creg_calls (w0, creg_init) calls).2)) ∧
    ((creg_calls (w0, creg_init) calls).2.clients.length ≠ 64 →
      ∃ c : Nat,
        creg_register (creg_calls (w0, creg_init) calls).1
            (creg_calls (w0, creg_init) calls).2 fd =
          (some c,
           { (creg_calls (w0, creg_init) calls).1 with
             clients := (creg_calls (w0, creg_init) calls).1.clients ++
               [{ player := none, fd := fd, invitations := [] }] },
           { clients := (creg_calls (w0, creg_init) calls).2.clients ++ [c]
             len := (creg_calls (w0, creg_init) calls).2.len + 1 }) ∧
        c ∉ (creg_calls (w0, creg_init) calls).2.clients ∧
        ((creg_calls (w0, creg_init) calls).1.clients ++
          [{ player := none, fd := fd, invitations := [] }])[c]? =
          some { player := none, fd := fd, invitations := [] }) := by
  have h0 : cregOk ((w0, creg_init) : World F × CLIENT_REGISTRY) := by
    refine ⟨rfl, by simp [creg_init], ?_⟩
    intro x hx
    simp [creg_init] at hx
  obtain ⟨hlen, h64, hmem⟩ := cregOk_calls _ calls h0
  generalize creg_calls (w0, creg_init) calls = s at hlen h64 hmem
  obtain ⟨w, cr⟩ := s
  simp only at hlen h64 hmem
  refine ⟨hlen, h64, ?_, ?_⟩
  · intro hfull
    have : cr.len = 64 := by rw [hlen, hfull]; rfl
    simp [creg_register, this]
  · intro hfull
    have : cr.len ≠ 64 := by
      rw [hlen]
      intro h
      apply hfull
      exact_mod_cast h
    refine ⟨w.clients.length, by simp [creg_register, this, client_create], ?_, by simp⟩
    intro hin
    exact absurd (hmem _ hin) (lt_irrefl _)

/-- An instance of the theorem above: after two registrations and the
removal of the first client, one client is registered and a third
registration returns a new, unbound client. -/
theorem creg_capacity_witness :
    ∃ c : Nat,
      creg_register
          (creg_calls (({ clients := [], invitations := [], players := [], sent := [] } :
            World ℚ), creg_init)
            [CREG_CALL.register 4, CREG_CALL.register 5, CREG_CALL.unregister (some 0)]).1
          (creg_calls (({ clients := [], invitations := [], players := [], sent := [] } :
            World ℚ), creg_init)
            [CREG_CALL.register 4, CREG_CALL.register 5, CREG_CALL.unregister (some 0)]).2 6 =
        (some c,
         { clients := [{ player := none, fd := 4, invitations := [] },
                       { player := none, fd := 5, invitations := [] },
                       { player := none, fd := 6, invitations := [] }]
           invitations := [], players := [], sent := [] },
         { clients := [1, c], len := 2 }) := by
  obtain ⟨c, h, -⟩ := (creg_capacity
    ({ clients := [], invitations := [], players := [], sent := [] } : World ℚ)
    [CREG_CALL.register 4, CREG_CALL.register 5, CREG_CALL.unregister (some 0)] 6).2.2.2
    (by decide)
  exact ⟨c, h⟩


/-! ### player_registry.c -/

theorem preg_loop_none (name : String) (l : List (PLAYER F)) (i : Nat)
    (h : ∀ pl ∈ l, pl.username ≠ name) : preg_loop name l i = none := by
  induction l generalizing i with
  | nil => rfl
  | cons pl next ih =>
    unfold preg_loop
    rw [if_neg (h pl (List.mem_cons_self _ _))]
    exact ih _ (fun q hq => h q (List.mem_cons_of_mem _ hq))

theorem preg_loop_some (name : String) (l : List (PLAYER F)) (i k : Nat)
    (h : preg_loop name l i = some k) :
    i ≤ k ∧ ∃ pl, l[k - i]? = some pl ∧ pl.username = name ∧
      ∀ j, j < k - i → ∀ q, l[j]? = some q → q.username ≠ name := by
  induction l generalizing i with
  | nil => simp [preg_loop] at h
  | cons pl next ih =>
    unfold preg_loop at h
    by_cases hn : pl.username = name
    · rw [if_pos hn] at h
      cases h
      exact ⟨le_refl _, pl, by simp, hn, by simp⟩
    · rw [if_neg hn] at h
      obtain ⟨hle, q, hq, hqn, hfirst⟩ := ih _ h
      have hk : k - i = (k - (i + 1)) + 1 := by omega
      refine ⟨by omega, q, by rw [hk]; simpa using hq, hqn, ?_⟩
      intro j hj q1 hq1
      cases j with
      | zero =>
        simp at hq1
        rw [← hq1]
        exact hn
      | succ j =>
        simp at hq1
        exact hfirst j (by omega) q1 hq1

theorem preg_loop_cases (name : String) (l : List (PLAYER F)) :
    (preg_loop name l 0 = none ∧ ∀ pl ∈ l, pl.username ≠ name) ∨
    ∃ k pl, preg_loop name l 0 = some k ∧ l[k]? = some pl ∧ pl.username = name := by
  cases h : preg_loop name l 0 with
  | none =>
    left
    refine ⟨rfl, ?_⟩
    intro pl hpl hn
    have : ∀ (l : List (PLAYER F)) (i : Nat), (∃ q ∈ l, q.username = name) →
        preg_loop name l i ≠ none := by
      intro l
      induction l with
      | nil => intro i ⟨q, hq, _⟩; cases hq
      | cons x next ih =>
        intro i ⟨q, hq, hqn⟩
        unfold preg_loop
        by_cases hx : x.username = name
        · rw [if_pos hx]; simp
        · rw [if_neg hx]
          rcases List.mem_cons.mp hq with h1 | h1
          · exact absurd (h1 ▸ hqn) hx
          · exact ih _ ⟨q, h1, hqn⟩
    exact this l 0 ⟨pl, hpl, hn⟩ h
  | some k =>
    right
    obtain ⟨-, pl, hpl, hn, -⟩ := preg_loop_some name l 0 k h
    exact ⟨k, pl, rfl, by simpa using hpl, hn⟩

/-- One `preg_register` keeps the usernames of the table free of
repetition and keeps every entry in its place. -/
theorem preg_register_keeps [Field F] (w : World F) (name : String)
    (h : (w.players.map (fun pl => pl.username)).Nodup) :
    ((preg_register w name).2.players.map (fun pl => pl.username)).Nodup ∧
    w.players <+: (preg_register w name).2.players := by
  unfold preg_register
  rcases preg_loop_cases name w.players with ⟨hnone, hno⟩ | ⟨k, pl, hk, -, -⟩
  · rw [hnone]
    refine ⟨?_, List.prefix_append _ _⟩
    simp only [List.map_append, List.map_cons, List.map_nil]
    rw [List.nodup_append]
    refine ⟨h, List.nodup_singleton _, ?_⟩
    intro a ha hb
    simp only [List.mem_singleton] at hb
    obtain ⟨q, hq, hqa⟩ := List.mem_map.mp ha
    exact hno q hq (by simp only [player_create] at hb; rw [hqa, hb])
  · rw [hk]
    exact ⟨h, List.prefix_refl _⟩

/-- C32: `preg_register` returns the first player of the registry with the
given username when there is one, and leaves every entry, with its rating,
as it was; when there is none it appends one new player with that username
and the rating 1500 and returns it. Either way the entries before stay in
their places. In the registry made by `preg_init` and any sequence of
`preg_register` calls no two entries have the same username, so the player
returned for a registered name is the one entry with that name. -/
theorem preg_register_set_semantics [Field F] (w : World F) (name : String)
    (names : List String) :
    (∀ (k : Nat) (pl : PLAYER F), w.players[k]? = some pl → pl.username = name →
      (∀ j, j < k → ∀ q, w.players[j]? = some q → q.username ≠ name) →
      preg_register w name = (some k, w)) ∧
    ((∀ pl ∈ w.players, pl.username ≠ name) →
      preg_register w name =
        (some w.players.length,
         { w with players := w.players ++ [{ username := name, rating := 1500 }] })) ∧
    w.players <+: (preg_register w name).2.players ∧
    ((preg_calls (preg_init w) names).players.map (fun pl => pl.username)).Nodup ∧
    (∀ (k : Nat) (pl : PLAYER F), (preg_calls (preg_init w) names).players[k]? = some pl →
      preg_register (preg_calls (preg_init w) names) pl.username =
        (some k, preg_calls (preg_init w) names)) := by
  have hnodup : ∀ (names : List String) (v : World F),
      (v.players.map (fun pl => pl.username)).Nodup →
      ((preg_calls v names).players.map (fun pl => pl.username)).Nodup := by
    intro names
    induction names with
    | nil => intro v hv; exact hv
    | cons n rest ih => intro v hv; exact ih _ (preg_register_keeps v n hv).1
  have hfirst : ∀ (v : World F) (k : Nat) (pl : PLAYER F), v.players[k]? = some pl →
      (∀ j, j < k → ∀ q, v.players[j]? = some q → q.username ≠ pl.username) →
      preg_register v pl.username = (some k, v) := by
    intro v k pl hk hbefore
    unfold preg_register
    rcases preg_loop_cases pl.username v.players with ⟨-, hno⟩ | ⟨k1, pl1, hk1, hpl1, hn1⟩
    · exact absurd rfl (hno pl (List.getElem?_mem hk))
    · rw [hk1]
      obtain ⟨-, q, hq, -, hmin⟩ := preg_loop_some pl.username v.players 0 k1 hk1
      simp only [Nat.sub_zero] at hq hmin
      have hkk : k1 = k := by
        rcases Nat.lt_trichotomy k1 k with hlt | heq | hgt
        · exact absurd hn1 (hbefore k1 hlt pl1 hpl1)
        · exact heq
        · exact absurd rfl (hmin k hgt pl hk)
      rw [hkk]
  refine ⟨?_, ?_, ?_, hnodup names (preg_init w) (by simp [preg_init]), ?_⟩
  · intro k pl hk hn hbefore
    subst hn
    exact hfirst w k pl hk hbefore
  · intro hno
    simp [preg_register, preg_loop_none name w.players 0 hno, player_create]
  · unfold preg_register
    rcases preg_loop_cases name w.players with ⟨hnone, -⟩ | ⟨k, pl, hk, -, -⟩
    · rw [hnone]
      exact List.prefix_append _ _
    · rw [hk]
  · intro k pl hk
    apply hfirst _ k pl hk
    intro j hj q hq hqn
    have hnd := hnodup names (preg_init w) (by simp [preg_init])
    have hlj : j < ((preg_calls (preg_init w) names).players.map
        (fun pl => pl.username)).length := by
      rw [List.length_map]
      exact (List.getElem?_eq_some.mp hq).1
    have h1 : ((preg_calls (preg_init w) names).players.map (fun pl => pl.username))[j]? =
        some q.username := by simp [hq]
    have h2 : ((preg_calls (preg_init w) names).players.map (fun pl => pl.username))[k]? =
        some pl.username := by simp [hk]
    rw [← hqn, ← h1] at h2
    have := List.getElem?_inj hlj hnd h2.symm
    omega


/-- An instance of the theorem above: in the table of the three players,
"bob" is registered at address 1 and "dave" is not registered. -/
theorem preg_register_set_semantics_witness :
    preg_register (threeClients ℚ) "bob" = (some 1, threeClients ℚ) ∧
    preg_register (threeClients ℚ) "dave" =
      (some 3, { threeClients ℚ with
        players := (threeClients ℚ).players ++ [{ username := "dave", rating := 1500 }] }) := by
  have h := preg_register_set_semantics (threeClients ℚ) "bob" []
  have h2 := preg_register_set_semantics (threeClients ℚ) "dave" []
  refine ⟨h.1 1 (player_create "bob") rfl rfl ?_, h2.2.1 ?_⟩
  · intro j hj q hq
    have hj0 : j = 0 := by omega
    subst hj0
    simp [threeClients] at hq
    rw [← hq]
    decide
  · intro pl hpl
    simp [threeClients, player_create] at hpl
    rcases hpl with h | h | h <;> rw [h] <;> decide

/-! ### game.c: the text of a move -/

/-- C33: for a position `p` from 1 to 9 and a game in which it is the turn
of the role of the move, `game_parse_move` of the text that
`game_unparse_move` writes for the move returns the move with position `p`,
row (p-1)/3, column (p-1)%3 and the same role. -/
theorem move_round_trip (game : GAME) (mv : GAME_MOVE) (p : Nat) (h1 : 1 ≤ p) (h9 : p ≤ 9)
    (hpos : mv.pos = (p : Int)) (hturn : game.player_role = mv.player_role) :
    game_parse_move game mv.player_role (game_unparse_move mv) =
      some { pos := (p : Int), row := (((p - 1) / 3 : Nat) : Int)
             col := (((p - 1) % 3 : Nat) : Int), player_role := mv.player_role } := by
  have hstr : strtoul (game_unparse_move mv) = p := by
    unfold game_unparse_move
    rw [hpos]
    by_cases hr : mv.player_role = FIRST_PLAYER_ROLE
    · rw [if_neg (by simp [hr])]
      interval_cases p <;> decide
    · rw [if_pos hr]
      interval_cases p <;> decide
  have hrow : (p - 1) / 3 < 3 := by omega
  have hcol : (p - 1) % 3 < 3 := by omega
  exact game_parse_move_in_range game mv.player_role _ p ⟨(p - 1) / 3, hrow⟩
    ⟨(p - 1) % 3, hcol⟩ hturn hstr h1 h9 rfl rfl

/-- An instance of the theorem above: the move of SECOND to position 6. -/
theorem move_round_trip_witness :
    game_unparse_move { pos := 6, row := 1, col := 2, player_role := SECOND_PLAYER_ROLE } =
      "6<O" ∧
    game_parse_move
        { board := boardOf ['X', 'X', ' ', 'O', 'O', ' ', ' ', ' ', 'X']
          player_role := SECOND_PLAYER_ROLE, game_winner := NULL_ROLE, over := 0 }
        SECOND_PLAYER_ROLE "6<O" =
      some { pos := 6, row := 1, col := 2, player_role := SECOND_PLAYER_ROLE } :=
  ⟨by decide, move_round_trip
    { board := boardOf ['X', 'X', ' ', 'O', 'O', ' ', ' ', ' ', 'X']
      player_role := SECOND_PLAYER_ROLE, game_winner := NULL_ROLE, over := 0 }
    { pos := 6, row := 1, col := 2, player_role := SECOND_PLAYER_ROLE } 6 (by decide)
    (by decide) rfl rfl⟩


/-! ### game.c: turn and marks -/

theorem countMark_setCell (b : Board) (row col : Fin 3) (x y : Char)
    (hempty : b row col = ' ') (hy : y ≠ ' ') :
    countMark (setCell b row col x) y = countMark b y + (if x = y then 1 else 0) := by
  have hne : ¬((' ' : Char) = y) := fun h => hy h.symm
  unfold countMark cells setCell
  fin_cases row <;> fin_cases col <;>
    simp [List.count_cons] at hempty ⊢ <;> simp [hempty, hne] <;> omega


/-- One step, the parse of a position 1..9 for some role and the successful
application of the move, keeps the relation between turn and marks. -/
theorem turnOk_step (g g1 : GAME) (role : GAME_ROLE) (str : String) (m : GAME_MOVE)
    (hinv : turnOk g) (h1 : 1 ≤ strtoul str) (h9 : strtoul str ≤ 9)
    (hparse : game_parse_move g role str = some m)
    (happly : game_apply_move g m = some (0, g1)) : turnOk g1 := by
  have hturn : g.player_role = role := by
    by_contra h
    simp [game_parse_move, h] at hparse
  have hrow : (strtoul str - 1) / 3 < 3 := by omega
  have hcol : (strtoul str - 1) % 3 < 3 := by omega
  have hm := game_parse_move_in_range g role str (strtoul str) ⟨(strtoul str - 1) / 3, hrow⟩
    ⟨(strtoul str - 1) % 3, hcol⟩ hturn rfl h1 h9 rfl rfl
  rw [hm] at hparse
  cases hparse
  by_cases hocc : g.board ⟨(strtoul str - 1) / 3, hrow⟩ ⟨(strtoul str - 1) % 3, hcol⟩ = ' '
  · have hrole : role = FIRST_PLAYER_ROLE ∨ role = SECOND_PLAYER_ROLE := by
      rcases hinv with ⟨h, -⟩ | ⟨h, -⟩
      · exact Or.inl (hturn ▸ h)
      · exact Or.inr (hturn ▸ h)
    have heq := game_apply_move_eq g
      { pos := ((strtoul str : Nat) : Int)
        row := (((⟨(strtoul str - 1) / 3, hrow⟩ : Fin 3).val : Nat) : Int)
        col := (((⟨(strtoul str - 1) % 3, hcol⟩ : Fin 3).val : Nat) : Int)
        player_role := role }
      ⟨(strtoul str - 1) / 3, hrow⟩
      ⟨(strtoul str - 1) % 3, hcol⟩ rfl rfl hrole hocc
    rw [heq] at happly
    simp only [Option.some.injEq, Prod.mk.injEq, true_and] at happly
    subst happly
    unfold turnOk
    rw [win_check_board, win_check_player_role]
    have hX := countMark_setCell g.board ⟨(strtoul str - 1) / 3, hrow⟩
      ⟨(strtoul str - 1) % 3, hcol⟩ (markOf role) 'X' hocc (by decide)
    have hO := countMark_setCell g.board ⟨(strtoul str - 1) / 3, hrow⟩
      ⟨(strtoul str - 1) % 3, hcol⟩ (markOf role) 'O' hocc (by decide)
    simp only at hX hO ⊢
    rw [hX, hO]
    rcases hinv with ⟨hr, hc⟩ | ⟨hr, hc⟩
    · have hrl : role = FIRST_PLAYER_ROLE := hturn ▸ hr
      subst hrl
      right
      refine ⟨by decide, ?_⟩
      simp [markOf, hc]
    · have hrl : role = SECOND_PLAYER_ROLE := hturn ▸ hr
      subst hrl
      left
      refine ⟨by decide, ?_⟩
      simp [markOf, hc, FIRST_PLAYER_ROLE, SECOND_PLAYER_ROLE]
  · have := game_apply_move_occupied g
      { pos := ((strtoul str : Nat) : Int)
        row := (((⟨(strtoul str - 1) / 3, hrow⟩ : Fin 3).val : Nat) : Int)
        col := (((⟨(strtoul str - 1) % 3, hcol⟩ : Fin 3).val : Nat) : Int)
        player_role := role }
      ⟨(strtoul str - 1) / 3, hrow⟩ ⟨(strtoul str - 1) % 3, hcol⟩ rfl rfl hocc
    rw [this] at happly
    simp at happly

theorem turnOk_playMoves (steps : List (GAME_ROLE × String)) (g0 g : GAME)
    (hinv : turnOk g0) (hpos : ∀ s ∈ steps, 1 ≤ strtoul s.2 ∧ strtoul s.2 ≤ 9)
    (hplay : playMoves g0 steps = some g) : turnOk g := by
  induction steps generalizing g0 with
  | nil =>
    simp only [playMoves, Option.some.injEq] at hplay
    exact hplay ▸ hinv
  | cons s rest ih =>
    obtain ⟨role, str⟩ := s
    have hp := hpos (role, str) (List.mem_cons_self _ _)
    unfold playMoves at hplay
    cases hparse : game_parse_move g0 role str with
    | none => simp [hparse] at hplay
    | some m =>
      simp only [hparse] at hplay
      cases happly : game_apply_move g0 m with
      | none => simp [happly] at hplay
      | some r =>
        obtain ⟨rc, g1⟩ := r
        by_cases hrc : rc = 0
        · subst hrc
          simp only [happly] at hplay
          exact ih g1 (turnOk_step g0 g1 role str m hinv hp.1 hp.2 hparse happly)
            (fun s hs => hpos s (List.mem_cons_of_mem _ hs)) hplay
        · simp only [happly] at hplay
          split at hplay
          · rename_i heq
            simp only [Option.some.injEq, Prod.mk.injEq] at heq
            exact absurd heq.1 hrc
          · cases hplay

/-- C34: in a game reached from `game_create` by steps that each parse a
position 1..9 for some role with `game_parse_move` and apply the move with
`game_apply_move` successfully, the number of 'X' cells is the number of 'O'
cells or one more, and FIRST is to move exactly when the two numbers are
equal. -/
theorem turn_mark_count_invariant (steps : List (GAME_ROLE × String)) (g : GAME)
    (hpos : ∀ s ∈ steps, 1 ≤ strtoul s.2 ∧ strtoul s.2 ≤ 9)
    (hplay : playMoves game_create steps = some g) :
    (countMark g.board 'X' = countMark g.board 'O' ∨
      countMark g.board 'X' = countMark g.board 'O' + 1) ∧
    (g.player_role = FIRST_PLAYER_ROLE ↔ countMark g.board 'X' = countMark g.board 'O') := by
  have h0 : turnOk game_create := Or.inl ⟨rfl, by decide⟩
  rcases turnOk_playMoves steps game_create g h0 hpos hplay with ⟨hr, hc⟩ | ⟨hr, hc⟩
  · exact ⟨Or.inl hc, fun _ => hc, fun _ => hr⟩
  · refine ⟨Or.inr hc, fun h => ?_, fun h => ?_⟩
    · rw [hr] at h
      exact absurd h (by decide)
    · omega

set_option maxRecDepth 100000 in
/-- An instance of the theorem above: after X:1, O:4, X:2 there are two 'X'
and one 'O', and SECOND is to move. -/
theorem turn_mark_count_invariant_witness :
    ∃ g : GAME,
      playMoves game_create
        [(FIRST_PLAYER_ROLE, "1"), (SECOND_PLAYER_ROLE, "4"), (FIRST_PLAYER_ROLE, "2")] =
        some g ∧
      countMark g.board 'X' = 2 ∧ countMark g.board 'O' = 1 ∧
      g.player_role = SECOND_PLAYER_ROLE ∧
      (countMark g.board 'X' = countMark g.board 'O' ∨
        countMark g.board 'X' = countMark g.board 'O' + 1) :=
  ⟨_, rfl, by decide, by decide, rfl,
    (turn_mark_count_invariant
      [(FIRST_PLAYER_ROLE, "1"), (SECOND_PLAYER_ROLE, "4"), (FIRST_PLAYER_ROLE, "2")] _
      (by decide) rfl).1⟩


/-! ### client.c: who may accept -/

/-- C35: a bound client that is the source of an OPEN invitation found at
`id` in its own list can accept it: `client_accept_invitation` returns 0 and
the invitation becomes ACCEPTED with a fresh game, the ACCEPTED packet going
to the source, that is to the caller. The return value, the text returned
for the ACK, the clients and the invitations afterwards are those of the
call by any bound client, such as the target, whose id resolves to the same
invitation. -/
theorem client_accept_invitation_by_source (w : World F) (c p i : Nat) (id : Int)
    (cl : CLIENT) (r : INVITATION) (hcl : w.clients[c]? = some cl)
    (hbound : cl.player = some p)
    (hinv : get_invitation_by_index w (some c) id = some (some i))
    (hr : w.invitations[i]? = some r) (hopen : r.state = INV_OPEN_STATE)
    (hsrc : r.source = some c) :
    client_accept_invitation w (some c) id =
      some (0,
        if r.target_role = FIRST_PLAYER_ROLE then some (game_unparse_state game_create) else none,
        { w with
          invitations := w.invitations.set i
            { r with state := INV_ACCEPTED_STATE, game := some game_create }
          sent := w.sent ++
            [{ client := c
               hdr :=
                 { type := JEUX_ACCEPTED_PKT
                   id := toU8 ((cl.invitations.indexOf i : Nat) : Int)
                   role := 0
                   size := if r.target_role = FIRST_PLAYER_ROLE then 0
                     else toU16 (strlen (game_unparse_state game_create)) }
               data := if r.target_role = FIRST_PLAYER_ROLE then none
                 else some (game_unparse_state game_create) }] }) ∧
    ∀ (t pt : Nat) (idt : Int) (ct : CLIENT), w.clients[t]? = some ct → ct.player = some pt →
      get_invitation_by_index w (some t) idt = some (some i) →
      (client_accept_invitation w (some t) idt).map
          (fun x => (x.1, x.2.1, x.2.2.clients, x.2.2.invitations)) =
        (client_accept_invitation w (some c) id).map
          (fun x => (x.1, x.2.1, x.2.2.clients, x.2.2.invitations)) := by
  have hself := client_accept_invitation_eq w c p i c id cl cl r hcl hbound hinv hr hopen hsrc
    hcl
  refine ⟨hself, ?_⟩
  intro t pt idt ct hct hbt hinvt
  rw [hself, client_accept_invitation_eq w t pt i c idt ct cl r hct hbt hinvt hr hopen hsrc hcl]
  rfl

/-- An instance of the theorem above: alice accepts her own invitation to
bob, and the result is that of bob accepting it. -/
theorem client_accept_invitation_by_source_witness :
    (client_accept_invitation aliceInvitedTwo (some 0) 0).map
        (fun x => (x.1, (view x.2.2).2.map (fun v => (v.state, v.game.isSome)),
          x.2.2.sent.map (fun s => (s.client, s.hdr.type)))) =
      some (0, [(INV_ACCEPTED_STATE, true), (INV_OPEN_STATE, false)],
        [(0, JEUX_ACCEPTED_PKT)]) ∧
    (client_accept_invitation aliceInvitedTwo (some 1) 0).map
        (fun x => (x.1, x.2.1, x.2.2.clients, x.2.2.invitations)) =
      (client_accept_invitation aliceInvitedTwo (some 0) 0).map
        (fun x => (x.1, x.2.1, x.2.2.clients, x.2.2.invitations)) := by
  have h := client_accept_invitation_by_source aliceInvitedTwo 0 0 0 0
    { player := some 0, fd := 4, invitations := [0, 1] }
    { source := some 0, target := some 1, source_role := FIRST_PLAYER_ROLE
      target_role := SECOND_PLAYER_ROLE, game := none, state := INV_OPEN_STATE }
    rfl rfl rfl rfl rfl rfl
  refine ⟨?_, h.2 1 1 0 { player := some 1, fd := 5, invitations := [0] } rfl rfl rfl⟩
  rw [h.1]
  rfl

/-! ### client.c: resigning against the same player or an unbound peer -/

set_option maxRecDepth 100000 in
/-- The sample state `sameNameGame` is what the session loops produce on a
server with two registered clients: both send LOGIN with the name alice,
client 1 sends INVITE for "alice" and client 0 sends ACCEPT. -/
theorem sameNameGame_reached :
    (serviceRun (fun x : ℚ => x) (fun _ => 1500)
      (creg_calls (emptyServer ℚ, creg_init) [CREG_CALL.register 4, CREG_CALL.register 5])
      [(some 0, { type := JEUX_LOGIN_PKT, id := 0, role := 0, size := 5 }, "alice"),
       (some 1, { type := JEUX_LOGIN_PKT, id := 0, role := 0, size := 5 }, "alice"),
       (some 1, { type := JEUX_INVITE_PKT, id := 0, role := 2, size := 5 }, "alice"),
       (some 0, { type := JEUX_ACCEPT_PKT, id := 0, role := 0, size := 0 }, "")]).map
      (fun r => (view r.1, r.1.players.map (fun pl => pl.username))) =
      some (view sameNameGame, ["alice"]) := by
  decide

set_option maxRecDepth 100000 in
/-- The sample state `unboundPeerGame` is what the session loops produce on
a server with two registered clients: client 0 sends LOGIN with the name
alice, INVITE for "dave" and ACCEPT with the id of its own invitation. -/
theorem unboundPeerGame_reached :
    (serviceRun (fun x : ℚ => x) (fun _ => 1500)
      (creg_calls (emptyServer ℚ, creg_init) [CREG_CALL.register 4, CREG_CALL.register 5])
      [(some 0, { type := JEUX_LOGIN_PKT, id := 0, role := 0, size := 5 }, "alice"),
       (some 0, { type := JEUX_INVITE_PKT, id := 0, role := 2, size := 4 }, "dave"),
       (some 0, { type := JEUX_ACCEPT_PKT, id := 0, role := 0, size := 0 }, "")]).map
      (fun r => (view r.1, r.1.players.map (fun pl => pl.username))) =
      some (view unboundPeerGame, ["alice"]) := by
  decide

/-- C18 at its failing inputs. Two clients are logged in under the name
alice and play a game; either of them resigns. The invitation is closed and
the game resigned, and then `player_post_result` is called with the one
player twice and waits for the mutex it holds: `client_resign_game` has no
result, so it does not return success, the invitation stays in both lists
and no RESIGNED is sent. In the second state the peer of alice is not
logged in: `player_post_result` is called with the NULL player of the peer,
and the call has no result either. -/
theorem client_resign_game_no_result :
    client_resign_game (fun x : ℚ => x) sameNameGame (some 0) 0 = none ∧
    client_resign_game (fun x : ℚ => x) sameNameGame (some 1) 0 = none ∧
    jeux_client_service (fun x : ℚ => x) (fun _ => 1500) sameNameGame
      { clients := [0, 1], len := 2 } (some 0)
      { type := JEUX_RESIGN_PKT, id := 0, role := 0, size := 0 } "" = none ∧
    client_resign_game (fun x : ℚ => x) unboundPeerGame (some 0) 0 = none ∧
    (sameNameGame.invitations.map (fun v => (v.state, v.game.map game_is_over)) =
        [(INV_ACCEPTED_STATE, some 0)] ∧
      sameNameGame.clients.map (fun cl => cl.player) = [some 0, some 0]) := by
  refine ⟨rfl, rfl, rfl, rfl, rfl, rfl⟩

end Jeux
